import Mathlib

/-!
# Cyrus IMAP: the WebDAV sync-collection REPORT and its surroundings

A shallow embedding of `report_sync_col` and its helpers (`imap/http_dav.c`),
followed by theorems about token validation, record selection, truncation
under a result limit, emission and the returned sync-token. Further parts
embed the consistency checker (`imap/chk_cyrus.c`), the retrying I/O calls
(`lib/retry.c`), the path parsers `prin_parse_path` and `carddav_parse_path`,
the privilege handling of `meth_acl` and `add_privs`, the PROPPATCH code
(`do_proppatch` and its callbacks), the status that the methods give for a
failed mailbox lookup, and the index record codec of the specification.

Conventions of the embedding

* C unsigned fields are natural numbers; `limit` starts at `(uint32_t) -1`.
* A C `int` result of 0 is `none`, an HTTP error result is `some code`.
* The function is a state transformer on `report_state`, which holds the
  locals of `report_sync_col` together with what it wrote through `fctx`
  and `txn`; `goto done` is an early return of the state reached so far.
* `istate.map` is the list of the entries written so far, so `nresp` is
  its length until the truncation step lowers it.
* Library code that is not part of these sources (libc `qsort`, the
  cached-header lookup, constants of headers that are absent) is collected
  in `environment` and in the environment structures of the other parts;
  allocation failures of libxml2 are not modelled.
* A `char *` into a path buffer is the offset it points at; a store outside
  a buffer makes the result `none`.
-/

namespace Cyrus

/-! ## Data model -/

/-- HTTP results that `report_sync_col` and `propfind_by_resource` produce,
and those of the property callbacks and of `do_proppatch`. The last entry,
`SIGSEGV`, is no HTTP result: it stands in the `ret` of a `report_sync_col`
call that does not return, because the process is stopped by that signal on
a read through an invalid pointer. -/
inductive http_code
  | HTTP_BAD_REQUEST
  | HTTP_FORBIDDEN
  | HTTP_NOT_FOUND
  | HTTP_SERVER_ERROR
  | HTTP_NO_STORAGE
  | HTTP_OK
  | HTTP_CONFLICT
  | HTTP_FAILED_DEP
  | SIGSEGV
  deriving DecidableEq

open http_code

/-- The fields of `struct index_record` that the report reads. -/
structure index_record where
  uid : Nat
  modseq : Nat
  system_flags : Nat
  user_flags : List Nat
  recno : Nat
  deriving DecidableEq

/-- One slot of `istate.map` (`struct index_map`); only `.record` is used. -/
structure index_map where
  record : index_record
  deriving DecidableEq

/-- A slot as `xzmalloc` leaves it: all fields zero. -/
def zero_map : index_map := ⟨⟨0, 0, 0, [], 0⟩⟩

/-- The index header fields (`mailbox->i`), the record blocks of the index
file (`none` is a block that `mailbox_read_index_record` fails to read), and
the user flag number that `mailbox_user_flag(mailbox, DFLAG_UNBIND, ..)` yields
(`none` when that call fails, the C code then sets `userflag = -1`). -/
structure mailbox where
  uidvalidity : Nat
  highestmodseq : Nat
  deletedmodseq : Nat
  num_records : Nat
  records : List (Option index_record)
  unbind_userflag : Option Nat
  deriving DecidableEq

/-- Compare modseq in index maps, used for sorting (`map_modseq_cmp`). -/
def map_modseq_cmp (m1 m2 : index_map) : Int :=
  if m1.record.modseq < m2.record.modseq then -1
  else if m1.record.modseq > m2.record.modseq then 1
  else 0

/-- What the report takes from outside these sources: the namespace constant
`XML_NS_CYRUS`, `MAX_MAILBOX_PATH`, the `FLAG_EXPUNGED` bit mask, libc `qsort`
(applied to a comparison function and the array) and `index_getheader`
(the cached header of a map entry, `none` for a NULL result). -/
structure environment where
  XML_NS_CYRUS : String
  MAX_MAILBOX_PATH : Nat
  FLAG_EXPUNGED : Nat
  qsort : (index_map → index_map → Int) → List index_map → List index_map
  index_getheader : index_map → String → Option String

/-- The contract of libc `qsort` for the comparison the report passes: the
result is a rearrangement of the input that is ascending for
`map_modseq_cmp`; the order among equal keys is left open. -/
def qsort_contract (E : environment) : Prop :=
  ∀ l : List index_map,
    (E.qsort map_modseq_cmp l).Perm l ∧
    (E.qsort map_modseq_cmp l).Pairwise (fun a b => map_modseq_cmp a b ≤ 0)

/-- Modelled from the spec: `mailbox_read_index_record` (imap/mailbox.c is not
among the sources). Reads the block with 1-based number `recno`; fails beyond
the stored blocks or on a corrupt block; a record that is read carries its
`recno`. -/
def mailbox_read_index_record (mb : mailbox) (recno : Nat) : Option index_record :=
  if recno = 0 then none
  else match mb.records.getD (recno - 1) none with
    | none => none
    | some r => some { r with recno := recno }

/-- Modelled from the spec: `mailbox_find_index_record` (imap/mailbox.c is not
among the sources): the readable record of the mailbox with the given uid. -/
def mailbox_find_index_record (mb : mailbox) (uid : Nat) : Option index_record :=
  ((List.range mb.num_records).filterMap (fun i => mailbox_read_index_record mb (i + 1))).find?
    (fun r => r.uid = uid)

/-- A child added to the multistatus root by `xml_add_response`: either a
status line for an href, or the propstat elements built for a record.
The href is the request path, with `some name` where `propfind_by_resource`
appended a resource name to it (the length bound of the path buffer is not
modelled). -/
inductive response
  | status (href : Option String) (code : http_code)
  | propstat (href : Option String) (record : Option index_record)
  deriving DecidableEq

/-- Children of the sync-collection element as the parse loop sees them:
an element called sync-token, sync-level or limit, or anything else.
The string is what `xmlNodeListGetString` returns for the element (`none`
for NULL); for limit, one entry per child element called nresults. -/
inductive xml_node
  | sync_token (str : Option String)
  | sync_level (str : Option String)
  | limit (nresults : List (Option String))
  | other
  deriving DecidableEq

/-- Locals of `report_sync_col` and its visible effects: `ret`, the
description written through `fctx->errstr`, the precondition code
`txn->error.precond` (which the function never assigns), `fctx->depth`, the
parsed token,
`limit`, `highestmodseq`, `istate.map`, `nresp`, the responses added to the
multistatus root, the sync-token child, and the number of
`mailbox_unlock_index` calls. For a call that returns, `ret` is the value
returned (`none` for 0); for a call that is stopped inside the reporting
loop it is `some SIGSEGV`, and the other fields are as they stood at that
point. -/
structure report_state where
  ret : Option http_code
  errstr : Option String
  precond : Nat
  depth : Nat
  uidvalidity : Nat
  syncmodseq : Nat
  limit : Nat
  highestmodseq : Nat
  map : List index_map
  nresp : Nat
  responses : List response
  sync_token : Option String
  unlocks : Nat
  deriving DecidableEq

/-- State at function entry: `ret = 0`, `uidvalidity = 0`, `syncmodseq = 0`,
`limit = -1` as `uint32_t`, `fctx->depth` as `meth_report` set it, and no
error description or precondition in the transaction yet. -/
def initial_state (depth : Nat) : report_state :=
  { ret := none, errstr := none, precond := 0, depth := depth, uidvalidity := 0, syncmodseq := 0,
    limit := 4294967295, highestmodseq := 0, map := [], nresp := 0, responses := [],
    sync_token := none, unlocks := 0 }

/-- Setting `*fctx->errstr` and `ret` before `goto done`. -/
def fail (st : report_state) (code : http_code) (desc : String) : report_state :=
  { st with ret := some code, errstr := some desc }

/-! ## libc scanning and string helpers -/

/-- The libc `isspace` class in the C locale. -/
def isspace (c : Char) : Bool :=
  c.toNat = 32 || (9 ≤ c.toNat && c.toNat ≤ 13)

/-- Reads the decimal digits at the head of the input: the accumulated
value, the number of digits consumed, and the remaining input. -/
def scan_digits : List Char → Nat → Nat → Nat × Nat × List Char
  | [], acc, n => (acc, n, [])
  | c :: cs, acc, n =>
    if c.isDigit then scan_digits cs (10 * acc + (c.toNat - 48)) (n + 1)
    else (acc, n, c :: cs)

/-- One unsigned decimal conversion of `sscanf` as glibc performs it on an
LP64 platform (through `strtoul`/`strtoull`): white space is skipped, one
sign is accepted, at least one digit is required, a value that does not fit
64 bits saturates, a minus sign negates modulo 2^64. Yields the 64-bit value
and the remaining input, `none` on a matching failure. -/
def scan_unsigned (s : List Char) : Option (Nat × List Char) :=
  let s1 := s.dropWhile isspace
  let neg := s1.head? = some '-'
  let s2 := if s1.head? = some '-' ∨ s1.head? = some '+' then s1.tail else s1
  match scan_digits s2 0 0 with
  | (v, n, rest) =>
    if n = 0 then none
    else if 2 ^ 64 ≤ v then some (2 ^ 64 - 1, rest)
    else if neg then some ((2 ^ 64 - v) % 2 ^ 64, rest)
    else some (v, rest)

/-- Result of `sscanf(str, "%u", &x)`: `some x` exactly when it returns 1. -/
def sscanf_u (str : String) : Option Nat :=
  match scan_unsigned str.toList with
  | none => none
  | some (v, _) => some (v % 2 ^ 32)

/-- Result of `sscanf(s, "%u-" MODSEQ_FMT, &uidvalidity, &syncmodseq)` with
`MODSEQ_FMT` the 64-bit unsigned decimal format: `some (uidvalidity,
syncmodseq)` exactly when it returns 2. -/
def sscanf_u_dash_llu (s : List Char) : Option (Nat × Nat) :=
  match scan_unsigned s with
  | none => none
  | some (u, rest) =>
    match rest with
    | [] => none
    | c :: rest2 =>
      if c = '-' then
        match scan_unsigned rest2 with
        | none => none
        | some (m, _) => some (u % 2 ^ 32, m)
      else none

/-- Whether `xmlStrncmp(str, pre, strlen(pre))` is 0: `str` starts with `pre`. -/
def starts_with : List Char → List Char → Bool
  | [], _ => true
  | _ :: _, [] => false
  | p :: ps, c :: cs => p = c && starts_with ps cs

/-- The text after the last slash: `strrchr(str, '/') + 1` (the caller has
checked that a slash is present). -/
def after_last_slash (s : List Char) : List Char :=
  (s.reverse.takeWhile (fun c => c ≠ '/')).reverse

/-- Result of `strstr(hay, needle)`: the tail of `hay` that starts at the
first occurrence of `needle`, `none` for NULL. -/
def strstr : List Char → List Char → Option (List Char)
  | [], needle => if needle = [] then some [] else none
  | c :: cs, needle =>
    if starts_with needle (c :: cs) then some (c :: cs) else strstr cs needle

/-- Resource filename from a Content-Disposition header value
(`report_sync_col`, the lines after `index_getheader`): the text after
`filename=`, up to the closing double quote when it opens with one, up to
the next semicolon otherwise. For a header without `filename=`, `strstr`
gives NULL and `resource` becomes `(char *) 9`: the test `if (!resource)`
does not hold and the read `*resource` that follows faults. The result is
`none` exactly there. -/
def resource_filename (p : List Char) : Option (List Char) :=
  match strstr p "filename=".toList with
  | none => none
  | some s =>
    match s.drop 9 with
    | [] => some []
    | c :: r =>
      if c = Char.ofNat 34 then some (r.takeWhile (fun x => x ≠ Char.ofNat 34))
      else some ((c :: r).takeWhile (fun x => x ≠ ';'))

/-- The sync-token text: `snprintf(tokenuri, MAX_MAILBOX_PATH,
XML_NS_CYRUS "sync/%u-" MODSEQ_FMT, uidvalidity, highestmodseq)`, which keeps
at most `MAX_MAILBOX_PATH - 1` characters. -/
def tokenuri (E : environment) (uidvalidity highestmodseq : Nat) : String :=
  String.mk ((E.XML_NS_CYRUS ++ "sync/" ++ Nat.repr uidvalidity ++ "-" ++
    Nat.repr highestmodseq).toList.take (E.MAX_MAILBOX_PATH - 1))

/-! ## Parsing the children of the report element -/

/-- The sync-token element with text `str`: prefix check, scan of the text
after the last slash, and validation against the index header. An accepted
token is stored in `uidvalidity` and `syncmodseq`. -/
def parse_sync_token (E : environment) (mb : mailbox) (str : String)
    (st : report_state) : report_state :=
  if starts_with (E.XML_NS_CYRUS ++ "sync/").toList str.toList = false then
    fail st HTTP_FORBIDDEN "Invalid sync-token"
  else
    match sscanf_u_dash_llu (after_last_slash str.toList) with
    | none => fail st HTTP_FORBIDDEN "Invalid sync-token"
    | some (uidvalidity, syncmodseq) =>
      if syncmodseq = 0 ∨ uidvalidity ≠ mb.uidvalidity ∨
          syncmodseq < mb.deletedmodseq ∨ syncmodseq > st.highestmodseq then
        fail st HTTP_FORBIDDEN "Invalid sync-token"
      else { st with uidvalidity := uidvalidity, syncmodseq := syncmodseq }

/-- The sync-level element with text `str`. -/
def parse_sync_level (str : String) (st : report_state) : report_state :=
  if str = "infinity" then
    fail st HTTP_SERVER_ERROR "This server DOES NOT support infinite depth requests"
  else
    match sscanf_u str with
    | none => fail st HTTP_BAD_REQUEST "Illegal sync-level"
    | some depth =>
      if depth ≠ 1 then fail st HTTP_BAD_REQUEST "Illegal sync-level"
      else { st with depth := depth }

/-- The nresults children of a limit element, in document order. -/
def parse_limit : List (Option String) → report_state → report_state
  | [], st => st
  | none :: _, st => fail st HTTP_FORBIDDEN "Invalid limit"
  | some str :: rest, st =>
    match sscanf_u str with
    | none => fail st HTTP_FORBIDDEN "Invalid limit"
    | some limit => parse_limit rest { st with limit := limit }

/-- One iteration of the loop over `inroot->children`. -/
def parse_child (E : environment) (mb : mailbox) (node : xml_node)
    (st : report_state) : report_state :=
  match node with
  | .sync_token (some str) => parse_sync_token E mb str st
  | .sync_token none => st
  | .sync_level (some str) => parse_sync_level str st
  | .sync_level none => st
  | .limit nresults => parse_limit nresults st
  | .other => st

/-- The loop over `inroot->children`; it is left through `goto done` as soon
as a child has set `ret`. -/
def parse_children (E : environment) (mb : mailbox) :
    List xml_node → report_state → report_state
  | [], st => st
  | node :: rest, st =>
    match (parse_child E mb node st).ret with
    | some _ => parse_child E mb node st
    | none => parse_children E mb rest (parse_child E mb node st)

/-! ## Selecting, truncating and reporting the records -/

/-- The test `record->system_flags & FLAG_EXPUNGED`. -/
def is_expunged (E : environment) (record : index_record) : Bool :=
  record.system_flags &&& E.FLAG_EXPUNGED ≠ 0

/-- The test `(userflag >= 0) && record->user_flags[userflag / 32] &
(1 << (userflag & 31))`, with `userflag = -1` rendered as `none`. -/
def is_unbound (userflag : Option Nat) (record : index_record) : Bool :=
  match userflag with
  | none => false
  | some f => record.user_flags.getD (f / 32) 0 &&& (1 <<< (f &&& 31)) ≠ 0

/-- The loop "Find which resources we need to report". The first argument
counts the iterations left (`num_records + 1 - recno`); each record is read
into slot `map[nresp]`, and `nresp` advances only when the record is kept,
so the list of kept entries grows at its end. -/
def find_resources (E : environment) (mb : mailbox) (syncmodseq : Nat)
    (userflag : Option Nat) : Nat → Nat → List index_map → List index_map
  | 0, _, map => map
  | n + 1, recno, map =>
    match mailbox_read_index_record mb recno with
    | none => find_resources E mb syncmodseq userflag n (recno + 1) map
    | some record =>
      if record.modseq ≤ syncmodseq then
        find_resources E mb syncmodseq userflag n (recno + 1) map
      else if is_unbound userflag record then
        find_resources E mb syncmodseq userflag n (recno + 1) map
      else if syncmodseq = 0 ∧ is_expunged E record then
        find_resources E mb syncmodseq userflag n (recno + 1) map
      else
        find_resources E mb syncmodseq userflag n (recno + 1) (map ++ [⟨record⟩])

/-- The selection loop with its initialisation `nresp = 0, recno = 1` and
bound `recno <= mailbox->i.num_records`. -/
def select_resources (E : environment) (mb : mailbox) (syncmodseq : Nat) : List index_map :=
  find_resources E mb syncmodseq mb.unbind_userflag mb.num_records 1 []

/-- The loop `for (nresp = limit; nresp && map[nresp-1].record.modseq ==
map[nresp].record.modseq; nresp--);` as a function of the start value. -/
def last_with_modseq (map : List index_map) : Nat → Nat
  | 0 => 0
  | nresp + 1 =>
    if (map.getD nresp zero_map).record.modseq = (map.getD (nresp + 1) zero_map).record.modseq
    then last_with_modseq map nresp
    else nresp + 1

/-- The block `if (limit < nresp)`: sort by modseq, move the cut, fail when
nothing is left, otherwise take the modseq of the last kept record as
`highestmodseq` and add the 507 response for the request path. -/
def truncate_responses (E : environment) (st : report_state) : report_state :=
  if st.limit < st.nresp then
    let map := E.qsort map_modseq_cmp st.map
    let nresp := last_with_modseq map st.limit
    if nresp = 0 then
      fail { st with map := map, nresp := nresp } HTTP_FORBIDDEN "Unable to truncate results"
    else
      { st with
        map := map
        nresp := nresp
        highestmodseq := (map.getD (nresp - 1) zero_map).record.modseq
        responses := st.responses ++ [response.status none HTTP_NO_STORAGE] }
  else st

/-- The response that `xml_add_response(fctx, code)` adds for the current
request path: a status line when `code` is not 0, otherwise the propstat
elements for `fctx->record`. -/
def xml_add_response (href : Option String) (code : Option http_code)
    (fctx_record : Option index_record) : response :=
  match code with
  | some c => response.status href c
  | none => response.propstat href fctx_record

/-- The function `propfind_by_resource` for a resource name and IMAP uid,
entered with `fctx->record` as given and no `fctx->filter` (`meth_report`
clears the context and the sync report installs none): a 404 response for a
missing target, the property response otherwise. -/
def propfind_by_resource (mb : mailbox) (fctx_record : Option index_record)
    (resource : String) (imap_uid : Nat) (responses : List response) : List response :=
  let record :=
    if imap_uid ≠ 0 ∧ fctx_record = none then mailbox_find_index_record mb imap_uid
    else fctx_record
  if imap_uid = 0 ∨ record = none then
    responses ++ [xml_add_response (some resource) (some HTTP_NOT_FOUND) record]
  else
    responses ++ [xml_add_response (some resource) none record]

/-- One iteration of the loop "Report the resources within the client
requested limit", giving the responses after it, or `none` when the
iteration faults. An entry without a Content-Disposition header leaves
`resource` NULL and is passed over by `continue`; a header without
`filename=` leads to the faulting read of `*resource`; otherwise an expunged
record is reported with `imap_uid` 0, any other with its uid and the record
in `fctx->record`. -/
def report_resource (E : environment) (mb : mailbox) (responses : List response)
    (m : index_map) : Option (List response) :=
  match E.index_getheader m "Content-Disposition" with
  | none => some responses
  | some p =>
    match resource_filename p.toList with
    | none => none
    | some resource =>
      if is_expunged E m.record then
        some (propfind_by_resource mb none (String.mk resource) 0 responses)
      else
        some (propfind_by_resource mb (some m.record) (String.mk resource) m.record.uid
          responses)

/-- The reporting loop over `map[0 .. nresp-1]`: the responses added, and
whether the loop ran to its end. It stops at the first iteration that
faults, with the responses added until then and `false`; the entries after
that one are not visited. -/
def report_resources (E : environment) (mb : mailbox) :
    List index_map → List response → List response × Bool
  | [], responses => (responses, true)
  | m :: rest, responses =>
    match report_resource E mb responses m with
    | none => (responses, false)
    | some added => report_resources E mb rest added

/-- The entries `map[0 .. nresp-1]` of a state: the records to report. -/
def batch (st : report_state) : List index_map :=
  st.map.take st.nresp

/-- The state after `highestmodseq = mailbox->i.highestmodseq` and the loop
over the children of the request element. -/
def parsed_request (E : environment) (mb : mailbox) (depth : Nat)
    (children : List xml_node) : report_state :=
  parse_children E mb children { initial_state depth with highestmodseq := mb.highestmodseq }

/-- The state once the selection loop has filled `istate.map`: `nresp`
counts the entries written. -/
def selected_state (st : report_state) (map : List index_map) : report_state :=
  { st with map := map, nresp := map.length }

/-- The call `mailbox_unlock_index(mailbox, NULL)`. -/
def unlock_index (st : report_state) : report_state :=
  { st with unlocks := st.unlocks + 1 }

/-- The label `done`, entered with the value of the local `mailbox` (`none`
for NULL): `if (mailbox) mailbox_unlock_index(mailbox, NULL)`, then
`return ret`. -/
def goto_done (mailbox : Option mailbox) (st : report_state) : report_state :=
  match mailbox with
  | none => st
  | some _ => unlock_index st

/-- The rest of the function after the truncation block: its `goto done`
leaves at once; otherwise the batch is reported, and when the loop has run
to its end the sync-token element is added and `done` is reached. A fault
in the loop stops the call there: nothing after the loop is run, `done`
included. -/
def finish_report (E : environment) (mb : mailbox) (st : report_state) : report_state :=
  match st.ret with
  | some _ => goto_done (some mb) st
  | none =>
    match report_resources E mb (batch st) st.responses with
    | (responses, true) =>
      goto_done (some mb)
        { st with
          responses := responses
          sync_token := some (tokenuri E mb.uidvalidity st.highestmodseq) }
    | (responses, false) =>
      { st with
        ret := some SIGSEGV
        responses := responses }

/-- The body of `report_sync_col` after the successful open: parse the
request, check the depth, select, truncate, report the batch and add the
sync-token; every `goto done` leaves through the label `done` with
`mailbox` set. -/
def report_locked (E : environment) (mb : mailbox) (depth : Nat)
    (children : List xml_node) : report_state :=
  let st1 := parsed_request E mb depth children
  match st1.ret with
  | some _ => goto_done (some mb) st1
  | none =>
    if st1.depth = 0 then goto_done (some mb) (fail st1 HTTP_BAD_REQUEST "Illegal sync-level")
    else
      finish_report E mb
        (truncate_responses E (selected_state st1 (select_resources E mb st1.syncmodseq)))

/-- The function `report_sync_col`, given the outcome of `http_mailbox_open`
(the error text on failure, the locked mailbox otherwise), the depth that
`meth_report` stored in `fctx->depth`, and the children of the request
element. A failed open goes to `done` with `mailbox` still NULL. -/
def report_sync_col (E : environment) (opened : Except String mailbox) (depth : Nat)
    (children : List xml_node) : report_state :=
  match opened with
  | .error desc => goto_done none (fail (initial_state depth) HTTP_SERVER_ERROR desc)
  | .ok mb => report_locked E mb depth children

/-- The (status, precondition, description) that the caller sees. -/
def error_result (st : report_state) : Option http_code × Nat × Option String :=
  (st.ret, st.precond, st.errstr)

/-! ## Readings of the specification, for comparison with the code -/

/-- The records that `mailbox_read_index_record` can read, for `recno` from 1
to `num_records`, in that order. -/
def readable_records (mb : mailbox) : List index_record :=
  (List.range' 1 mb.num_records).filterMap (mailbox_read_index_record mb)

/-- The selection as the specification words it: the readable records with
modseq above the token modseq, without the superseded flag and, on an
initial sync (token modseq 0), without the EXPUNGED flag. -/
def selected_by_spec (E : environment) (mb : mailbox) (syncmodseq : Nat) : List index_record :=
  (readable_records mb).filter (fun r =>
    decide (syncmodseq < r.modseq ∧ is_unbound mb.unbind_userflag r = false ∧
      (syncmodseq = 0 → is_expunged E r = false)))

/-- The response that the reporting loop adds for one map entry, `none` when
the iteration adds none. -/
def emitted_response (E : environment) (mb : mailbox) (m : index_map) : Option response :=
  match report_resource E mb [] m with
  | none => none
  | some added => added.head?

/-- The entry has a Content-Disposition header without `filename=`, so the
iteration of the reporting loop for it reads through `(char *) 9`. -/
def faulting_header (E : environment) (m : index_map) : Bool :=
  match E.index_getheader m "Content-Disposition" with
  | none => false
  | some p => (resource_filename p.toList).isNone

/-- The resource name that the reporting loop derives for a map entry:
`none` for an entry without a Content-Disposition header, and for one whose
header has no `filename=`. -/
def resource_of (E : environment) (m : index_map) : Option String :=
  match E.index_getheader m "Content-Disposition" with
  | none => none
  | some p => (resource_filename p.toList).map String.mk

/-! ## A concrete environment and sample mailboxes -/

/-- An environment with the values of the Cyrus headers and an insertion
sort standing in for `qsort`; every resource is filed under its uid. -/
def sample_environment : environment :=
  { XML_NS_CYRUS := "http://cyrusimap.org/ns/"
    MAX_MAILBOX_PATH := 4096
    FLAG_EXPUNGED := 2 ^ 31
    qsort := fun cmp l => l.insertionSort (fun a b => cmp a b ≤ 0)
    index_getheader := fun m _ =>
      some ("attachment; filename=" ++ Nat.repr m.record.uid ++ ".vcf") }

/-- A stored record block with the given uid, modseq and flags. -/
def stored (uid modseq system_flags : Nat) (user_flags : List Nat) : Option index_record :=
  some ⟨uid, modseq, system_flags, user_flags, 0⟩

/-- The scenario of the specification: highestmodseq 100, deletedmodseq 50,
five records with modseq 91, 92, 92, 93, 95. -/
def scenario_mailbox : mailbox :=
  { uidvalidity := 7
    highestmodseq := 100
    deletedmodseq := 50
    num_records := 5
    records := [stored 1 91 0 [0, 0, 0, 0], stored 2 92 0 [0, 0, 0, 0],
      stored 3 92 0 [0, 0, 0, 0], stored 4 93 0 [0, 0, 0, 0], stored 5 95 0 [0, 0, 0, 0]]
    unbind_userflag := some 3 }

/-- The request of the scenario: token modseq 90 and a limit of 2. -/
def scenario_request : List xml_node :=
  [.sync_token (some "http://cyrusimap.org/ns/sync/7-90"), .limit [some "2"]]

/-- A request on the scenario mailbox whose limit cannot be met: token
modseq 91 leaves the modseqs 92, 92, 93, 95, and the limit is 1. -/
def tight_request : List xml_node :=
  [.sync_token (some "http://cyrusimap.org/ns/sync/7-91"), .limit [some "1"]]

/-- A request with a token below the purge horizon of the scenario mailbox. -/
def stale_request : List xml_node :=
  [.sync_token (some "http://cyrusimap.org/ns/sync/7-40")]

/-- A request with a token of another mailbox generation. -/
def foreign_request : List xml_node :=
  [.sync_token (some "http://cyrusimap.org/ns/sync/8-90")]

/-- A mailbox whose second record was replaced by a PUT: user flag 3, the
flag that `DFLAG_UNBIND` is mapped to, is set on it. -/
def superseded_mailbox : mailbox :=
  { uidvalidity := 7
    highestmodseq := 100
    deletedmodseq := 50
    num_records := 2
    records := [stored 1 95 0 [0, 0, 0, 0], stored 2 96 0 [8, 0, 0, 0]]
    unbind_userflag := some 3 }

/-- An incremental request without a limit. -/
def unlimited_request : List xml_node :=
  [.sync_token (some "http://cyrusimap.org/ns/sync/7-90")]

/-- A mailbox whose records were last changed in an order other than their
`recno` order: modseq 92, 91, 95. -/
def shuffled_mailbox : mailbox :=
  { uidvalidity := 7
    highestmodseq := 100
    deletedmodseq := 50
    num_records := 3
    records := [stored 1 92 0 [0, 0, 0, 0], stored 2 91 0 [0, 0, 0, 0],
      stored 3 95 0 [0, 0, 0, 0]]
    unbind_userflag := some 3 }

/-- A mailbox with one record that is not expunged and has uid 0. -/
def unbacked_mailbox : mailbox :=
  { uidvalidity := 7
    highestmodseq := 100
    deletedmodseq := 50
    num_records := 1
    records := [stored 0 95 0 [0, 0, 0, 0]]
    unbind_userflag := some 3 }

/-- A request whose token is written out with modseq 0. -/
def zero_token_request : List xml_node :=
  [.sync_token (some "http://cyrusimap.org/ns/sync/7-0")]

/-- A mailbox past a purge (deletedmodseq 50) that still holds a record last
changed before it: the records have modseq 10 and 60. -/
def purged_mailbox : mailbox :=
  { uidvalidity := 7
    highestmodseq := 100
    deletedmodseq := 50
    num_records := 2
    records := [stored 1 10 0 [0, 0, 0, 0], stored 2 60 0 [0, 0, 0, 0]]
    unbind_userflag := some 3 }

/-- An initial sync (no sync-token) with a limit of 1. -/
def limited_initial_request : List xml_node :=
  [.limit [some "1"]]

/-! ## The consistency checker (imap/chk_cyrus.c) -/

/-- Process exit codes that `chk_cyrus.c` names. -/
inductive exit_code
  | EC_TEMPFAIL
  | EC_USAGE
  deriving DecidableEq

/-- The field of `struct mboxlist_entry` that `chkmbox` reads. -/
structure mboxlist_entry where
  partition : String
  deriving DecidableEq

/-- What the checker takes from outside these sources: `mboxlist_lookup`
(`none` for a result other than 0, the entry otherwise), `mailbox_reconstruct`
with the value it returns for a name and a `make_changes` argument, and the
mailbox names that `mboxlist_findall` visits for the pattern `*`, in order. -/
structure chk_world where
  mboxlist_lookup : String → Option mboxlist_entry
  mailbox_reconstruct : String → Int → Int
  all_mailboxes : List String

/-- What can be observed of a run: a line written to stderr, or a call of
`mailbox_reconstruct` with its name, its `make_changes` argument and the
value it returned. -/
inductive chk_event
  | stderr (line : String)
  | reconstruct (name : String) (make_changes : Int) (result : Int)
  deriving DecidableEq

/-- How a function of the checker ends: it returns a value, or it calls
`fatal`, which does not return and ends the process with the exit code. -/
inductive chk_outcome
  | returned (r : Int)
  | fatal (msg : String) (code : exit_code)
  deriving DecidableEq

open exit_code

/-- The callback `chkmbox` for the global `check_part` (`none` for NULL) and
a mailbox name: the events it causes and how it ends. -/
def chkmbox (W : chk_world) (check_part : Option String) (name : String) :
    List chk_event × chk_outcome :=
  match W.mboxlist_lookup name with
  | none =>
    ([.stderr ("bad mailbox " ++ name ++ " in chkmbox\n")], .fatal "fatal error" EC_TEMPFAIL)
  | some mbentry =>
    if check_part ≠ none ∧ check_part ≠ some mbentry.partition then ([], .returned 0)
    else
      ([.stderr ("checking: " ++ name ++ "\n"),
        .reconstruct name 0 (W.mailbox_reconstruct name 0)], .returned 0)

/-- Modelled from the spec: `mboxlist_findall` (imap/mboxlist.c is not among
the sources). It calls the callback for each selected mailbox in turn and
proceeds to the next mailbox while the callback returns 0; a callback that
returns another value ends the walk with that value, and a callback that
ends the process ends the run. -/
def mboxlist_findall (proc : String → List chk_event × chk_outcome) :
    List String → List chk_event × chk_outcome
  | [] => ([], .returned 0)
  | name :: rest =>
    match proc name with
    | (events, .returned r) =>
      if r = 0 then (events ++ (mboxlist_findall proc rest).1, (mboxlist_findall proc rest).2)
      else (events, .returned r)
    | (events, .fatal msg code) => (events, .fatal msg code)

/-- The part of `main` after the options are read, for the values of
`check_part` and `mailbox` that they left: one mailbox is examined, or all
mailboxes are walked; the result of `chkmbox` and of the walk is not looked
at, and `main` returns 0 unless the process was ended before. -/
def chk_main (W : chk_world) (check_part mailbox : Option String) :
    List chk_event × chk_outcome :=
  match mailbox with
  | some m =>
    match chkmbox W check_part m with
    | (events, .returned _) =>
      (.stderr ("Examining mailbox: " ++ m ++ "\n") :: events, .returned 0)
    | (events, .fatal msg code) =>
      (.stderr ("Examining mailbox: " ++ m ++ "\n") :: events, .fatal msg code)
  | none =>
    match mboxlist_findall (chkmbox W check_part) W.all_mailboxes with
    | (events, .returned _) =>
      (.stderr ("Examining partition: " ++ check_part.getD "ALL PARTITIONS" ++ "\n") :: events,
        .returned 0)
    | (events, .fatal msg code) =>
      (.stderr ("Examining partition: " ++ check_part.getD "ALL PARTITIONS" ++ "\n") :: events,
        .fatal msg code)

/-- A mailbox list with three names, of which the second cannot be looked
up; the first is on partition `p1`, the third on `p2`; `mailbox_reconstruct`
reports a failure (-1) for the first. -/
def sample_world : chk_world :=
  { mboxlist_lookup := fun name =>
      if name = "user.ann" then some ⟨"p1"⟩
      else if name = "user.cat" then some ⟨"p2"⟩
      else none
    mailbox_reconstruct := fun name _ => if name = "user.ann" then -1 else 0
    all_mailboxes := ["user.ann", "user.bob", "user.cat"] }

/-- The sample mailbox list without the name that cannot be looked up. -/
def sound_world : chk_world :=
  { sample_world with all_mailboxes := ["user.ann", "user.cat"] }

/-! ## Retrying I/O (lib/retry.c) -/

/-- The values of `errno` that `retry.c` tests, and any other value. -/
inductive errno_t
  | EINTR
  | EAGAIN
  | EINVAL
  | other (code : Nat)
  deriving DecidableEq

open errno_t

/-- What one call of `read`, `write` or `writev` gives back: the `ssize_t`
it returns and the value of `errno` after it. -/
structure sys_result where
  ret : Int
  errno : errno_t
  deriving DecidableEq

/-- Conversion of an integer value to `int` (32 bits, two's complement),
also used for the result of `int` arithmetic. -/
def to_int (x : Int) : Int :=
  (x + 2147483648) % 4294967296 - 2147483648

/-- Conversion of an integer value to `size_t` (64 bits). -/
def to_size_t (x : Int) : Nat :=
  (x % 18446744073709551616).toNat

/-- The course of one `retry_read` or `retry_write`: the value returned
(`none` while the loop is still running when the given results are used
up), and for each system call the offset of `buf` from its start value and
the `nbyte` it was made with. -/
structure retry_run where
  ret : Option Int
  calls : List (Int × Nat)
  deriving DecidableEq

/-- The loop of `retry_read`, fed with the results of its `read` calls;
`buf` is the offset from the caller's buffer. -/
def retry_read_loop : List sys_result → Int → Nat → Int → List (Int × Nat) → retry_run
  | [], _, _, _, calls => ⟨none, calls⟩
  | r :: rest, buf, nbyte, nread, calls =>
    if to_int r.ret = 0 then ⟨some (-1), calls ++ [(buf, nbyte)]⟩
    else if to_int r.ret = -1 then
      if r.errno = EINTR ∨ r.errno = EAGAIN then
        retry_read_loop rest buf nbyte nread (calls ++ [(buf, nbyte)])
      else ⟨some (-1), calls ++ [(buf, nbyte)]⟩
    else if to_size_t (to_int r.ret) ≥ nbyte then
      ⟨some (to_int (nread + to_int r.ret)), calls ++ [(buf, nbyte)]⟩
    else
      retry_read_loop rest (buf + to_int r.ret) (nbyte - to_size_t (to_int r.ret))
        (to_int (nread + to_int r.ret)) (calls ++ [(buf, nbyte)])

/-- The function `retry_read` for the results of its `read` calls. -/
def retry_read (results : List sys_result) (nbyte : Nat) : retry_run :=
  if nbyte = 0 then ⟨some 0, []⟩ else retry_read_loop results 0 nbyte 0 []

/-- The loop of `retry_write`, fed with the results of its `write` calls. -/
def retry_write_loop : List sys_result → Int → Nat → Int → List (Int × Nat) → retry_run
  | [], _, _, _, calls => ⟨none, calls⟩
  | r :: rest, buf, nbyte, written, calls =>
    if to_int r.ret = -1 then
      if r.errno = EINTR then
        retry_write_loop rest buf nbyte written (calls ++ [(buf, nbyte)])
      else ⟨some (-1), calls ++ [(buf, nbyte)]⟩
    else if to_size_t (to_int r.ret) ≥ nbyte then
      ⟨some (to_int (written + to_int r.ret)), calls ++ [(buf, nbyte)]⟩
    else
      retry_write_loop rest (buf + to_int r.ret) (nbyte - to_size_t (to_int r.ret))
        (to_int (written + to_int r.ret)) (calls ++ [(buf, nbyte)])

/-- The function `retry_write` for the results of its `write` calls. -/
def retry_write (results : List sys_result) (nbyte : Nat) : retry_run :=
  if nbyte = 0 then ⟨some 0, []⟩ else retry_write_loop results 0 nbyte 0 []

/-- The bytes that the successful calls among the given results moved. -/
def transferred : List sys_result → Nat
  | [] => 0
  | r :: rest => (if r.ret = -1 then 0 else r.ret.toNat) + transferred rest

/-- A run of results that leaves the transfer unfinished, in the words of
the contract: each result is either a failure with an `errno` that is
retried, or a success that moves at least one byte and fewer than are still
requested. -/
def partial_progress (retried : errno_t → Bool) : List sys_result → Nat → Prop
  | [], _ => True
  | r :: rest, remaining =>
    (r.ret = -1 ∧ retried r.errno = true ∧ partial_progress retried rest remaining) ∨
    (1 ≤ r.ret ∧ r.ret < remaining ∧
      partial_progress retried rest (remaining - r.ret.toNat))

/-- The calls that the contract expects for a run of results followed by
one more call: call number `i` is made at the offset that the earlier calls
have moved, for the bytes that remain. -/
def expected_calls (results : List sys_result) (nbyte : Nat) : List (Int × Nat) :=
  (List.range (results.length + 1)).map (fun i =>
    ((transferred (results.take i) : Int), nbyte - transferred (results.take i)))

/-- The `errno` values on which `retry_write` calls `write` again. -/
def write_retried (e : errno_t) : Bool := decide (e = EINTR)

/-- The `errno` values on which `retry_read` calls `read` again. -/
def read_retried (e : errno_t) : Bool := decide (e = EINTR ∨ e = EAGAIN)

/-- A run of three results for a transfer of 10 bytes: 3 bytes, an
interrupted call, 4 bytes. -/
def sample_transfers : List sys_result :=
  [⟨3, other 0⟩, ⟨-1, EINTR⟩, ⟨4, other 0⟩]

/-- One `struct iovec`: the base pointer, as an address, and the length. -/
structure iovec where
  iov_base : Int
  iov_len : Nat
  deriving DecidableEq

/-- The state of `retry_writev` inside its loop: the memory that holds
`struct iovec` cells (by cell address), the pointer `iov`, and the locals
`iovcnt`, `written` and the static `iov_max`. -/
structure writev_state where
  mem : Nat → iovec
  iov : Nat
  iovcnt : Nat
  written : Int
  iov_max : Int

/-- The course of one `retry_writev`: the value returned (`none` while the
loop is still running when the given results are used up), the memory and
`iov_max` as they are left, and for each `writev` call the pointer and the
count it was made with. -/
structure writev_run where
  ret : Option Int
  mem : Nat → iovec
  iov_max : Int
  calls : List (Nat × Int)

/-- The loop that copies `srciov[i]` to `iov[i]`, field by field; the first
argument counts the iterations left, the second is `i`. -/
def copy_iov (srciov iov : Nat) : Nat → Nat → (Nat → iovec) → (Nat → iovec)
  | 0, _, mem => mem
  | k + 1, i, mem =>
    copy_iov srciov iov k (i + 1)
      (Function.update mem (iov + i) ⟨(mem (srciov + i)).iov_base, (mem (srciov + i)).iov_len⟩)

/-- The loop `while (iovcnt && iov[0].iov_len == 0) { iov++; iovcnt--; }`:
the new `iov` and `iovcnt`. -/
def skip_empty (mem : Nat → iovec) : Nat → Nat → Nat × Nat
  | iov, 0 => (iov, 0)
  | iov, iovcnt + 1 =>
    if (mem iov).iov_len = 0 then skip_empty mem (iov + 1) iovcnt else (iov, iovcnt + 1)

/-- The loop `for (i = 0; i < iovcnt; i++)` that accounts for `n` written
bytes; the first argument counts the iterations left, the second is `i`.
It gives the memory and the value of `i` at which it was left. -/
def advance_iov (iov : Nat) : Nat → Nat → Int → (Nat → iovec) → (Nat → iovec) × Nat
  | 0, i, _, mem => (mem, i)
  | k + 1, i, n, mem =>
    if (mem (iov + i)).iov_len > to_size_t n then
      (Function.update mem (iov + i)
        ⟨(mem (iov + i)).iov_base + n, (mem (iov + i)).iov_len - to_size_t n⟩, i)
    else
      advance_iov iov k (i + 1) (to_int ((to_size_t n : Int) - (mem (iov + i)).iov_len))
        (Function.update mem (iov + i) ⟨(mem (iov + i)).iov_base, 0⟩)

/-- The main loop of `retry_writev`, fed with the results of its `writev`
calls. -/
def retry_writev_loop : List sys_result → writev_state → List (Nat × Int) → writev_run
  | [], st, calls =>
    if (skip_empty st.mem st.iov st.iovcnt).2 = 0 then ⟨some st.written, st.mem, st.iov_max, calls⟩
    else ⟨none, st.mem, st.iov_max, calls⟩
  | r :: rest, st, calls =>
    if (skip_empty st.mem st.iov st.iovcnt).2 = 0 then ⟨some st.written, st.mem, st.iov_max, calls⟩
    else
      if to_int r.ret = -1 then
        if r.errno = EINVAL ∧ st.iov_max > 10 then
          retry_writev_loop rest
            { st with
              iov := (skip_empty st.mem st.iov st.iovcnt).1
              iovcnt := (skip_empty st.mem st.iov st.iovcnt).2
              iov_max := st.iov_max / 2 }
            (calls ++ [((skip_empty st.mem st.iov st.iovcnt).1,
              min ((skip_empty st.mem st.iov st.iovcnt).2 : Int) st.iov_max)])
        else if r.errno = EINTR then
          retry_writev_loop rest
            { st with
              iov := (skip_empty st.mem st.iov st.iovcnt).1
              iovcnt := (skip_empty st.mem st.iov st.iovcnt).2 }
            (calls ++ [((skip_empty st.mem st.iov st.iovcnt).1,
              min ((skip_empty st.mem st.iov st.iovcnt).2 : Int) st.iov_max)])
        else
          ⟨some (-1), st.mem, st.iov_max,
            calls ++ [((skip_empty st.mem st.iov st.iovcnt).1,
              min ((skip_empty st.mem st.iov st.iovcnt).2 : Int) st.iov_max)]⟩
      else
        if (advance_iov (skip_empty st.mem st.iov st.iovcnt).1
            (skip_empty st.mem st.iov st.iovcnt).2 0 (to_int r.ret) st.mem).2 =
            (skip_empty st.mem st.iov st.iovcnt).2 then
          ⟨some (to_int (st.written + to_int r.ret)),
            (advance_iov (skip_empty st.mem st.iov st.iovcnt).1
              (skip_empty st.mem st.iov st.iovcnt).2 0 (to_int r.ret) st.mem).1,
            st.iov_max,
            calls ++ [((skip_empty st.mem st.iov st.iovcnt).1,
              min ((skip_empty st.mem st.iov st.iovcnt).2 : Int) st.iov_max)]⟩
        else
          retry_writev_loop rest
            { mem := (advance_iov (skip_empty st.mem st.iov st.iovcnt).1
                (skip_empty st.mem st.iov st.iovcnt).2 0 (to_int r.ret) st.mem).1
              iov := (skip_empty st.mem st.iov st.iovcnt).1
              iovcnt := (skip_empty st.mem st.iov st.iovcnt).2
              written := to_int (st.written + to_int r.ret)
              iov_max := st.iov_max }
            (calls ++ [((skip_empty st.mem st.iov st.iovcnt).1,
              min ((skip_empty st.mem st.iov st.iovcnt).2 : Int) st.iov_max)])

/-- The function `retry_writev` for the caller's array of `iovcnt` cells at
address `srciov`, the address `baseiov` of the block that `xmalloc` returns
for the copy, the value of the static `iov_max`, and the results of the
`writev` calls. -/
def retry_writev (results : List sys_result) (mem : Nat → iovec) (srciov iovcnt baseiov : Nat)
    (iov_max : Int) : writev_run :=
  retry_writev_loop results
    { mem := copy_iov srciov baseiov iovcnt 0 mem
      iov := baseiov
      iovcnt := iovcnt
      written := 0
      iov_max := iov_max }
    []

/-- A memory with an array of two cells at address 0, of 5 and 3 bytes. -/
def sample_memory : Nat → iovec :=
  fun a => if a = 0 then ⟨1000, 5⟩ else if a = 1 then ⟨2000, 3⟩ else ⟨0, 0⟩

/-- Results of `writev` for the sample array: 4 bytes, an interrupted call,
a call refused with `EINVAL`, a failure. -/
def sample_writev_results : List sys_result :=
  [⟨4, other 0⟩, ⟨-1, EINTR⟩, ⟨-1, EINVAL⟩, ⟨-1, other 5⟩]

/-! ## The status for a failed mailbox lookup (imap/http_dav.c) -/

/-- The two error codes of `imap_err.h` that the lookup switches name. -/
structure imap_errors where
  IMAP_PERMISSION_DENIED : Int
  IMAP_MAILBOX_NONEXISTENT : Int

/-- One labelled statement of a `switch` body: its `case` label (`none` for
`default`) and the HTTP status that the statement returns or assigns. -/
structure switch_arm where
  label : Option Int
  status : http_code
  deriving DecidableEq

/-- The statements of a `switch` body from the point where control enters
it for the value `r`: at the `case` label equal to `r`, else at `default`. -/
def switch_entry (arms : List switch_arm) (r : Int) : List switch_arm :=
  match arms.dropWhile (fun a => decide (a.label ≠ some r)) with
  | [] => arms.dropWhile (fun a => decide (a.label ≠ none))
  | arm :: rest => arm :: rest

/-- A `switch` whose statements are `return status;`: the first statement
entered ends the function. -/
def switch_return (arms : List switch_arm) (r : Int) : Option http_code :=
  (switch_entry arms r).head?.map switch_arm.status

/-- A `switch` whose statements are `ret = status;` without `break`: control
falls through every statement from the entry to the closing brace. -/
def switch_assign (arms : List switch_arm) (r : Int) (ret : Option http_code) :
    Option http_code :=
  (switch_entry arms r).foldl (fun _ arm => some arm.status) ret

/-- The labels and statuses of the switch on the result of `http_mlookup`,
which are the same, in the same order, in `meth_acl`, `meth_get_dav`,
`meth_propfind`, `meth_proppatch` and `meth_report`. -/
def mlookup_arms (C : imap_errors) : List switch_arm :=
  [⟨some C.IMAP_PERMISSION_DENIED, HTTP_FORBIDDEN⟩,
   ⟨some C.IMAP_MAILBOX_NONEXISTENT, HTTP_NOT_FOUND⟩,
   ⟨none, HTTP_SERVER_ERROR⟩]

/-- The result of `meth_acl` when `http_mlookup` returned `r`, not 0: each
statement of the switch is a `return`. -/
def meth_acl_mlookup_failed (C : imap_errors) (r : Int) : Option http_code :=
  switch_return (mlookup_arms C) r

/-- The result of `meth_get_dav` when `http_mlookup` returned `r`, not 0. -/
def meth_get_dav_mlookup_failed (C : imap_errors) (r : Int) : Option http_code :=
  switch_return (mlookup_arms C) r

/-- The result of `meth_propfind` when `http_mlookup` returned `r`, not 0. -/
def meth_propfind_mlookup_failed (C : imap_errors) (r : Int) : Option http_code :=
  switch_return (mlookup_arms C) r

/-- The result of `meth_proppatch` when `http_mlookup` returned `r`, not 0. -/
def meth_proppatch_mlookup_failed (C : imap_errors) (r : Int) : Option http_code :=
  switch_return (mlookup_arms C) r

/-- The result of `meth_report` when `http_mlookup` returned `r`, not 0: the
statements of the switch assign `ret`, none is followed by `break`, and
`goto done` returns `ret`, which was 0 before the switch. -/
def meth_report_mlookup_failed (C : imap_errors) (r : Int) : Option http_code :=
  switch_assign (mlookup_arms C) r none

/-- Sample values for the two error codes. -/
def sample_imap_errors : imap_errors :=
  { IMAP_PERMISSION_DENIED := -1904809472 + 10
    IMAP_MAILBOX_NONEXISTENT := -1904809472 + 6 }

/-! ## Request-target paths (imap/http_dav.c, imap/http_carddav.c) -/

/-- The fields of `struct request_target_t` that the path parsers write,
with `mboxname` as `http_carddav.c` uses it. A `char *` into `path` is the
offset it points at (`none` for NULL); the text at a pointer is the path
from that offset to its end. The `allow` bits are not modelled. -/
structure request_target where
  path : List Char
  user : Option Nat
  userlen : Nat
  collection : Option Nat
  collen : Nat
  resource : Option Nat
  reslen : Nat
  mboxname : List Char
  deriving DecidableEq

/-- What a path parser hands back: its `int` result (`none` for 0), the
text it stored through `errstr` (`none` when it stored nothing) and the
request target. -/
structure parse_result where
  ret : Option http_code
  errstr : Option String
  tgt : request_target
  deriving DecidableEq

/-- A request target as the caller hands it to a parser: the path copied
in, every pointer NULL, every length 0, `mboxname` empty. -/
def fresh_target (path : List Char) : request_target :=
  { path := path
    user := none
    userlen := 0
    collection := none
    collen := 0
    resource := none
    reslen := 0
    mboxname := [] }

/-- The libc call `strcspn(p, "/")`: the number of characters before the
first slash or the end of the text. -/
def strcspn_slash (p : List Char) : Nat :=
  (p.takeWhile (fun c => decide (c ≠ '/'))).length

/-- The test `strncmp(s1, s2, n) == 0` on two C strings: at most `n`
characters are compared, and the comparison ends where both strings end. -/
def strncmp_eq : List Char → List Char → Nat → Bool
  | _, _, 0 => true
  | [], [], _ + 1 => true
  | [], _ :: _, _ + 1 => false
  | _ :: _, [], _ + 1 => false
  | a :: s1, b :: s2, n + 1 => decide (a = b) && strncmp_eq s1 s2 n

/-- The condition `!*p || !*++p` for the pointer at offset `p` of the text
`s`: whether it holds, and the offset of `p` afterwards (`p` is advanced
when the first test fails). -/
def at_end_or_next (s : List Char) (p : Nat) : Bool × Nat :=
  if s.length ≤ p then (true, p)
  else if s.length ≤ p + 1 then (true, p + 1)
  else (false, p + 1)

/-- The text of the user segment that a parser recorded: `userlen`
characters from `tgt->user`. -/
def user_text (tgt : request_target) : Option (List Char) :=
  tgt.user.map (fun u => (tgt.path.drop u).take tgt.userlen)

/-- The function `prin_parse_path` on a target whose `path` is set. -/
def prin_parse_path (tgt : request_target) : parse_result :=
  let s := tgt.path
  match at_end_or_next s 0 with
  | (true, _) => ⟨none, none, tgt⟩
  | (false, p1) =>
    -- Skip namespace
    match at_end_or_next s (p1 + strcspn_slash (s.drop p1)) with
    | (true, _) => ⟨none, none, tgt⟩
    | (false, p2) =>
      -- Check if we're in user space
      if strncmp_eq (s.drop p2) ['u', 's', 'e', 'r'] (strcspn_slash (s.drop p2)) = true then
        match at_end_or_next s (p2 + strcspn_slash (s.drop p2)) with
        | (true, _) => ⟨none, none, tgt⟩
        | (false, p3) =>
          -- Get user id
          let tgt1 := { tgt with user := some p3, userlen := strcspn_slash (s.drop p3) }
          match at_end_or_next s (p3 + strcspn_slash (s.drop p3)) with
          | (true, _) => ⟨none, none, tgt1⟩
          | (false, p4) =>
            if p4 < s.length then
              ⟨some HTTP_FORBIDDEN, some "Too many segments in request target path", tgt1⟩
            else ⟨none, none, tgt1⟩
      else ⟨some HTTP_NOT_FOUND, none, tgt⟩

/-- What `carddav_parse_path` takes from outside these sources: the URL
prefix of the addressbook namespace (`namespace_addressbook.prefix`), the
configured `addressbookprefix`, the buffer sizes `MAX_MAILBOX_PATH` and
`MAX_MAILBOX_BUFFER`, and `mboxname_hiersep_tointernal` for the HTTP
namespace, applied to a C string and a length; it changes characters in
place, so the text it yields stands for the one it was given. -/
structure carddav_environment where
  namespace_prefix : List Char
  addressbookprefix : List Char
  MAX_MAILBOX_PATH : Nat
  MAX_MAILBOX_BUFFER : Nat
  mboxname_hiersep_tointernal : List Char → Int → List Char

/-- The libc call `strchr(s, c)`: the offset of the first `c` in the C
string `s`, `none` for NULL. -/
def strchr : List Char → Char → Option Nat
  | [], _ => none
  | x :: xs, c => if x = c then some 0 else (strchr xs c).map (fun k => k + 1)

/-- The characters that `strlcpy(dst, src, size)` stores before the
terminator: `none` when `size` is 0 (nothing is stored at all). -/
def strlcpy (src : List Char) (size : Nat) : Option (List Char) :=
  if size = 0 then none else some (src.take (size - 1))

/-- The conversion `%.*s` of `printf` with precision `n`: at most `n`
characters of the string; a negative precision counts as none given. -/
def printf_precision (n : Int) (s : List Char) : List Char :=
  if n < 0 then s else s.take n.toNat

/-- The write position in `tgt->mboxname`: the characters stored so far, the
offset of the pointer `p` from the start of the buffer, and `siz`. -/
structure mbox_buf where
  text : List Char
  p : Nat
  siz : Nat
  deriving DecidableEq

/-- The statements `len = snprintf(p, siz, ...); p += len; siz -= len;` for
the formatted text `out`: `snprintf` stores at most `siz - 1` characters and
returns the length of `out`; with `siz` 0 it stores nothing. `none` stands
for a store through a pointer that has left the buffer, which is the case
once an earlier output was cut and `siz` has wrapped around. -/
def mbox_printf (b : mbox_buf) (out : List Char) : Option mbox_buf :=
  if b.siz = 0 then
    some { b with p := b.p + out.length, siz := to_size_t (0 - (out.length : Int)) }
  else if b.text.length < b.p then none
  else
    some { text := b.text ++ out.take (b.siz - 1)
           p := b.p + out.length
           siz := to_size_t ((b.siz : Int) - (out.length : Int)) }

/-- The user part of the mailbox name in `carddav_parse_path`, for a target
with `user` set and `userlen` not 0. `strchr` looks for `@` in the C string
at `tgt->user`, which runs to the end of the path. `none` stands for a copy
that does not fit `userid` or `userdomain`, or a `userdomain` that is read
without having been stored. -/
def carddav_user_part (E : carddav_environment) (tgt : request_target) (u : Nat)
    (b : mbox_buf) : Option mbox_buf :=
  let user := tgt.path.drop u
  match strchr user '@' with
  | some k =>
    let userlen := to_int ((k : Int) + 1)
    let domain_start := user.drop (k + 1)
    let domainlen := to_int ((tgt.userlen : Int) - userlen + 1)
    match strlcpy user (to_size_t userlen), strlcpy domain_start (to_size_t domainlen) with
    | some userid, some userdomain =>
      if E.MAX_MAILBOX_BUFFER ≤ userid.length ∨ E.MAX_MAILBOX_BUFFER ≤ userdomain.length then none
      else
        mbox_printf b (printf_precision domainlen userdomain ++ ['!', 'u', 's', 'e', 'r', '.'] ++
          printf_precision userlen (E.mboxname_hiersep_tointernal userid userlen))
    | _, _ => none
  | none =>
    match mbox_printf b (['u', 's', 'e', 'r', '.'] ++
        printf_precision (to_int tgt.userlen) user) with
    | none => none
    | some b1 =>
      some { b1 with
        text := b1.text.take 5 ++
          E.mboxname_hiersep_tointernal (b1.text.drop 5) (to_int tgt.userlen) }

/-- The block "Create mailbox name from the parsed path" at the label `done`
of `carddav_parse_path`: the text stored in `tgt->mboxname`. -/
def carddav_mboxname (E : carddav_environment) (tgt : request_target) :
    Option (List Char) :=
  let b0 : mbox_buf := ⟨[], 0, E.MAX_MAILBOX_BUFFER⟩
  let b1 : Option mbox_buf :=
    match tgt.user with
    | some u => if tgt.userlen ≠ 0 then carddav_user_part E tgt u b0 else some b0
    | none => some b0
  match b1 with
  | none => none
  | some b1 =>
    match mbox_printf b1 ((if b1.p ≠ 0 then ['.'] else []) ++ E.addressbookprefix) with
    | none => none
    | some b2 =>
      match tgt.collection with
      | none => some b2.text
      | some c =>
        (mbox_printf b2 ('.' :: printf_precision (to_int tgt.collen) (tgt.path.drop c))).map
          mbox_buf.text

/-- The label `done` of `carddav_parse_path` and what follows it: the
mailbox name is stored and the result is 0. `none` stands for a store
outside a buffer. -/
def carddav_done (E : carddav_environment) (tgt : request_target) : Option parse_result :=
  (carddav_mboxname E tgt).map (fun name => ⟨none, none, { tgt with mboxname := name }⟩)

/-- The part of `carddav_parse_path` from the comment "Get collection" to
the label `done`, for the pointer `p` and the length `len` reached. When the
path ends with the collection segment and without a slash, a slash is
stored over the terminator, at the index that is the length of the path.
The working copy holds at most `MAX_MAILBOX_PATH` characters, so this index
is inside `char path[MAX_MAILBOX_PATH+1]`; `none` stands for a store beyond
it. The text is taken to end after the stored slash. -/
def carddav_collection (E : carddav_environment) (tgt : request_target) (p len : Nat) :
    Option parse_result :=
  let s := tgt.path
  let tgt1 := { tgt with collection := some p, collen := len }
  match at_end_or_next s (p + len) with
  | (true, q) =>
    if s.getD (q - 1) '/' ≠ '/' then
      if E.MAX_MAILBOX_PATH < s.length then none
      else carddav_done E { tgt1 with path := s ++ ['/'] }
    else carddav_done E tgt1
  | (false, q) =>
    -- Get resource
    let tgt2 := { tgt1 with resource := some q, reslen := strcspn_slash (s.drop q) }
    if q + strcspn_slash (s.drop q) < s.length then some ⟨some HTTP_NOT_FOUND, none, tgt2⟩
    else carddav_done E tgt2

/-- The function `carddav_parse_path` for the request path `path` and a
target `tgt`: the working copy of the path is made, the namespace is
checked and skipped, the user, collection and resource segments are
recorded and the mailbox name is built. `none` stands for a store outside a
buffer (undefined behaviour); `tgt->tail` is not modelled. -/
def carddav_parse_path (E : carddav_environment) (path : List Char) (tgt : request_target) :
    Option parse_result :=
  let s := path.take E.MAX_MAILBOX_PATH
  let tgt0 := { tgt with path := s }
  let len := E.namespace_prefix.length
  -- Sanity check namespace
  if s.length < len ∨ strncmp_eq E.namespace_prefix s len = false ∨
      (len < path.length ∧ path.getD len '/' ≠ '/') then
    some ⟨some HTTP_FORBIDDEN, some "Namespace mismatch request target path", tgt0⟩
  else
    -- Skip namespace
    match at_end_or_next s len with
    | (true, _) => some ⟨none, none, tgt0⟩
    | (false, p1) =>
      -- Check if we're in user space
      if strncmp_eq (s.drop p1) ['u', 's', 'e', 'r'] (strcspn_slash (s.drop p1)) = true then
        match at_end_or_next s (p1 + strcspn_slash (s.drop p1)) with
        | (true, _) => some ⟨none, none, tgt0⟩
        | (false, p2) =>
          -- Get user id
          let tgt1 := { tgt0 with user := some p2, userlen := strcspn_slash (s.drop p2) }
          match at_end_or_next s (p2 + strcspn_slash (s.drop p2)) with
          | (true, _) => carddav_done E tgt1
          | (false, p3) => carddav_collection E tgt1 p3 (strcspn_slash (s.drop p3))
      else carddav_collection E tgt0 p1 (strcspn_slash (s.drop p1))

/-- A configuration for the examples: the namespace `/addressbooks`, the
prefix `#addressbooks`, buffers of 4096 and 1024 bytes, and the hierarchy
separator `.` of the internal namespace, for which
`mboxname_hiersep_tointernal` changes nothing. -/
def sample_carddav_environment : carddav_environment :=
  { namespace_prefix := "/addressbooks".toList
    addressbookprefix := "#addressbooks".toList
    MAX_MAILBOX_PATH := 4096
    MAX_MAILBOX_BUFFER := 1024
    mboxname_hiersep_tointernal := fun name _ => name }

/-- The mailbox name that `carddav_parse_path` stores for a path given as a
string, starting from a zeroed target; `none` when the path is refused or
the stores leave a buffer. -/
def carddav_mboxname_of (E : carddav_environment) (path : String) : Option String :=
  match carddav_parse_path E path.toList (fresh_target []) with
  | some ⟨none, _, tgt⟩ => some (String.mk tgt.mboxname)
  | _ => none

/-- The text of the collection segment that a parser recorded. -/
def collection_text (tgt : request_target) : Option (List Char) :=
  tgt.collection.map (fun c => (tgt.path.drop c).take tgt.collen)

/-- The text of the resource segment that a parser recorded. -/
def resource_text (tgt : request_target) : Option (List Char) :=
  tgt.resource.map (fun r => (tgt.path.drop r).take tgt.reslen)

/-- The user, collection and resource segments and the mailbox name that
`carddav_parse_path` records for a path given as a string, starting from a
zeroed target; `none` when the path is not accepted. -/
def carddav_segments (E : carddav_environment) (path : String) :
    Option (Option String × Option String × Option String × String) :=
  match carddav_parse_path E path.toList (fresh_target []) with
  | some ⟨none, _, tgt⟩ =>
    some ((user_text tgt).map String.mk, (collection_text tgt).map String.mk,
      (resource_text tgt).map String.mk, String.mk tgt.mboxname)
  | _ => none

/-! ## The sync-token property (imap/http_dav.c) -/

/-- What `xml_add_prop` records for one property: the status of the
propstat element it is filed under, and the text content (`none` for NULL). -/
structure prop_value where
  status : http_code
  content : Option String
  deriving DecidableEq

/-- The callback `propfind_sync_token`, which serves both DAV:sync-token and
CS:getctag, for `fctx->mailbox` and `fctx->record` (`none` for NULL): on a
collection the text is written with `buf_printf`, which does not cut it. -/
def propfind_sync_token (E : environment) (fctx_mailbox : Option mailbox)
    (fctx_record : Option index_record) : prop_value :=
  match fctx_mailbox, fctx_record with
  | some mb, none =>
    ⟨HTTP_OK, some (E.XML_NS_CYRUS ++ "sync/" ++ Nat.repr mb.uidvalidity ++ "-" ++
      Nat.repr mb.highestmodseq)⟩
  | _, _ => ⟨HTTP_NOT_FOUND, none⟩

/-! ## WebDAV privileges (imap/httpd.h, imap/http_dav.c) -/

/-- The right bits of `lib/acl.h` from which `httpd.h` builds the WebDAV
privileges, and `DACL_SCHED`, whose definition is not in these sources. -/
structure acl_bits where
  ACL_READ : Nat
  ACL_INSERT : Nat
  ACL_WRITE : Nat
  ACL_CREATE : Nat
  ACL_POST : Nat
  ACL_DELETEMBOX : Nat
  ACL_DELETEMSG : Nat
  ACL_ADMIN : Nat
  ACL_USER9 : Nat
  DACL_SCHED : Nat

/-- The macro `DACL_READ`. -/
def DACL_READ (A : acl_bits) : Nat := A.ACL_READ
/-- The macro `DACL_WRITECONT`. -/
def DACL_WRITECONT (A : acl_bits) : Nat := A.ACL_INSERT
/-- The macro `DACL_WRITEPROPS`. -/
def DACL_WRITEPROPS (A : acl_bits) : Nat := A.ACL_WRITE
/-- The macro `DACL_MKCOL`. -/
def DACL_MKCOL (A : acl_bits) : Nat := A.ACL_CREATE
/-- The macro `DACL_ADDRSRC`. -/
def DACL_ADDRSRC (A : acl_bits) : Nat := A.ACL_POST
/-- The macro `DACL_BIND`. -/
def DACL_BIND (A : acl_bits) : Nat := DACL_MKCOL A ||| DACL_ADDRSRC A
/-- The macro `DACL_RMCOL`. -/
def DACL_RMCOL (A : acl_bits) : Nat := A.ACL_DELETEMBOX
/-- The macro `DACL_RMRSRC`. -/
def DACL_RMRSRC (A : acl_bits) : Nat := A.ACL_DELETEMSG
/-- The macro `DACL_UNBIND`. -/
def DACL_UNBIND (A : acl_bits) : Nat := DACL_RMCOL A ||| DACL_RMRSRC A
/-- The macro `DACL_WRITE`. -/
def DACL_WRITE (A : acl_bits) : Nat :=
  DACL_WRITECONT A ||| DACL_WRITEPROPS A ||| DACL_BIND A ||| DACL_UNBIND A
/-- The macro `DACL_ADMIN`. -/
def DACL_ADMIN (A : acl_bits) : Nat := A.ACL_ADMIN
/-- The macro `DACL_READFB`. -/
def DACL_READFB (A : acl_bits) : Nat := A.ACL_USER9
/-- The macro `DACL_ALL`. -/
def DACL_ALL (A : acl_bits) : Nat := DACL_READ A ||| DACL_WRITE A ||| DACL_ADMIN A

/-- The flag `PRIV_IMPLICIT` of `add_privs`. -/
def PRIV_IMPLICIT : Nat := 1 <<< 0
/-- The flag `PRIV_INBOX` of `add_privs`. -/
def PRIV_INBOX : Nat := 1 <<< 1
/-- The flag `PRIV_OUTBOX` of `add_privs`. -/
def PRIV_OUTBOX : Nat := 1 <<< 2

/-- The namespace of a privilege element: the one whose href is
`XML_NS_DAV`, `XML_NS_CALDAV` or `XML_NS_CYRUS`, or another one. An element
that `add_privs` creates with a NULL namespace is in the DAV namespace of
its parent. -/
inductive priv_ns
  | NS_DAV
  | NS_CALDAV
  | NS_CYRUS
  | other
  deriving DecidableEq

open priv_ns

/-- A privilege element: the child of DAV:privilege, by namespace and name. -/
structure priv_elem where
  ns : priv_ns
  name : String
  deriving DecidableEq

/-- Precondition codes that the privilege loop of `meth_acl` stores in
`txn->error.precond`; `extension` is one stored by the `acl_ext` callback. -/
inductive acl_precond
  | DAV_NO_ABSTRACT
  | DAV_SUPP_PRIV
  | extension
  deriving DecidableEq

/-- What the callback `aparams->acl_ext(txn, priv, &rights)` did: its result
(not 0 is `handled`), `rights` afterwards, and whether it has stored a
precondition code. -/
structure acl_ext_result where
  handled : Bool
  rights : Nat
  precond : Bool

/-- The body of the loop over the privileges of an ACE in `meth_acl` for one
privilege element, with `acl_ext` (`none` for NULL) and the rights gathered
so far: the rights afterwards, or the precondition with which the request
is refused (403 Forbidden). -/
def meth_acl_privilege (A : acl_bits) (acl_ext : Option (priv_elem → Nat → acl_ext_result))
    (priv : priv_elem) (rights : Nat) : Except acl_precond Nat :=
  let ext : acl_ext_result :=
    match acl_ext with
    | none => ⟨false, rights, false⟩
    | some f => f priv rights
  if ext.handled = true then
    -- Extension (CalDAV) privileges
    if ext.precond = true then .error acl_precond.extension else .ok ext.rights
  else
    let rights := ext.rights
    if priv.ns = NS_DAV then
      -- WebDAV privileges
      if priv.name = "all" then .ok (rights ||| DACL_ALL A)
      else if priv.name = "read" then .ok (rights ||| DACL_READ A)
      else if priv.name = "write" then .ok (rights ||| DACL_WRITE A)
      else if priv.name = "write-content" then .ok (rights ||| DACL_WRITECONT A)
      else if priv.name = "write-properties" then .ok (rights ||| DACL_WRITEPROPS A)
      else if priv.name = "bind" then .ok (rights ||| DACL_BIND A)
      else if priv.name = "unbind" then .ok (rights ||| DACL_UNBIND A)
      else if priv.name = "read-current-user-privilege-set" ∨ priv.name = "read-acl" ∨
          priv.name = "write-acl" ∨ priv.name = "unlock" then
        .error acl_precond.DAV_NO_ABSTRACT
      else .error acl_precond.DAV_SUPP_PRIV
    else if priv.ns = NS_CYRUS then
      -- Cyrus-specific privileges
      if priv.name = "make-collection" then .ok (rights ||| DACL_MKCOL A)
      else if priv.name = "remove-collection" then .ok (rights ||| DACL_RMCOL A)
      else if priv.name = "add-resource" then .ok (rights ||| DACL_ADDRSRC A)
      else if priv.name = "remove-resource" then .ok (rights ||| DACL_RMRSRC A)
      else if priv.name = "admin" then .ok (rights ||| DACL_ADMIN A)
      else .error acl_precond.DAV_SUPP_PRIV
    else .error acl_precond.DAV_SUPP_PRIV

/-- The function `add_privs`: the DAV:privilege elements that it adds to
`parent`, in order, each with the child it holds (`none` for a privilege
element that is left without a child). The namespace declarations made by
`ensure_ns` are not modelled. -/
def add_privs (A : acl_bits) (rights flags : Nat) : List (Option priv_elem) :=
  let rights1 :=
    if rights &&& DACL_READ A = DACL_READ A ∧ flags &&& PRIV_IMPLICIT ≠ 0 then
      rights ||| DACL_READFB A
    else rights
  (if rights &&& DACL_ALL A = DACL_ALL A then [some ⟨NS_DAV, "all"⟩] else []) ++
  (if rights &&& DACL_READ A = DACL_READ A then [some ⟨NS_DAV, "read"⟩] else []) ++
  (if rights1 &&& DACL_READFB A ≠ 0 then [some ⟨NS_CALDAV, "read-free-busy"⟩] else []) ++
  (if rights1 &&& DACL_WRITE A = DACL_WRITE A then [some ⟨NS_DAV, "write"⟩] else []) ++
  (if rights1 &&& DACL_WRITECONT A ≠ 0 then [some ⟨NS_DAV, "write-content"⟩] else []) ++
  (if rights1 &&& DACL_WRITEPROPS A ≠ 0 then [some ⟨NS_DAV, "write-properties"⟩] else []) ++
  (if rights1 &&& DACL_BIND A = DACL_BIND A then [some ⟨NS_DAV, "bind"⟩] else []) ++
  (if rights1 &&& DACL_MKCOL A ≠ 0 then [some ⟨NS_CYRUS, "make-collection"⟩] else []) ++
  (if rights1 &&& DACL_ADDRSRC A ≠ 0 then [some ⟨NS_CYRUS, "add-resource"⟩] else []) ++
  (if rights1 &&& DACL_UNBIND A = DACL_UNBIND A then [some ⟨NS_DAV, "unbind"⟩] else []) ++
  (if rights1 &&& DACL_RMCOL A ≠ 0 then [some ⟨NS_CYRUS, "remove-collection"⟩] else []) ++
  (if rights1 &&& DACL_RMRSRC A ≠ 0 then [some ⟨NS_CYRUS, "remove-resource"⟩] else []) ++
  (if rights1 &&& DACL_ADMIN A ≠ 0 then [some ⟨NS_CYRUS, "admin"⟩] else []) ++
  (if rights1 &&& A.DACL_SCHED ≠ 0 then
    (if flags &&& PRIV_INBOX ≠ 0 then [some ⟨NS_CALDAV, "schedule-deliver"⟩]
     else if flags &&& PRIV_OUTBOX ≠ 0 then [some ⟨NS_CALDAV, "schedule-send"⟩]
     else [none])
   else [])

/-- The privilege names that `meth_acl` accepts in an ACE, as the claim
lists them: seven in the DAV namespace, five in the Cyrus namespace. -/
def accepted_privileges : List priv_elem :=
  [⟨NS_DAV, "all"⟩, ⟨NS_DAV, "read"⟩, ⟨NS_DAV, "write"⟩, ⟨NS_DAV, "write-content"⟩,
   ⟨NS_DAV, "write-properties"⟩, ⟨NS_DAV, "bind"⟩, ⟨NS_DAV, "unbind"⟩,
   ⟨NS_CYRUS, "make-collection"⟩, ⟨NS_CYRUS, "remove-collection"⟩,
   ⟨NS_CYRUS, "add-resource"⟩, ⟨NS_CYRUS, "remove-resource"⟩, ⟨NS_CYRUS, "admin"⟩]

/-- The right bits as `lib/acl.h` of Cyrus defines them, with `DACL_SCHED`
on the bit of `ACL_USER8`. -/
def sample_acl_bits : acl_bits :=
  { ACL_READ := 0x2
    ACL_INSERT := 0x10
    ACL_WRITE := 0x8
    ACL_CREATE := 0x40
    ACL_POST := 0x20
    ACL_DELETEMBOX := 0x80
    ACL_DELETEMSG := 0x100
    ACL_ADMIN := 0x400
    ACL_USER9 := 0x100000
    DACL_SCHED := 0x80000 }

/-- The right bits that `add_privs` tests for being met at all are not 0,
as is the case for the bits of `lib/acl.h`. -/
def acl_bits_nonzero (A : acl_bits) : Prop :=
  A.ACL_INSERT ≠ 0 ∧ A.ACL_WRITE ≠ 0 ∧ A.ACL_CREATE ≠ 0 ∧ A.ACL_POST ≠ 0 ∧
  A.ACL_DELETEMBOX ≠ 0 ∧ A.ACL_DELETEMSG ≠ 0 ∧ A.ACL_ADMIN ≠ 0

/-- The condition of the limit-too-small error in the words of the claim:
more records are selected than the limit allows, and the `limit + 1`
selected records with the smallest modseqs share one modseq, which is to say
that more than `limit` selected records carry the smallest modseq of the
selection. -/
def limit_too_small (selection : List index_map) (limit : Nat) : Prop :=
  limit < selection.length ∧
  ∃ m, (∀ x ∈ selection, m ≤ x.record.modseq) ∧
    limit < (selection.filter (fun x => decide (x.record.modseq = m))).length

/-- A request with a limit of 0 and no token. -/
def zero_limit_request : List xml_node :=
  [.limit [some "0"]]

/-- A mailbox without records. -/
def empty_mailbox : mailbox :=
  { uidvalidity := 7
    highestmodseq := 100
    deletedmodseq := 50
    num_records := 0
    records := []
    unbind_userflag := some 3 }

/-! ## PROPPATCH (imap/http_dav.c) -/

/-- Methods that the property callbacks tell apart (`pctx->meth`). -/
inductive http_method
  | METH_PROPPATCH
  | METH_MKCOL
  | METH_MKCALENDAR
  deriving DecidableEq

/-- Path namespaces (the enum of `httpd.h`). -/
inductive url_namespace
  | URL_NS_DEFAULT
  | URL_NS_PRINCIPAL
  | URL_NS_CALENDAR
  | URL_NS_ADDRESSBOOK
  deriving DecidableEq

/-- Precondition codes that the property callbacks pass to `xml_add_prop`. -/
inductive prop_precond
  | DAV_PROT_PROP
  | DAV_VALID_RESTYPE
  | CALDAV_SUPP_COMP
  deriving DecidableEq

open http_method url_namespace prop_precond

/-- An element by the href of its namespace and its name. -/
structure xml_name where
  ns_href : String
  name : String
  deriving DecidableEq

/-- A child node of a property element, as the callbacks look at it: whether
it is an element, its name, and its attribute `name` (`none` when absent). -/
structure value_node where
  is_element : Bool
  name : String
  name_attr : Option String
  deriving DecidableEq

/-- A child node of a prop element: whether it is an element, its namespace
and name, its text content (`xmlNodeGetContent`) and its children. -/
structure prop_node where
  is_element : Bool
  ns_href : String
  name : String
  content : String
  children : List value_node
  deriving DecidableEq

/-- A child node of a set or remove element. -/
structure instr_child where
  is_element : Bool
  name : String
  children : List prop_node
  deriving DecidableEq

/-- A child node of the propertyupdate element. -/
structure instr_node where
  is_element : Bool
  name : String
  children : List instr_child
  deriving DecidableEq

/-- What the PROPPATCH code takes from outside these sources: the namespace
hrefs `XML_NS_*`, the annotation prefix `ANNOT_NS`, `strhash`, the type bits
of the table `cal_comps`, whether `WITH_CALDAV_SCHED` is defined, and the
result of `annotatemore_write_entry` for an entry name and a value (`none`
for NULL). -/
structure proppatch_environment where
  XML_NS_DAV : String
  XML_NS_CALDAV : String
  XML_NS_CS : String
  XML_NS_ICAL : String
  ANNOT_NS : String
  strhash : String → Nat
  cal_comps : List (String × Nat)
  WITH_CALDAV_SCHED : Bool
  annotatemore_write_entry : String → Option String → Int

/-- The fields of `struct proppatch_ctx` and of the request target that the
callbacks read: the method, the path namespace, and whether the target has
a collection and a resource. -/
structure proppatch_ctx where
  meth : http_method
  ns : url_namespace
  collection : Bool
  resource : Bool
  deriving DecidableEq

/-- One `struct propstat`: the properties filed under its propstat element
(`none` while `root` is NULL), the status (`none` for 0) and the
precondition (`none` for 0). -/
structure propstat where
  root : Option (List xml_name)
  status : Option http_code
  precond : Option prop_precond
  deriving DecidableEq

/-- Index `PROPSTAT_OK` into the propstat array. -/
def PROPSTAT_OK : Nat := 0
/-- Index `PROPSTAT_UNAUTH` into the propstat array. -/
def PROPSTAT_UNAUTH : Nat := 1
/-- Index `PROPSTAT_FORBID` into the propstat array. -/
def PROPSTAT_FORBID : Nat := 2
/-- Index `PROPSTAT_NOTFOUND` into the propstat array. -/
def PROPSTAT_NOTFOUND : Nat := 3
/-- Index `PROPSTAT_CONFLICT` into the propstat array. -/
def PROPSTAT_CONFLICT : Nat := 4
/-- Index `PROPSTAT_FAILEDDEP` into the propstat array. -/
def PROPSTAT_FAILEDDEP : Nat := 5
/-- Index `PROPSTAT_ERROR` into the propstat array. -/
def PROPSTAT_ERROR : Nat := 6
/-- Index `PROPSTAT_OVERQUOTA` into the propstat array. -/
def PROPSTAT_OVERQUOTA : Nat := 7
/-- The size `NUM_PROPSTAT` of the propstat array. -/
def NUM_PROPSTAT : Nat := 8

/-- A propstat as `memset` leaves it. -/
def zero_propstat : propstat := ⟨none, none, none⟩

/-- One call of `annotatemore_write_entry`: the entry, the value and the
result. -/
structure annot_write where
  entry : String
  value : Option String
  result : Int
  deriving DecidableEq

/-- What `do_proppatch` and its callbacks change: the propstat array, the
code behind `pctx->ret`, and the annotation writes made within the
transaction `pctx->tid`. -/
structure proppatch_state where
  propstat : List propstat
  ret : Option http_code
  writes : List annot_write
  deriving DecidableEq

/-- The function `xml_add_prop` for the element of the array at `index`: the
propstat element is created when it is missing, the property is added to
it, and status and precondition are stored. -/
def xml_add_prop (status : http_code) (index : Nat) (prop : xml_name)
    (precond : Option prop_precond) (st : proppatch_state) : proppatch_state :=
  { st with
    propstat := st.propstat.set index
      ⟨some (((st.propstat.getD index zero_propstat).root.getD []) ++ [prop]),
        some status, precond⟩ }

/-- The name under which a property is filed. -/
def prop_node.xml_name (prop : prop_node) : xml_name := ⟨prop.ns_href, prop.name⟩

/-- The conversion `%08X` of `printf` for an `unsigned` value. -/
def printf_08X (n : Nat) : String :=
  let digits := (Nat.toDigits 16 (n % 4294967296)).map Char.toUpper
  String.mk (List.replicate (8 - digits.length) '0' ++ digits)

/-- One call of `annotatemore_write_entry` within the transaction: the call
is recorded, and the callback files the property under 200 when the result
is 0 and under 500 otherwise; `pctx->ret` is left as it is. -/
def annotate_and_file (E : proppatch_environment) (entry : String) (value : Option String)
    (prop : xml_name) (st : proppatch_state) : proppatch_state :=
  let r := E.annotatemore_write_entry entry value
  let st1 := { st with writes := st.writes ++ [⟨entry, value, r⟩] }
  if r = 0 then xml_add_prop HTTP_OK PROPSTAT_OK prop none st1
  else xml_add_prop HTTP_SERVER_ERROR PROPSTAT_ERROR prop none st1

/-- The callback `proppatch_todb` with its rock (the namespace prefix,
`none` for a dead property, whose prefix is the hash of the namespace href). -/
def proppatch_todb (E : proppatch_environment) (prop : prop_node) (set : Bool)
    ( ns_prefix : Option String) (st : proppatch_state) : proppatch_state :=
  let entry :=
    match ns_prefix with
    | some pre => E.ANNOT_NS ++ pre ++ ":" ++ prop.name
    | none => E.ANNOT_NS ++ printf_08X (E.strhash prop.ns_href) ++ ":" ++ prop.name
  annotate_and_file E entry (if set then some prop.content else none) prop.xml_name st

/-- The refusal at the end of `proppatch_restype` and `proppatch_calcompset`:
the property is filed under 403 with the precondition and `*pctx->ret`
becomes `HTTP_FORBIDDEN`. -/
def forbid_prop (prop : xml_name) (precond : Option prop_precond) (st : proppatch_state) :
    proppatch_state :=
  { xml_add_prop HTTP_FORBIDDEN PROPSTAT_FORBID prop precond st with ret := some HTTP_FORBIDDEN }

/-- The callback `proppatch_restype`. -/
def proppatch_restype (ctx : proppatch_ctx) (prop : prop_node) (set : Bool)
    (st : proppatch_state) : proppatch_state :=
  if set = true ∧ (ctx.meth = METH_MKCOL ∨ ctx.meth = METH_MKCALENDAR) then
    -- "Writeable" for MKCOL/MKCALENDAR only
    if prop.children.all (fun cur =>
        !cur.is_element ||
          !(decide (cur.name ≠ "collection") &&
            (decide (cur.name ≠ "calendar") || decide (ctx.ns ≠ URL_NS_CALENDAR)))) then
      xml_add_prop HTTP_OK PROPSTAT_OK prop.xml_name none st
    else forbid_prop prop.xml_name (some DAV_VALID_RESTYPE) st
  else forbid_prop prop.xml_name (some DAV_PROT_PROP) st

/-- The loop of `proppatch_calcompset` over the components: the type bits
gathered when every element child is a `comp` with a known name, `none` when
the loop is left by `break`. -/
def calcompset_types (E : proppatch_environment) : List value_node → Nat → Option Nat
  | [], types => some types
  | cur :: rest, types =>
    if cur.is_element = false then calcompset_types E rest types
    else if cur.name ≠ "comp" then none
    else
      match cur.name_attr with
      | none => none
      | some name =>
        match E.cal_comps.find? (fun comp => comp.1 = name) with
        | some comp => calcompset_types E rest (types ||| comp.2)
        | none => none

/-- The callback `proppatch_calcompset`. -/
def proppatch_calcompset (E : proppatch_environment) (ctx : proppatch_ctx) (prop : prop_node)
    (set : Bool) (st : proppatch_state) : proppatch_state :=
  if ctx.ns = URL_NS_CALENDAR ∧ set = true ∧
      (ctx.meth = METH_MKCOL ∨ ctx.meth = METH_MKCALENDAR) then
    match calcompset_types E prop.children 0 with
    | some types =>
      annotate_and_file E (E.ANNOT_NS ++ "CALDAV:supported-calendar-component-set")
        (some (Nat.repr types)) prop.xml_name st
    | none => forbid_prop prop.xml_name (some CALDAV_SUPP_COMP) st
  else forbid_prop prop.xml_name (some DAV_PROT_PROP) st

/-- The loop of `proppatch_caltransp` over the children of the property: the
value found (`""` when there is no element child), `none` for an element
that is neither `opaque` nor `transparent`. -/
def caltransp_value : List value_node → Option String
  | [] => some ""
  | cur :: rest =>
    if cur.is_element = false then caltransp_value rest
    else if cur.name = "opaque" ∨ cur.name = "transparent" then some cur.name
    else none

/-- The callback `proppatch_caltransp`. -/
def proppatch_caltransp (E : proppatch_environment) (ctx : proppatch_ctx) (prop : prop_node)
    (set : Bool) (st : proppatch_state) : proppatch_state :=
  if ctx.ns = URL_NS_CALENDAR ∧ ctx.collection = true ∧ ctx.resource = false then
    match (if set then caltransp_value prop.children else some "") with
    | none =>
      -- Unknown value
      { xml_add_prop HTTP_CONFLICT PROPSTAT_CONFLICT prop.xml_name none st with
        ret := some HTTP_FORBIDDEN }
    | some transp =>
      annotate_and_file E (E.ANNOT_NS ++ "CALDAV:schedule-calendar-transp") (some transp)
        prop.xml_name st
  else forbid_prop prop.xml_name none st

/-- The `put` callbacks of the table `prop_entries`, with their rock. -/
inductive put_callback
  | todb (rock : String)
  | restype
  | calcompset
  | caltransp
  deriving DecidableEq

/-- The fields of an entry of `prop_entries` that `do_proppatch` reads: name,
namespace and the `put` callback (`none` for NULL). -/
structure prop_entry where
  name : String
  ns : String
  put : Option put_callback
  deriving DecidableEq

/-- The table `prop_entries`, in its order; the scheduling entries are
present when `WITH_CALDAV_SCHED` is defined. -/
def prop_entries (E : proppatch_environment) : List prop_entry :=
  [ -- WebDAV (RFC 4918) properties
    ⟨"add-member", E.XML_NS_DAV, none⟩,
    ⟨"creationdate", E.XML_NS_DAV, none⟩,
    ⟨"displayname", E.XML_NS_DAV, some (.todb "DAV")⟩,
    ⟨"getcontentlanguage", E.XML_NS_DAV, none⟩,
    ⟨"getcontentlength", E.XML_NS_DAV, none⟩,
    ⟨"getcontenttype", E.XML_NS_DAV, none⟩,
    ⟨"getetag", E.XML_NS_DAV, none⟩,
    ⟨"getlastmodified", E.XML_NS_DAV, none⟩,
    ⟨"lockdiscovery", E.XML_NS_DAV, none⟩,
    ⟨"resourcetype", E.XML_NS_DAV, some .restype⟩,
    ⟨"supportedlock", E.XML_NS_DAV, none⟩,
    ⟨"sync-token", E.XML_NS_DAV, none⟩,
    -- WebDAV Versioning (RFC 3253) properties
    ⟨"supported-report-set", E.XML_NS_DAV, none⟩,
    -- WebDAV ACL (RFC 3744) properties
    ⟨"alternate-URI-set", E.XML_NS_DAV, none⟩,
    ⟨"principal-URL", E.XML_NS_DAV, none⟩,
    ⟨"group-member-set", E.XML_NS_DAV, none⟩,
    ⟨"group-membership", E.XML_NS_DAV, none⟩,
    ⟨"owner", E.XML_NS_DAV, none⟩,
    ⟨"group", E.XML_NS_DAV, none⟩,
    ⟨"supported-privilege-set", E.XML_NS_DAV, none⟩,
    ⟨"current-user-privilege-set", E.XML_NS_DAV, none⟩,
    ⟨"acl", E.XML_NS_DAV, none⟩,
    ⟨"acl-restrictions", E.XML_NS_DAV, none⟩,
    ⟨"inherited-acl-set", E.XML_NS_DAV, none⟩,
    ⟨"principal-collection-set", E.XML_NS_DAV, none⟩,
    -- WebDAV Current Principal (RFC 5397) properties
    ⟨"current-user-principal", E.XML_NS_DAV, none⟩,
    -- WebDAV Quota (RFC 4331) properties
    ⟨"quota-available-bytes", E.XML_NS_DAV, none⟩,
    ⟨"quota-used-bytes", E.XML_NS_DAV, none⟩,
    -- CalDAV (RFC 4791) properties
    ⟨"calendar-data", E.XML_NS_CALDAV, none⟩,
    ⟨"calendar-description", E.XML_NS_CALDAV, some (.todb "CALDAV")⟩,
    ⟨"calendar-home-set", E.XML_NS_CALDAV, none⟩,
    ⟨"calendar-timezone", E.XML_NS_CALDAV, some (.todb "CALDAV")⟩,
    ⟨"supported-calendar-component-set", E.XML_NS_CALDAV, some .calcompset⟩,
    ⟨"supported-calendar-data", E.XML_NS_CALDAV, none⟩,
    ⟨"max-resource-size", E.XML_NS_CALDAV, none⟩,
    ⟨"min-date-time", E.XML_NS_CALDAV, none⟩,
    ⟨"max-date-time", E.XML_NS_CALDAV, none⟩,
    ⟨"max-instances", E.XML_NS_CALDAV, none⟩,
    ⟨"max-attendees-per-instance", E.XML_NS_CALDAV, none⟩ ] ++
  (if E.WITH_CALDAV_SCHED = true then
    [ -- CalDAV Scheduling (RFC 6638) properties
      ⟨"schedule-tag", E.XML_NS_CALDAV, none⟩,
      ⟨"schedule-inbox-URL", E.XML_NS_CALDAV, none⟩,
      ⟨"schedule-outbox-URL", E.XML_NS_CALDAV, none⟩,
      ⟨"schedule-default-calendar-URL", E.XML_NS_CALDAV, none⟩,
      ⟨"schedule-calendar-transp", E.XML_NS_CALDAV, some .caltransp⟩,
      ⟨"calendar-user-address-set", E.XML_NS_CALDAV, none⟩,
      ⟨"calendar-user-type", E.XML_NS_CALDAV, none⟩ ]
   else []) ++
  [ -- Calendar Server properties
    ⟨"getctag", E.XML_NS_CS, none⟩,
    -- Apple iCal properties
    ⟨"calendar-color", E.XML_NS_ICAL, some (.todb "iCAL")⟩,
    ⟨"calendar-order", E.XML_NS_ICAL, some (.todb "iCAL")⟩ ]

/-- The body of the loop "Iterate through requested properties" of
`do_proppatch` for one child of the prop element. -/
def patch_property (E : proppatch_environment) (ctx : proppatch_ctx) (set : Bool)
    (st : proppatch_state) (prop : prop_node) : proppatch_state :=
  if prop.is_element = false then st
  else
    -- Look for a match against our known properties
    match (prop_entries E).find? (fun entry =>
        decide (prop.name = entry.name) && decide (prop.ns_href = entry.ns)) with
    | some entry =>
      match entry.put with
      | none =>
        -- Protected property
        forbid_prop prop.xml_name (some DAV_PROT_PROP) st
      | some (.todb rock) => proppatch_todb E prop set (some rock) st
      | some .restype => proppatch_restype ctx prop set st
      | some .calcompset => proppatch_calcompset E ctx prop set st
      | some .caltransp => proppatch_caltransp E ctx prop set st
    | none =>
      -- Write "dead" property
      proppatch_todb E prop set none st

/-- The loop "Iterate through propertyupdate children" of `do_proppatch`:
the state at its end, together with the description of the error when the
function returns `HTTP_BAD_REQUEST` from inside the loop. -/
def patch_instructions (E : proppatch_environment) (ctx : proppatch_ctx) :
    List instr_node → proppatch_state → Option String × proppatch_state
  | [], st => (none, st)
  | instr :: rest, st =>
    if instr.is_element = false then patch_instructions E ctx rest st
    else if instr.name ≠ "set" ∧ ¬ (ctx.meth = METH_PROPPATCH ∧ instr.name = "remove") then
      (some "Unknown PROPPATCH instruction", st)
    else
      -- Find child element
      match instr.children.find? (fun child => child.is_element) with
      | none => (some "Missing prop element", st)
      | some prop =>
        if prop.name ≠ "prop" then (some "Missing prop element", st)
        else
          patch_instructions E ctx rest
            (prop.children.foldl (patch_property E ctx (decide (instr.name = "set"))) st)

/-- The step "200 status must become 424" of `do_proppatch`. -/
def fail_dependencies (st : proppatch_state) : proppatch_state :=
  if st.ret ≠ none ∧ (st.propstat.getD PROPSTAT_OK zero_propstat).root ≠ none then
    { st with
      propstat :=
        ((st.propstat.set PROPSTAT_FAILEDDEP
            { st.propstat.getD PROPSTAT_FAILEDDEP zero_propstat with
              root := (st.propstat.getD PROPSTAT_OK zero_propstat).root
              status := some HTTP_FAILED_DEP }).set PROPSTAT_OK
          { st.propstat.getD PROPSTAT_OK zero_propstat with root := none }) }
  else st

/-- What `do_proppatch` hands back: its `int` result (`none` for 0), the
text stored through `pctx->errstr`, the code behind `pctx->ret`, the
propstat elements added to the response element, in the order of the array,
and the annotation writes made. -/
structure proppatch_result where
  result : Option http_code
  errstr : Option String
  ret : Option http_code
  response : List propstat
  writes : List annot_write
  deriving DecidableEq

/-- The function `do_proppatch` for the children of the propertyupdate
element, with `*pctx->ret` as the caller set it. -/
def do_proppatch (E : proppatch_environment) (ctx : proppatch_ctx) (ret : Option http_code)
    (instr : List instr_node) : proppatch_result :=
  match patch_instructions E ctx instr
      ⟨List.replicate NUM_PROPSTAT zero_propstat, ret, []⟩ with
  | (some desc, st) =>
    ⟨some HTTP_BAD_REQUEST, some desc, st.ret, [], st.writes⟩
  | (none, st) =>
    let st1 := fail_dependencies st
    ⟨none, none, st1.ret, st1.propstat.filter (fun stat => stat.root.isSome), st1.writes⟩

/-- How `meth_proppatch` ends the annotation transaction `pctx.tid`. -/
inductive txn_end
  | annotatemore_abort
  | annotatemore_commit
  deriving DecidableEq

/-- What the part of `meth_proppatch` from "Populate our proppatch context"
on does: its result (`none` for 0), how the transaction is ended, the
propstat elements of the multistatus body when one is sent with
`xml_response`, the description of an error, and the annotation writes. -/
structure meth_proppatch_result where
  ret : Option http_code
  transaction : txn_end
  multistatus : Option (List propstat)
  errstr : Option String
  writes : List annot_write
  deriving DecidableEq

/-- The part of `meth_proppatch` from "Populate our proppatch context" to
its end, for the children of the propertyupdate element; `r` is 0 there
since the mailbox lookup has succeeded; `prefer_min` is the test
`get_preferences(txn) & PREFER_MIN`. -/
def meth_proppatch (E : proppatch_environment) (ctx : proppatch_ctx) (prefer_min : Bool)
    (instr : List instr_node) : meth_proppatch_result :=
  let done := do_proppatch E ctx none instr
  if done.result ≠ none ∨ done.ret ≠ none then
    -- Something failed.  Abort the txn and change the OK status
    if done.result ≠ none then
      ⟨done.result, .annotatemore_abort, none, done.errstr, done.writes⟩
    else if prefer_min = true then
      ⟨some HTTP_OK, .annotatemore_abort, none, done.errstr, done.writes⟩
    else ⟨none, .annotatemore_abort, some done.response, done.errstr, done.writes⟩
  else
    -- Success.  Commit the txn
    if prefer_min = true then
      ⟨some HTTP_OK, .annotatemore_commit, none, done.errstr, done.writes⟩
    else ⟨none, .annotatemore_commit, some done.response, done.errstr, done.writes⟩

/-- A configuration for the examples: the namespace hrefs of `httpd.h`, an
annotation prefix, a hash that maps every href to `0x1234ABCD`, the six
component types on the bits 0 to 5, scheduling compiled in, and an
annotation store that cannot write the entry of the dead property `size`. -/
def sample_proppatch_environment : proppatch_environment :=
  { XML_NS_DAV := "DAV:"
    XML_NS_CALDAV := "urn:ietf:params:xml:ns:caldav"
    XML_NS_CS := "http://calendarserver.org/ns/"
    XML_NS_ICAL := "http://apple.com/ns/ical/"
    ANNOT_NS := "/vendor/cmu/cyrus-imapd/"
    strhash := fun _ => 0x1234ABCD
    cal_comps := [("VEVENT", 1), ("VTODO", 2), ("VJOURNAL", 4), ("VFREEBUSY", 8),
      ("VTIMEZONE", 16), ("VALARM", 32)]
    WITH_CALDAV_SCHED := true
    annotatemore_write_entry := fun entry _ =>
      if entry = "/vendor/cmu/cyrus-imapd/1234ABCD:size" then -1 else 0 }

/-- A PROPPATCH on an addressbook collection. -/
def sample_proppatch_ctx : proppatch_ctx :=
  { meth := METH_PROPPATCH
    ns := URL_NS_ADDRESSBOOK
    collection := true
    resource := false }

/-- A propertyupdate that sets two dead properties, `color` and `size` of
the namespace `http://example.com/ns/`. -/
def two_dead_properties : List instr_node :=
  [⟨true, "set",
    [⟨true, "prop",
      [⟨true, "http://example.com/ns/", "color", "red", []⟩,
       ⟨true, "http://example.com/ns/", "size", "10", []⟩]⟩]⟩]

/-- A propertyupdate that sets the dead property `color` and the protected
property DAV:getetag. -/
def dead_and_protected_property : List instr_node :=
  [⟨true, "set",
    [⟨true, "prop",
      [⟨true, "http://example.com/ns/", "color", "red", []⟩,
       ⟨true, "DAV:", "getetag", "x", []⟩]⟩]⟩]

/-! ## The index record codec (specification, section 4.1) -/

/-- Modelled from the spec: the `IndexRecord` of the data model (imap/mailbox.h
and imap/mailbox.c, which hold the record type and its codec, are not among
the sources). The guid is a sequence of bytes, the user flags a sequence of
words, the other fields are unsigned integers. -/
structure IndexRecord where
  uid : Nat
  modseq : Nat
  internalDate : Nat
  size : Nat
  headerSize : Nat
  guid : List Nat
  systemFlags : Nat
  userFlags : List Nat
  crc : Nat
  deriving DecidableEq

/-- Modelled from the spec: what fixes the record block and is not stated in
the specification: the widths in bytes of the integer fields other than the
64-bit modseq and the 32-bit CRC, the size of the guid, the number of user
flag words, and the checksum function (`crc32_map` of lib/crc32.h, whose
body is not among the sources). -/
structure codec_layout where
  uid_width : Nat
  date_width : Nat
  size_width : Nat
  flags_width : Nat
  guid_size : Nat
  user_flag_words : Nat
  crc32_map : List Nat → Nat

/-- Modelled from the spec: a fixed-width field with a defined byte order:
the `width` bytes of `value`, most significant first. -/
def encode_be : Nat → Nat → List Nat
  | 0, _ => []
  | width + 1, value => value / 256 ^ width % 256 :: encode_be width value

/-- Modelled from the spec: the value of a field read from its bytes, most
significant first. -/
def decode_be (bytes : List Nat) : Nat :=
  bytes.foldl (fun acc b => acc * 256 + b) 0

/-- Modelled from the spec: a sequence brought to exactly `n` entries, so
that the block has a fixed size for every record. -/
def fixed_length (n : Nat) (xs : List Nat) : List Nat :=
  (xs ++ List.replicate n 0).take n

/-- Modelled from the spec: the block without its checksum: the fields of
the record in the order of the data model, each with its fixed width. -/
def encode_fields (L : codec_layout) (r : IndexRecord) : List Nat :=
  encode_be L.uid_width r.uid ++ (encode_be 8 r.modseq ++ (encode_be L.date_width r.internalDate ++
    (encode_be L.size_width r.size ++ (encode_be L.size_width r.headerSize ++
      (fixed_length L.guid_size r.guid ++ (encode_be L.flags_width r.systemFlags ++
        (fixed_length L.user_flag_words r.userFlags).flatMap (encode_be L.flags_width)))))))

/-- Modelled from the spec: the offset of the record CRC in the block
(`OFFSET_RECORD_CRC`): the sum of the field widths. -/
def OFFSET_RECORD_CRC (L : codec_layout) : Nat :=
  L.uid_width + (8 + (L.date_width + (L.size_width + (L.size_width +
    (L.guid_size + (L.flags_width + L.user_flag_words * L.flags_width))))))

/-- The size of a record block, by the assertion in `main` of
`dav_reconstruct.c`: `INDEX_RECORD_SIZE == (OFFSET_RECORD_CRC+4)`. -/
def INDEX_RECORD_SIZE (L : codec_layout) : Nat :=
  OFFSET_RECORD_CRC L + 4

/-- Modelled from the spec: the record checksum: the 32-bit CRC of the block
without its last four bytes. -/
def record_crc (L : codec_layout) (r : IndexRecord) : Nat :=
  L.crc32_map (encode_fields L r) % 4294967296

/-- Modelled from the spec: `encode(record) -> bytes`, the fixed-size block
whose last four bytes are the record CRC. -/
def encode (L : codec_layout) (r : IndexRecord) : List Nat :=
  encode_fields L r ++ encode_be 4 (record_crc L r)

/-- Modelled from the spec: the error of `decode`. -/
inductive codec_error
  | CorruptRecord
  deriving DecidableEq

/-- Modelled from the spec: the words of the user flags read from their
bytes. -/
def decode_words (width : Nat) : Nat → List Nat → List Nat
  | 0, _ => []
  | n + 1, bytes => decode_be (bytes.take width) :: decode_words width n (bytes.drop width)

/-- Modelled from the spec: `decode(bytes) -> Result<record, CorruptRecord>`:
the size of the block and the embedded CRC are checked against the rest of
the block before the fields are returned. -/
def decode (L : codec_layout) (bytes : List Nat) : Except codec_error IndexRecord :=
  if bytes.length ≠ INDEX_RECORD_SIZE L then .error .CorruptRecord
  else if decode_be (bytes.drop (OFFSET_RECORD_CRC L)) ≠
      L.crc32_map (bytes.take (OFFSET_RECORD_CRC L)) % 4294967296 then
    .error .CorruptRecord
  else
    let b1 := bytes.drop L.uid_width
    let b2 := b1.drop 8
    let b3 := b2.drop L.date_width
    let b4 := b3.drop L.size_width
    let b5 := b4.drop L.size_width
    let b6 := b5.drop L.guid_size
    let b7 := b6.drop L.flags_width
    .ok { uid := decode_be (bytes.take L.uid_width)
          modseq := decode_be (b1.take 8)
          internalDate := decode_be (b2.take L.date_width)
          size := decode_be (b3.take L.size_width)
          headerSize := decode_be (b4.take L.size_width)
          guid := b5.take L.guid_size
          systemFlags := decode_be (b6.take L.flags_width)
          userFlags := decode_words L.flags_width L.user_flag_words b7
          crc := decode_be (bytes.drop (OFFSET_RECORD_CRC L)) }

/-- Modelled from the spec: a valid record: every field fits its width, the
guid and the user flags have their fixed sizes, and the `crc` field is the
checksum of the record. -/
def valid_record (L : codec_layout) (r : IndexRecord) : Prop :=
  r.uid < 256 ^ L.uid_width ∧ r.modseq < 256 ^ 8 ∧ r.internalDate < 256 ^ L.date_width ∧
  r.size < 256 ^ L.size_width ∧ r.headerSize < 256 ^ L.size_width ∧
  r.guid.length = L.guid_size ∧ (∀ b ∈ r.guid, b < 256) ∧
  r.systemFlags < 256 ^ L.flags_width ∧
  r.userFlags.length = L.user_flag_words ∧ (∀ w ∈ r.userFlags, w < 256 ^ L.flags_width) ∧
  r.crc = record_crc L r

/-- A layout for the examples: fields of 32 bits, a guid of 20 bytes, four
words of user flags, and the sum of the bytes in place of the CRC. -/
def sample_layout : codec_layout :=
  { uid_width := 4
    date_width := 4
    size_width := 4
    flags_width := 4
    guid_size := 20
    user_flag_words := 4
    crc32_map := fun bytes => bytes.foldl (fun a b => a + b) 0 }

/-- A record for the examples; its `crc` is the checksum of its fields under
the sample layout. -/
def sample_record : IndexRecord :=
  { uid := 7
    modseq := 4294967297
    internalDate := 1300000000
    size := 1024
    headerSize := 300
    guid := [1, 2, 3, 4, 5, 6, 7, 8, 9, 10, 11, 12, 13, 14, 15, 16, 17, 18, 19, 20]
    systemFlags := 2147483648
    userFlags := [8, 0, 0, 1]
    crc := 715 }

/-- The propstat array has its eight elements, and only the element
`PROPSTAT_OK` can carry the status 200. -/
def only_first_ok (st : proppatch_state) : Prop :=
  st.propstat.length = NUM_PROPSTAT ∧
  ∀ i, i ≠ PROPSTAT_OK → (st.propstat.getD i zero_propstat).status ≠ some HTTP_OK

/-- The sample environment with a cache that holds no Content-Disposition
header for any record (`index_getheader` gives NULL). -/
def headerless_environment : environment :=
  { sample_environment with index_getheader := fun _ _ => none }

/-- The sample environment with a Content-Disposition header that names no
file (`attachment` alone) for every record. -/
def nameless_environment : environment :=
  { sample_environment with index_getheader := fun _ _ => some "attachment" }

/-- The sample CardDAV environment with a path buffer of 27 characters (and
the terminator), which the path `/addressbooks/user/alice/Ab` fills. -/
def tight_carddav_environment : carddav_environment :=
  { sample_carddav_environment with MAX_MAILBOX_PATH := 27 }

/-! ## Selection -/

/-- The selection loop appends to the entries kept so far the readable
records that pass its three tests, in `recno` order; `P` is any test that
holds exactly when none of the three `continue` branches is taken. -/
theorem find_resources_filter (E : environment) (mb : mailbox) (s : Nat) (uf : Option Nat)
    (P : index_record → Bool)
    (hP : ∀ r, P r = true ↔ (¬ r.modseq ≤ s ∧ is_unbound uf r = false ∧
      ¬ (s = 0 ∧ is_expunged E r = true))) :
    ∀ (n recno : Nat) (acc : List index_map),
      find_resources E mb s uf n recno acc =
        acc ++ (((List.range' recno n).filterMap (mailbox_read_index_record mb)).filter P).map
          index_map.mk := by
  intro n
  induction n with
  | zero => intro recno acc; simp [find_resources]
  | succ n ih =>
    intro recno acc
    rw [find_resources.eq_2, List.range'_succ, List.filterMap_cons]
    cases hread : mailbox_read_index_record mb recno with
    | none => simp only [ih]
    | some record =>
      rw [List.filter_cons]
      by_cases hk : P record = true
      · obtain ⟨h1, h2, h3⟩ := (hP record).1 hk
        simp only [hk, h1, h2, h3, if_false, if_true, Bool.false_eq_true]
        rw [ih]
        simp only [List.map_cons, List.append_assoc, List.singleton_append]
      · have hk' : P record = false := by simpa using hk
        simp only [hk', Bool.false_eq_true, if_false]
        by_cases h1 : record.modseq ≤ s
        · rw [if_pos h1]; exact ih _ _
        · by_cases h2 : is_unbound uf record = true
          · rw [if_neg h1, if_pos h2]; exact ih _ _
          · have h2' : is_unbound uf record = false := by simpa using h2
            have h3 : s = 0 ∧ is_expunged E record = true := by
              by_contra hne
              exact hk ((hP record).2 ⟨h1, h2', hne⟩)
            rw [if_neg h1, if_neg h2, if_pos h3]; exact ih _ _

/-- The selection loop with the three tests spelled as in the specification. -/
theorem find_resources_eq (E : environment) (mb : mailbox) (s : Nat) (uf : Option Nat)
    (n recno : Nat) (acc : List index_map) :
    find_resources E mb s uf n recno acc =
      acc ++ (((List.range' recno n).filterMap (mailbox_read_index_record mb)).filter
        (fun r => decide (s < r.modseq ∧ is_unbound uf r = false ∧
          (s = 0 → is_expunged E r = false)))).map index_map.mk := by
  apply find_resources_filter
  intro r
  rw [decide_eq_true_iff]
  constructor
  · rintro ⟨k1, k2, k3⟩
    refine ⟨by omega, k2, ?_⟩
    rintro ⟨h0, he⟩
    rw [k3 h0] at he
    exact Bool.false_ne_true he
  · rintro ⟨k1, k2, k3⟩
    refine ⟨by omega, k2, fun h0 => ?_⟩
    by_contra he
    exact k3 ⟨h0, by simpa using he⟩

/-- Every entry of the selection wraps a record of the specification's
selection, in the same order. -/
theorem select_resources_eq (E : environment) (mb : mailbox) (s : Nat) :
    select_resources E mb s = (selected_by_spec E mb s).map index_map.mk := by
  simp [select_resources, selected_by_spec, readable_records, find_resources_eq]

/-- A record that is read carries the number it was read at. -/
theorem read_recno (mb : mailbox) (recno : Nat) (r : index_record)
    (h : mailbox_read_index_record mb recno = some r) : r.recno = recno ∧ recno ≠ 0 := by
  unfold mailbox_read_index_record at h
  split at h
  · exact absurd h (by simp)
  · rename_i h0
    split at h
    · exact absurd h (by simp)
    · injection h with h
      subst h
      exact ⟨rfl, h0⟩

/-- Membership in the readable records: read at some number of the scan. -/
theorem mem_readable_records (mb : mailbox) (r : index_record) :
    r ∈ readable_records mb ↔
      (1 ≤ r.recno ∧ r.recno ≤ mb.num_records ∧ mailbox_read_index_record mb r.recno = some r) := by
  unfold readable_records
  rw [List.mem_filterMap]
  constructor
  · rintro ⟨i, hi, hr⟩
    rw [List.mem_range'_1] at hi
    have := (read_recno mb i r hr).1
    subst this
    exact ⟨hi.1, by omega, hr⟩
  · rintro ⟨h1, h2, h3⟩
    exact ⟨r.recno, by rw [List.mem_range'_1]; omega, h3⟩

/-- The readable records are in strictly ascending `recno` order. -/
theorem readable_records_ordered (mb : mailbox) :
    (readable_records mb).Pairwise (fun a b => a.recno < b.recno) := by
  unfold readable_records
  refine List.Pairwise.filterMap _ ?_ (List.pairwise_lt_range' 1 mb.num_records)
  intro i j hij a ha b hb
  rw [(read_recno mb i a ha).1, (read_recno mb j b hb).1]
  exact hij

/-- C3: the records that `report_sync_col` selects before truncation are
exactly the readable records with `recno` in `[1, num_records]`, in `recno`
order, whose modseq is above the token modseq, whose superseded user flag is
not set and, on an initial sync (token modseq 0), whose EXPUNGED flag is not
set; a record whose read fails is skipped and nothing else is left out. -/
theorem selection_is_spec_filter (E : environment) (mb : mailbox) (syncmodseq : Nat) :
    (select_resources E mb syncmodseq).map index_map.record = selected_by_spec E mb syncmodseq ∧
    (selected_by_spec E mb syncmodseq).Pairwise (fun a b => a.recno < b.recno) ∧
    (∀ r : index_record, r ∈ selected_by_spec E mb syncmodseq ↔
      (1 ≤ r.recno ∧ r.recno ≤ mb.num_records ∧
        mailbox_read_index_record mb r.recno = some r ∧
        syncmodseq < r.modseq ∧ is_unbound mb.unbind_userflag r = false ∧
        (syncmodseq = 0 → is_expunged E r = false))) := by
  refine ⟨?_, ?_, ?_⟩
  · rw [select_resources_eq, List.map_map]
    have : index_map.record ∘ index_map.mk = id := rfl
    rw [this, List.map_id]
  · exact (readable_records_ordered mb).sublist (List.filter_sublist _)
  · intro r
    unfold selected_by_spec
    rw [List.mem_filter, mem_readable_records, decide_eq_true_iff]
    tauto

/-! ## The cut of a truncated result -/

/-- The comparison is not positive exactly when the modseqs are in order. -/
theorem map_modseq_cmp_le (a b : index_map) :
    map_modseq_cmp a b ≤ 0 ↔ a.record.modseq ≤ b.record.modseq := by
  unfold map_modseq_cmp
  split
  · constructor
    · intro _; omega
    · intro _; decide
  · split
    · constructor
      · intro h; exact absurd h (by decide)
      · intro h; omega
    · constructor
      · intro _; omega
      · intro _; decide

/-- The cut never moves to the right of its start value. -/
theorem last_with_modseq_le (l : List index_map) : ∀ k, last_with_modseq l k ≤ k := by
  intro k
  induction k with
  | zero => simp [last_with_modseq]
  | succ k ih =>
    rw [last_with_modseq]
    split
    · omega
    · exact Nat.le_refl _

/-- At a cut that is not 0 the modseq changes. -/
theorem last_with_modseq_boundary (l : List index_map) : ∀ k, last_with_modseq l k ≠ 0 →
    (l.getD (last_with_modseq l k - 1) zero_map).record.modseq ≠
      (l.getD (last_with_modseq l k) zero_map).record.modseq := by
  intro k
  induction k with
  | zero => intro h; simp [last_with_modseq] at h
  | succ k ih =>
    intro h
    rw [last_with_modseq] at h ⊢
    split
    · rename_i heq
      rw [if_pos heq] at h
      exact ih h
    · rename_i hne
      simpa using hne

/-- From the cut up to the start value all entries carry one modseq. -/
theorem last_with_modseq_run (l : List index_map) : ∀ k j, last_with_modseq l k ≤ j → j ≤ k →
    (l.getD j zero_map).record.modseq = (l.getD k zero_map).record.modseq := by
  intro k
  induction k with
  | zero => intro j _ hj; have : j = 0 := by omega
            subst this; rfl
  | succ k ih =>
    intro j hc hj
    rw [last_with_modseq] at hc
    split at hc
    · rename_i heq
      by_cases hjk : j = k + 1
      · subst hjk; rfl
      · rw [ih j hc (by omega), heq]
    · have : j = k + 1 := by omega
      subst this; rfl

/-- In a list that is ascending by modseq, a later position has no smaller modseq. -/
theorem sorted_getD_le (l : List index_map)
    (hs : l.Pairwise (fun a b => a.record.modseq ≤ b.record.modseq)) (i j : Nat)
    (hij : i ≤ j) (hj : j < l.length) :
    (l.getD i zero_map).record.modseq ≤ (l.getD j zero_map).record.modseq := by
  rcases Nat.eq_or_lt_of_le hij with h | h
  · subst h; exact Nat.le_refl _
  · rw [List.getD_eq_getElem l zero_map hj, List.getD_eq_getElem l zero_map (by omega : i < l.length)]
    exact (List.pairwise_iff_getElem.1 hs) i j (by omega) hj h

/-- A test that holds on a prefix of a list and fails after it filters out
exactly that prefix. -/
theorem take_eq_filter {α : Type} (l : List α) (c : Nat) (P : α → Bool)
    (h1 : ∀ a ∈ l.take c, P a = true) (h2 : ∀ a ∈ l.drop c, P a = false) :
    l.take c = l.filter P := by
  have e1 : (l.take c).filter P = l.take c := List.filter_eq_self.2 h1
  have e2 : (l.drop c).filter P = [] :=
    List.filter_eq_nil_iff.2 (fun a ha => by rw [h2 a ha]; exact Bool.false_ne_true)
  calc l.take c = (l.take c).filter P ++ (l.drop c).filter P := by rw [e1, e2, List.append_nil]
    _ = (l.take c ++ l.drop c).filter P := (List.filter_append _ _).symm
    _ = l.filter P := by rw [List.take_append_drop]

/-- A test that fails on a prefix of a list and holds after it filters out
exactly the rest. -/
theorem drop_eq_filter {α : Type} (l : List α) (c : Nat) (P : α → Bool)
    (h1 : ∀ a ∈ l.take c, P a = false) (h2 : ∀ a ∈ l.drop c, P a = true) :
    l.drop c = l.filter P := by
  have e1 : (l.take c).filter P = [] :=
    List.filter_eq_nil_iff.2 (fun a ha => by rw [h1 a ha]; exact Bool.false_ne_true)
  have e2 : (l.drop c).filter P = l.drop c := List.filter_eq_self.2 h2
  calc l.drop c = (l.take c).filter P ++ (l.drop c).filter P := by rw [e1, e2, List.nil_append]
    _ = (l.take c ++ l.drop c).filter P := (List.filter_append _ _).symm
    _ = l.filter P := by rw [List.take_append_drop]

/-- A strict rise of the modseq at position `c` of an ascending list splits
it into the entries up to the modseq before the rise and those above it. -/
theorem sorted_split_at_rise (l : List index_map)
    (hs : l.Pairwise (fun a b => a.record.modseq ≤ b.record.modseq)) (c : Nat)
    (hcl : c < l.length)
    (hrise : (l.getD (c - 1) zero_map).record.modseq < (l.getD c zero_map).record.modseq) :
    l.take c = l.filter (fun m => decide
        (m.record.modseq ≤ (l.getD (c - 1) zero_map).record.modseq)) ∧
    l.drop c = l.filter (fun m => decide
        ((l.getD (c - 1) zero_map).record.modseq < m.record.modseq)) := by
  have hlow : ∀ m ∈ l.take c, m.record.modseq ≤ (l.getD (c - 1) zero_map).record.modseq := by
    intro m hm
    obtain ⟨i, hi, rfl⟩ := List.mem_take_iff_getElem.1 hm
    have hi' : i < c := by omega
    have := sorted_getD_le l hs i (c - 1) (by omega) (by omega)
    rwa [List.getD_eq_getElem l zero_map (by omega : i < l.length)] at this
  have hhigh : ∀ m ∈ l.drop c, (l.getD (c - 1) zero_map).record.modseq < m.record.modseq := by
    intro m hm
    obtain ⟨i, hi, rfl⟩ := List.mem_drop_iff_getElem.1 hm
    have := sorted_getD_le l hs c (c + i) (by omega) (by omega)
    rw [List.getD_eq_getElem l zero_map (by omega : c + i < l.length)] at this
    omega
  constructor
  · exact take_eq_filter l c _ (fun m hm => decide_eq_true (hlow m hm))
      (fun m hm => decide_eq_false (by have := hhigh m hm; omega))
  · exact drop_eq_filter l c _ (fun m hm => decide_eq_false (by have := hlow m hm; omega))
      (fun m hm => decide_eq_true (hhigh m hm))

/-! ## What parsing leaves untouched -/

/-- A failure changes `ret` and the description only. -/
theorem fail_frame (st : report_state) (code : http_code) (desc : String) :
    (fail st code desc).ret = some code ∧ (fail st code desc).errstr = some desc ∧
    (fail st code desc).highestmodseq = st.highestmodseq ∧
    (fail st code desc).responses = st.responses ∧
    (fail st code desc).sync_token = st.sync_token ∧
    (fail st code desc).precond = st.precond ∧
    (fail st code desc).map = st.map ∧ (fail st code desc).nresp = st.nresp ∧
    (fail st code desc).unlocks = st.unlocks :=
  ⟨rfl, rfl, rfl, rfl, rfl, rfl, rfl, rfl, rfl⟩

/-- The nresults loop writes `limit`, `ret` and the description only. -/
theorem parse_limit_frame : ∀ (l : List (Option String)) (st : report_state),
    (parse_limit l st).highestmodseq = st.highestmodseq ∧
    (parse_limit l st).responses = st.responses ∧
    (parse_limit l st).sync_token = st.sync_token ∧
    (parse_limit l st).precond = st.precond ∧
    (parse_limit l st).map = st.map ∧ (parse_limit l st).nresp = st.nresp ∧
    (parse_limit l st).unlocks = st.unlocks ∧
    (parse_limit l st).syncmodseq = st.syncmodseq ∧
    (parse_limit l st).uidvalidity = st.uidvalidity := by
  intro l
  induction l with
  | nil => intro st; simp [parse_limit]
  | cons a rest ih =>
    intro st
    cases a with
    | none => simp [parse_limit, fail]
    | some str =>
      rw [parse_limit]
      split
      · simp [fail]
      · rename_i lim _
        have := ih { st with limit := lim }
        simpa using this

/-- One child of the request writes the parsed token, `depth`, `limit`,
`ret` and the description only. -/
theorem parse_child_frame (E : environment) (mb : mailbox) (node : xml_node)
    (st : report_state) :
    (parse_child E mb node st).highestmodseq = st.highestmodseq ∧
    (parse_child E mb node st).responses = st.responses ∧
    (parse_child E mb node st).sync_token = st.sync_token ∧
    (parse_child E mb node st).precond = st.precond ∧
    (parse_child E mb node st).map = st.map ∧
    (parse_child E mb node st).nresp = st.nresp ∧
    (parse_child E mb node st).unlocks = st.unlocks := by
  cases node with
  | sync_token str =>
    cases str with
    | none => simp [parse_child]
    | some str =>
      simp only [parse_child, parse_sync_token]
      split
      · simp [fail]
      · split
        · simp [fail]
        · split <;> simp [fail]
  | sync_level str =>
    cases str with
    | none => simp [parse_child]
    | some str =>
      simp only [parse_child, parse_sync_level]
      split
      · simp [fail]
      · split
        · simp [fail]
        · split <;> simp [fail]
  | limit l =>
    have := parse_limit_frame l st
    simp only [parse_child]
    tauto
  | other => simp [parse_child]

/-- The loop over the children writes the parsed token, `depth`, `limit`,
`ret` and the description only. -/
theorem parse_children_frame (E : environment) (mb : mailbox) :
    ∀ (children : List xml_node) (st : report_state),
    (parse_children E mb children st).highestmodseq = st.highestmodseq ∧
    (parse_children E mb children st).responses = st.responses ∧
    (parse_children E mb children st).sync_token = st.sync_token ∧
    (parse_children E mb children st).precond = st.precond ∧
    (parse_children E mb children st).map = st.map ∧
    (parse_children E mb children st).nresp = st.nresp ∧
    (parse_children E mb children st).unlocks = st.unlocks := by
  intro children
  induction children with
  | nil => intro st; simp [parse_children]
  | cons node rest ih =>
    intro st
    rw [parse_children]
    have hc := parse_child_frame E mb node st
    split
    · exact hc
    · have hr := ih (parse_child E mb node st)
      obtain ⟨h1, h2, h3, h4, h5, h6, h7⟩ := hr
      obtain ⟨c1, c2, c3, c4, c5, c6, c7⟩ := hc
      exact ⟨h1.trans c1, h2.trans c2, h3.trans c3, h4.trans c4, h5.trans c5, h6.trans c6,
        h7.trans c7⟩

/-- After parsing, `highestmodseq` is still the one of the index header and
nothing has been added to the response. -/
theorem parsed_request_frame (E : environment) (mb : mailbox) (depth : Nat)
    (children : List xml_node) :
    (parsed_request E mb depth children).highestmodseq = mb.highestmodseq ∧
    (parsed_request E mb depth children).responses = [] ∧
    (parsed_request E mb depth children).sync_token = none ∧
    (parsed_request E mb depth children).precond = 0 ∧
    (parsed_request E mb depth children).map = [] ∧
    (parsed_request E mb depth children).nresp = 0 ∧
    (parsed_request E mb depth children).unlocks = 0 := by
  have := parse_children_frame E mb children
    { initial_state depth with highestmodseq := mb.highestmodseq }
  simpa [parsed_request, initial_state] using this

/-! ## The shape of the final state -/

/-- The truncation block when the limit is not exceeded: nothing changes. -/
theorem truncate_responses_within (E : environment) (st : report_state)
    (h : ¬ st.limit < st.nresp) : truncate_responses E st = st := by
  unfold truncate_responses
  rw [if_neg h]

/-- The truncation block when the cut reaches 0: the limit error. -/
theorem truncate_responses_fails (E : environment) (st : report_state)
    (h : st.limit < st.nresp)
    (hc : last_with_modseq (E.qsort map_modseq_cmp st.map) st.limit = 0) :
    truncate_responses E st =
      fail { st with map := E.qsort map_modseq_cmp st.map, nresp := 0 } HTTP_FORBIDDEN
        "Unable to truncate results" := by
  unfold truncate_responses
  simp only [if_pos h, hc, if_true]

/-- The truncation block when the cut stays above 0. -/
theorem truncate_responses_cuts (E : environment) (st : report_state)
    (h : st.limit < st.nresp)
    (hc : last_with_modseq (E.qsort map_modseq_cmp st.map) st.limit ≠ 0) :
    truncate_responses E st =
      { st with
        map := E.qsort map_modseq_cmp st.map
        nresp := last_with_modseq (E.qsort map_modseq_cmp st.map) st.limit
        highestmodseq := ((E.qsort map_modseq_cmp st.map).getD
          (last_with_modseq (E.qsort map_modseq_cmp st.map) st.limit - 1) zero_map).record.modseq
        responses := st.responses ++ [response.status none HTTP_NO_STORAGE] } := by
  unfold truncate_responses
  simp only [if_pos h, if_neg hc]

/-! ## The reporting loop -/

/-- One iteration of the reporting loop, by cases: a fault for a header
without `filename=`; no response without a header; a 404 status for an
expunged record or a record with uid 0; the property response for the record
otherwise. -/
theorem report_resource_cases (E : environment) (mb : mailbox) (rs : List response)
    (m : index_map) :
    report_resource E mb rs m =
      if faulting_header E m = true then none
      else
        match resource_of E m with
        | none => some rs
        | some f =>
          some (rs ++ [if is_expunged E m.record = true ∨ m.record.uid = 0
            then response.status (some f) HTTP_NOT_FOUND
            else response.propstat (some f) (some m.record)]) := by
  unfold report_resource resource_of faulting_header
  cases hh : E.index_getheader m "Content-Disposition" with
  | none => rfl
  | some p =>
    dsimp only
    cases hf : resource_filename p.toList with
    | none => rfl
    | some f =>
      dsimp only [Option.map_some']
      by_cases he : is_expunged E m.record = true
      · simp [he, propfind_by_resource, xml_add_response]
      · by_cases hu : m.record.uid = 0
        · simp [he, hu, propfind_by_resource, xml_add_response]
        · simp [he, hu, propfind_by_resource, xml_add_response]

/-- An entry with a faulting header has no resource name. -/
theorem faulting_header_resource (E : environment) (m : index_map)
    (h : faulting_header E m = true) : resource_of E m = none := by
  unfold faulting_header at h
  unfold resource_of
  cases hh : E.index_getheader m "Content-Disposition" with
  | none => rfl
  | some p =>
    rw [hh] at h
    dsimp only at h ⊢
    cases hf : resource_filename p.toList with
    | none => rfl
    | some f => rw [hf] at h; simp at h

/-- The iteration for an entry with a faulting header gives no result. -/
theorem report_resource_fault (E : environment) (mb : mailbox) (rs : List response)
    (m : index_map) (h : faulting_header E m = true) :
    report_resource E mb rs m = none := by
  rw [report_resource_cases, if_pos h]

/-- The response for one entry in terms of its resource name and record. -/
theorem emitted_response_eq (E : environment) (mb : mailbox) (m : index_map) :
    emitted_response E mb m =
      (resource_of E m).map (fun f =>
        if is_expunged E m.record = true ∨ m.record.uid = 0
        then response.status (some f) HTTP_NOT_FOUND
        else response.propstat (some f) (some m.record)) := by
  unfold emitted_response
  rw [report_resource_cases E mb [] m]
  by_cases h : faulting_header E m = true
  · rw [if_pos h, faulting_header_resource E m h]
    rfl
  · rw [if_neg h]
    cases resource_of E m with
    | none => simp
    | some f => simp

/-- The response added for an entry whose iteration does not fault does not
depend on what was added before. -/
theorem report_resource_eq (E : environment) (mb : mailbox) (rs : List response)
    (m : index_map) (h : faulting_header E m = false) :
    report_resource E mb rs m = some (rs ++ (emitted_response E mb m).toList) := by
  rw [emitted_response_eq, report_resource_cases E mb rs m, if_neg (by simp [h])]
  cases resource_of E m with
  | none => simp
  | some f => simp

/-- When no entry has a faulting header, the reporting loop runs to its end
and appends the responses of the entries in list order. -/
theorem report_resources_eq (E : environment) (mb : mailbox) :
    ∀ (l : List index_map) (rs : List response),
      (∀ m ∈ l, faulting_header E m = false) →
      report_resources E mb l rs = (rs ++ l.filterMap (emitted_response E mb), true) := by
  intro l
  induction l with
  | nil => intro rs _; simp [report_resources]
  | cons m rest ih =>
    intro rs h
    have hm := h m (List.mem_cons_self m rest)
    rw [report_resources, report_resource_eq E mb rs m hm]
    dsimp only
    rw [ih _ (fun x hx => h x (List.mem_cons_of_mem m hx)), List.filterMap_cons]
    cases emitted_response E mb m with
    | none => simp
    | some r => simp

/-- When an entry has a faulting header, the reporting loop stops before
its end, with the responses of the entries before the faulting one. -/
theorem report_resources_fault (E : environment) (mb : mailbox) :
    ∀ (l : List index_map) (rs : List response),
      (∃ m ∈ l, faulting_header E m = true) →
      ∃ k, report_resources E mb l rs =
        (rs ++ (l.take k).filterMap (emitted_response E mb), false) := by
  intro l
  induction l with
  | nil => intro rs h; obtain ⟨m, hm, _⟩ := h; simp at hm
  | cons m rest ih =>
    intro rs h
    by_cases hm : faulting_header E m = true
    · refine ⟨0, ?_⟩
      rw [report_resources, report_resource_fault E mb rs m hm]
      simp
    · have hm2 : faulting_header E m = false := by simpa using hm
      have hrest : ∃ x ∈ rest, faulting_header E x = true := by
        obtain ⟨x, hx, hf⟩ := h
        rcases List.mem_cons.1 hx with rfl | hx2
        · exact absurd hf hm
        · exact ⟨x, hx2, hf⟩
      obtain ⟨k, hk⟩ := ih (rs ++ (emitted_response E mb m).toList) hrest
      refine ⟨k + 1, ?_⟩
      rw [report_resources, report_resource_eq E mb rs m hm2]
      dsimp only
      rw [hk, List.take_succ_cons, List.filterMap_cons]
      cases emitted_response E mb m with
      | none => simp
      | some r => simp

/-- The reporting loop either runs to its end, with the responses of all
entries appended, or an entry has a faulting header and it stops. -/
theorem report_resources_cases (E : environment) (mb : mailbox) (l : List index_map)
    (rs : List response) :
    ((∀ m ∈ l, faulting_header E m = false) ∧
      report_resources E mb l rs = (rs ++ l.filterMap (emitted_response E mb), true)) ∨
    ((∃ m ∈ l, faulting_header E m = true) ∧
      ∃ k, report_resources E mb l rs =
        (rs ++ (l.take k).filterMap (emitted_response E mb), false)) := by
  by_cases h : ∀ m ∈ l, faulting_header E m = false
  · exact Or.inl ⟨h, report_resources_eq E mb l rs h⟩
  · right
    have h2 : ∃ m ∈ l, faulting_header E m = true := by
      by_contra hc
      apply h
      intro m hm
      by_contra hf
      exact hc ⟨m, hm, by simpa using hf⟩
    exact ⟨h2, report_resources_fault E mb l rs h2⟩

/-- The body of the function once the request is parsed and the depth is
accepted. -/
theorem report_locked_eq (E : environment) (mb : mailbox) (depth : Nat)
    (children : List xml_node)
    (hret : (parsed_request E mb depth children).ret = none)
    (hd : (parsed_request E mb depth children).depth ≠ 0) :
    report_locked E mb depth children =
      finish_report E mb (truncate_responses E
        (selected_state (parsed_request E mb depth children)
          (select_resources E mb (parsed_request E mb depth children).syncmodseq))) := by
  unfold report_locked
  simp only [hret, if_neg hd]

/-- The ways through `report_sync_col` after a successful open: a child of
the request is rejected; the depth is 0; the truncation block fails; the
selection is reported, as it is when it fits the limit, cut to a batch that
is not empty otherwise; or the reporting loop of one of these two meets an
entry with a faulting header and the call stops there. -/
theorem report_cases (E : environment) (mb : mailbox) (depth : Nat)
    (children : List xml_node) (p : report_state)
    (hp : parsed_request E mb depth children = p) :
    (p.ret ≠ none ∧ report_sync_col E (.ok mb) depth children = unlock_index p) ∨
    (p.ret = none ∧ p.depth = 0 ∧
      report_sync_col E (.ok mb) depth children =
        unlock_index (fail p HTTP_BAD_REQUEST "Illegal sync-level")) ∨
    (p.ret = none ∧ p.depth ≠ 0 ∧
      p.limit < (select_resources E mb p.syncmodseq).length ∧
      last_with_modseq (E.qsort map_modseq_cmp (select_resources E mb p.syncmodseq)) p.limit = 0 ∧
      report_sync_col E (.ok mb) depth children =
        unlock_index (fail { p with
            map := E.qsort map_modseq_cmp (select_resources E mb p.syncmodseq)
            nresp := 0 }
          HTTP_FORBIDDEN "Unable to truncate results")) ∨
    (p.ret = none ∧ p.depth ≠ 0 ∧
      p.limit < (select_resources E mb p.syncmodseq).length ∧
      last_with_modseq (E.qsort map_modseq_cmp (select_resources E mb p.syncmodseq)) p.limit ≠ 0 ∧
      (∀ m ∈ (E.qsort map_modseq_cmp (select_resources E mb p.syncmodseq)).take
          (last_with_modseq
            (E.qsort map_modseq_cmp (select_resources E mb p.syncmodseq)) p.limit),
        faulting_header E m = false) ∧
      report_sync_col E (.ok mb) depth children =
        unlock_index { p with
          map := E.qsort map_modseq_cmp (select_resources E mb p.syncmodseq)
          nresp := last_with_modseq
            (E.qsort map_modseq_cmp (select_resources E mb p.syncmodseq)) p.limit
          highestmodseq := ((E.qsort map_modseq_cmp (select_resources E mb p.syncmodseq)).getD
            (last_with_modseq
              (E.qsort map_modseq_cmp (select_resources E mb p.syncmodseq)) p.limit - 1)
            zero_map).record.modseq
          responses := (p.responses ++ [response.status none HTTP_NO_STORAGE]) ++
            ((E.qsort map_modseq_cmp (select_resources E mb p.syncmodseq)).take
              (last_with_modseq
                (E.qsort map_modseq_cmp (select_resources E mb p.syncmodseq))
                p.limit)).filterMap (emitted_response E mb)
          sync_token := some (tokenuri E mb.uidvalidity
            ((E.qsort map_modseq_cmp (select_resources E mb p.syncmodseq)).getD
              (last_with_modseq
                (E.qsort map_modseq_cmp (select_resources E mb p.syncmodseq)) p.limit - 1)
              zero_map).record.modseq) }) ∨
    (p.ret = none ∧ p.depth ≠ 0 ∧
      ¬ p.limit < (select_resources E mb p.syncmodseq).length ∧
      (∀ m ∈ select_resources E mb p.syncmodseq, faulting_header E m = false) ∧
      report_sync_col E (.ok mb) depth children =
        unlock_index { p with
          map := select_resources E mb p.syncmodseq
          nresp := (select_resources E mb p.syncmodseq).length
          responses := p.responses ++
            (select_resources E mb p.syncmodseq).filterMap (emitted_response E mb)
          sync_token := some (tokenuri E mb.uidvalidity p.highestmodseq) }) ∨
    (p.ret = none ∧ p.depth ≠ 0 ∧
      p.limit < (select_resources E mb p.syncmodseq).length ∧
      last_with_modseq (E.qsort map_modseq_cmp (select_resources E mb p.syncmodseq)) p.limit ≠ 0 ∧
      (∃ m ∈ (E.qsort map_modseq_cmp (select_resources E mb p.syncmodseq)).take
          (last_with_modseq
            (E.qsort map_modseq_cmp (select_resources E mb p.syncmodseq)) p.limit),
        faulting_header E m = true) ∧
      ∃ k, report_sync_col E (.ok mb) depth children =
        { p with
          ret := some SIGSEGV
          map := E.qsort map_modseq_cmp (select_resources E mb p.syncmodseq)
          nresp := last_with_modseq
            (E.qsort map_modseq_cmp (select_resources E mb p.syncmodseq)) p.limit
          highestmodseq := ((E.qsort map_modseq_cmp (select_resources E mb p.syncmodseq)).getD
            (last_with_modseq
              (E.qsort map_modseq_cmp (select_resources E mb p.syncmodseq)) p.limit - 1)
            zero_map).record.modseq
          responses := (p.responses ++ [response.status none HTTP_NO_STORAGE]) ++
            (((E.qsort map_modseq_cmp (select_resources E mb p.syncmodseq)).take
              (last_with_modseq
                (E.qsort map_modseq_cmp (select_resources E mb p.syncmodseq))
                p.limit)).take k).filterMap (emitted_response E mb) }) ∨
    (p.ret = none ∧ p.depth ≠ 0 ∧
      ¬ p.limit < (select_resources E mb p.syncmodseq).length ∧
      (∃ m ∈ select_resources E mb p.syncmodseq, faulting_header E m = true) ∧
      ∃ k, report_sync_col E (.ok mb) depth children =
        { p with
          ret := some SIGSEGV
          map := select_resources E mb p.syncmodseq
          nresp := (select_resources E mb p.syncmodseq).length
          responses := p.responses ++
            ((select_resources E mb p.syncmodseq).take k).filterMap
              (emitted_response E mb) }) := by
  have hrs : report_sync_col E (.ok mb) depth children =
      report_locked E mb depth children := rfl
  rw [hrs]
  cases hret : p.ret with
  | some c =>
    left
    refine ⟨by simp, ?_⟩
    unfold report_locked
    simp only [hp, hret, goto_done]
  | none =>
    right
    by_cases hd : p.depth = 0
    · left
      refine ⟨rfl, hd, ?_⟩
      unfold report_locked
      simp only [hp, hret, if_pos hd, goto_done]
    · right
      have hl := report_locked_eq E mb depth children (by rw [hp]; exact hret) (by rw [hp]; exact hd)
      rw [hp] at hl
      rw [hl]
      by_cases hlim : p.limit < (select_resources E mb p.syncmodseq).length
      · by_cases hc : last_with_modseq (E.qsort map_modseq_cmp
            (select_resources E mb p.syncmodseq)) p.limit = 0
        · left
          refine ⟨rfl, hd, hlim, hc, ?_⟩
          rw [truncate_responses_fails E (selected_state p _) hlim hc]
          rfl
        · rcases report_resources_cases E mb
            ((E.qsort map_modseq_cmp (select_resources E mb p.syncmodseq)).take
              (last_with_modseq
                (E.qsort map_modseq_cmp (select_resources E mb p.syncmodseq)) p.limit))
            (p.responses ++ [response.status none HTTP_NO_STORAGE]) with ⟨hall, hrun⟩ | ⟨hex, k, hrun⟩
          · right; left
            refine ⟨rfl, hd, hlim, hc, hall, ?_⟩
            rw [truncate_responses_cuts E (selected_state p _) hlim hc]
            unfold finish_report
            simp only [selected_state, hret, batch, hrun, goto_done]
          · right; right; right; left
            refine ⟨rfl, hd, hlim, hc, hex, k, ?_⟩
            rw [truncate_responses_cuts E (selected_state p _) hlim hc]
            unfold finish_report
            simp only [selected_state, hret, batch, hrun]
      · rcases report_resources_cases E mb (select_resources E mb p.syncmodseq) p.responses with
          ⟨hall, hrun⟩ | ⟨hex, k, hrun⟩
        · right; right; left
          refine ⟨rfl, hd, hlim, hall, ?_⟩
          rw [truncate_responses_within E (selected_state p _) hlim]
          unfold finish_report
          simp only [selected_state, hret, batch, List.take_length, hrun, goto_done]
        · right; right; right; right
          refine ⟨rfl, hd, hlim, hex, k, ?_⟩
          rw [truncate_responses_within E (selected_state p _) hlim]
          unfold finish_report
          simp only [selected_state, hret, batch, List.take_length, hrun]

/-- A report whose request is rejected has added no response and no
sync-token. -/
theorem report_failure_silent (E : environment) (mb : mailbox) (depth : Nat)
    (children : List xml_node)
    (h : (parsed_request E mb depth children).ret ≠ none) :
    (report_sync_col E (.ok mb) depth children).responses = [] ∧
    (report_sync_col E (.ok mb) depth children).sync_token = none := by
  obtain ⟨_, f2, f3, _⟩ := parsed_request_frame E mb depth children
  rcases report_cases E mb depth children _ rfl with
    ⟨_, h1⟩ | ⟨hr, _⟩ | ⟨hr, _⟩ | ⟨hr, _⟩ | ⟨hr, _⟩ | ⟨hr, _⟩ | ⟨hr, _⟩
  · rw [h1]; exact ⟨f2, f3⟩
  all_goals exact absurd hr h

/-- Fields of the final state of a successful report, in terms of the
selection for the parsed token: either the selection fits the limit and is
the batch, with the header's `highestmodseq` kept, or it is sorted and cut
to a batch that is not empty, `highestmodseq` is the modseq of the last
batch entry, and the 507 response precedes the reported resources. -/
theorem report_success_fields (E : environment) (mb : mailbox) (depth : Nat)
    (children : List xml_node) (st : report_state)
    (hst : report_sync_col E (.ok mb) depth children = st) (hok : st.ret = none) :
    st.syncmodseq = (parsed_request E mb depth children).syncmodseq ∧
    st.limit = (parsed_request E mb depth children).limit ∧
    st.sync_token = some (tokenuri E mb.uidvalidity st.highestmodseq) ∧
    ((¬ st.limit < (select_resources E mb st.syncmodseq).length ∧
        st.map = select_resources E mb st.syncmodseq ∧
        st.nresp = (select_resources E mb st.syncmodseq).length ∧
        st.highestmodseq = mb.highestmodseq ∧
        st.responses = (batch st).filterMap (emitted_response E mb)) ∨
     (st.limit < (select_resources E mb st.syncmodseq).length ∧
        st.map = E.qsort map_modseq_cmp (select_resources E mb st.syncmodseq) ∧
        st.nresp = last_with_modseq st.map st.limit ∧
        st.nresp ≠ 0 ∧
        st.highestmodseq = (st.map.getD (st.nresp - 1) zero_map).record.modseq ∧
        st.responses = response.status none HTTP_NO_STORAGE ::
          (batch st).filterMap (emitted_response E mb))) := by
  subst hst
  obtain ⟨f1, f2, _⟩ := parsed_request_frame E mb depth children
  rcases report_cases E mb depth children _ rfl with
    ⟨hr, h1⟩ | ⟨_, _, h1⟩ | ⟨_, _, _, _, h1⟩ | ⟨_, _, hlim, hc, _, h1⟩ | ⟨_, _, hlim, _, h1⟩ |
    ⟨_, _, _, _, _, _, h1⟩ | ⟨_, _, _, _, _, h1⟩
  · rw [h1] at hok; exact absurd hok hr
  · rw [h1] at hok; exact absurd hok (by simp [unlock_index, fail])
  · rw [h1] at hok; exact absurd hok (by simp [unlock_index, fail])
  · rw [h1]
    simp [unlock_index, batch, f2, hlim, hc]
  · rw [h1]
    simp [unlock_index, batch, f1, f2, hlim]
  · rw [h1] at hok; exact absurd hok (by simp)
  · rw [h1] at hok; exact absurd hok (by simp)

/-- No entry of the batch of a successful report has a faulting header. -/
theorem report_success_no_fault (E : environment) (mb : mailbox) (depth : Nat)
    (children : List xml_node) (st : report_state)
    (hst : report_sync_col E (.ok mb) depth children = st) (hok : st.ret = none) :
    ∀ m ∈ batch st, faulting_header E m = false := by
  subst hst
  rcases report_cases E mb depth children _ rfl with
    ⟨hr, h1⟩ | ⟨_, _, h1⟩ | ⟨_, _, _, _, h1⟩ | ⟨_, _, _, _, hall, h1⟩ | ⟨_, _, _, hall, h1⟩ |
    ⟨_, _, _, _, _, _, h1⟩ | ⟨_, _, _, _, _, h1⟩
  · rw [h1] at hok; exact absurd hok hr
  · rw [h1] at hok; exact absurd hok (by simp [unlock_index, fail])
  · rw [h1] at hok; exact absurd hok (by simp [unlock_index, fail])
  · rw [h1]
    simpa [unlock_index, batch] using hall
  · rw [h1]
    simpa [unlock_index, batch] using hall
  · rw [h1] at hok; exact absurd hok (by simp)
  · rw [h1] at hok; exact absurd hok (by simp)

/-! ## Consequences of the sort -/

/-- Under the contract, the sorted map is ascending by modseq. -/
theorem qsort_sorted (E : environment) (hq : qsort_contract E) (l : List index_map) :
    (E.qsort map_modseq_cmp l).Pairwise (fun a b => a.record.modseq ≤ b.record.modseq) :=
  (hq l).2.imp (fun {a b} h => (map_modseq_cmp_le a b).1 h)

/-- Every selected record has a modseq above the token modseq. -/
theorem select_resources_modseq (E : environment) (mb : mailbox) (s : Nat) (m : index_map)
    (hm : m ∈ select_resources E mb s) : s < m.record.modseq := by
  rw [select_resources_eq, List.mem_map] at hm
  obtain ⟨r, hr, rfl⟩ := hm
  unfold selected_by_spec at hr
  rw [List.mem_filter, decide_eq_true_iff] at hr
  exact hr.2.1

/-- Selecting with a later, non-zero token modseq keeps of an earlier
incremental selection exactly the records above the later modseq. -/
theorem select_resources_later (E : environment) (mb : mailbox) (s s2 : Nat)
    (hs : s ≠ 0) (hle : s ≤ s2) :
    select_resources E mb s2 =
      (select_resources E mb s).filter (fun m => decide (s2 < m.record.modseq)) := by
  rw [select_resources_eq, select_resources_eq, List.filter_map]
  congr 1
  unfold selected_by_spec
  rw [List.filter_filter]
  apply List.filter_congr
  intro r _
  have hs2 : s2 ≠ 0 := by omega
  by_cases h1 : s2 < r.modseq
  · have h1' : s < r.modseq := by omega
    simp [h1, h1', hs, hs2]
  · simp [h1]

/-- Facts about a truncated, successful result under the sort contract: the
map is the selection rearranged in ascending modseq order, the cut lies
between 1 and the limit, the modseq rises strictly across the cut, and the
entries from the cut up to position `limit` share one modseq. -/
theorem truncated_cut (E : environment) (hq : qsort_contract E) (mb : mailbox)
    (depth : Nat) (children : List xml_node) (st : report_state)
    (hst : report_sync_col E (.ok mb) depth children = st) (hok : st.ret = none)
    (htr : st.limit < (select_resources E mb st.syncmodseq).length) :
    st.map.Perm (select_resources E mb st.syncmodseq) ∧
    st.map.Pairwise (fun a b => a.record.modseq ≤ b.record.modseq) ∧
    1 ≤ st.nresp ∧ st.nresp ≤ st.limit ∧ st.limit < st.map.length ∧
    st.highestmodseq = (st.map.getD (st.nresp - 1) zero_map).record.modseq ∧
    st.highestmodseq < (st.map.getD st.nresp zero_map).record.modseq ∧
    (∀ j, st.nresp ≤ j → j ≤ st.limit →
      (st.map.getD j zero_map).record.modseq = (st.map.getD st.limit zero_map).record.modseq) := by
  obtain ⟨_, _, _, hcase⟩ := report_success_fields E mb depth children st hst hok
  rcases hcase with ⟨hno, _⟩ | ⟨_, hmap, hn, hn0, hhigh, _⟩
  · exact absurd htr hno
  · have hperm : st.map.Perm (select_resources E mb st.syncmodseq) := by
      rw [hmap]; exact (hq _).1
    have hsorted : st.map.Pairwise (fun a b => a.record.modseq ≤ b.record.modseq) := by
      rw [hmap]; exact qsort_sorted E hq _
    have hlen : st.limit < st.map.length := by rw [hperm.length_eq]; exact htr
    have hle : st.nresp ≤ st.limit := by rw [hn]; exact last_with_modseq_le _ _
    have hne := last_with_modseq_boundary st.map st.limit (by rw [← hn]; exact hn0)
    rw [← hn] at hne
    have hmono := sorted_getD_le st.map hsorted (st.nresp - 1) st.nresp (by omega) (by omega)
    refine ⟨hperm, hsorted, by omega, hle, hlen, hhigh, by omega, ?_⟩
    intro j hj1 hj2
    exact last_with_modseq_run st.map st.limit j (by rw [← hn]; exact hj1) hj2

/-- The batch of a truncated, successful result is the part of the sorted
map up to the returned modseq, and the rest of the map lies above it. -/
theorem truncated_batch_split (E : environment) (hq : qsort_contract E) (mb : mailbox)
    (depth : Nat) (children : List xml_node) (st : report_state)
    (hst : report_sync_col E (.ok mb) depth children = st) (hok : st.ret = none)
    (htr : st.limit < (select_resources E mb st.syncmodseq).length) :
    batch st = st.map.filter (fun m => decide (m.record.modseq ≤ st.highestmodseq)) ∧
    st.map.drop st.nresp = st.map.filter (fun m => decide (st.highestmodseq < m.record.modseq)) := by
  obtain ⟨_, hsorted, h1, h2, h3, hhigh, hrise, _⟩ :=
    truncated_cut E hq mb depth children st hst hok htr
  rw [hhigh] at hrise ⊢
  exact sorted_split_at_rise st.map hsorted st.nresp (by omega) hrise

/-- C1: in a truncated, successful report the returned batch is exactly the
selected records whose modseq is at most the modseq of the returned
sync-token, so no group of selected records with one modseq is split; and
for a request with a token, selecting again with the returned modseq gives
exactly the selected records that were not returned, also as the map of
any successful report that is made with that token modseq. -/
theorem truncation_keeps_modseq_groups (E : environment) (hq : qsort_contract E)
    (mb : mailbox) (depth : Nat) (children : List xml_node) (st : report_state)
    (hst : report_sync_col E (.ok mb) depth children = st) (hok : st.ret = none)
    (htr : st.limit < (select_resources E mb st.syncmodseq).length) :
    st.sync_token = some (tokenuri E mb.uidvalidity st.highestmodseq) ∧
    (batch st).Perm ((select_resources E mb st.syncmodseq).filter
      (fun m => decide (m.record.modseq ≤ st.highestmodseq))) ∧
    (∀ m ∈ select_resources E mb st.syncmodseq,
      (m ∈ batch st ↔ m.record.modseq ≤ st.highestmodseq)) ∧
    (st.syncmodseq ≠ 0 →
      select_resources E mb st.highestmodseq =
        (select_resources E mb st.syncmodseq).filter
          (fun m => decide (¬ m.record.modseq ≤ st.highestmodseq)) ∧
      ∀ (depth2 : Nat) (children2 : List xml_node),
        (report_sync_col E (.ok mb) depth2 children2).ret = none →
        (report_sync_col E (.ok mb) depth2 children2).syncmodseq = st.highestmodseq →
        (report_sync_col E (.ok mb) depth2 children2).map.Perm
          ((select_resources E mb st.syncmodseq).filter
            (fun m => decide (¬ m.record.modseq ≤ st.highestmodseq)))) := by
  obtain ⟨hperm, _, h1, h2, h3, hhigh, _, _⟩ :=
    truncated_cut E hq mb depth children st hst hok htr
  obtain ⟨hb, _⟩ := truncated_batch_split E hq mb depth children st hst hok htr
  obtain ⟨_, _, htoken, _⟩ := report_success_fields E mb depth children st hst hok
  have hbperm : (batch st).Perm ((select_resources E mb st.syncmodseq).filter
      (fun m => decide (m.record.modseq ≤ st.highestmodseq))) := by
    rw [hb]; exact hperm.filter _
  have hlast : (st.map.getD (st.nresp - 1) zero_map) ∈ select_resources E mb st.syncmodseq := by
    rw [List.getD_eq_getElem st.map zero_map (by omega : st.nresp - 1 < st.map.length)]
    exact hperm.subset (List.getElem_mem _)
  have habove : st.syncmodseq < st.highestmodseq := by
    rw [hhigh]; exact select_resources_modseq E mb _ _ hlast
  refine ⟨htoken, hbperm, ?_, ?_⟩
  · intro m hm
    rw [hbperm.mem_iff, List.mem_filter, decide_eq_true_iff]
    exact ⟨fun h => h.2, fun h => ⟨hm, h⟩⟩
  · intro htok
    have hre : select_resources E mb st.highestmodseq =
        (select_resources E mb st.syncmodseq).filter
          (fun m => decide (¬ m.record.modseq ≤ st.highestmodseq)) := by
      rw [select_resources_later E mb st.syncmodseq st.highestmodseq htok (by omega)]
      apply List.filter_congr
      intro m _
      simp
    refine ⟨hre, ?_⟩
    intro depth2 children2 hok2 hs2
    obtain ⟨_, _, _, hcase⟩ := report_success_fields E mb depth2 children2 _ rfl hok2
    rw [← hre, ← hs2]
    rcases hcase with ⟨_, hmap, _⟩ | ⟨_, hmap, _⟩
    · rw [hmap]
    · rw [hmap]; exact (hq _).1

/-- The insertion sort of the sample environment meets the sort contract. -/
theorem sample_qsort_contract : qsort_contract sample_environment := by
  intro l
  haveI : IsTotal index_map (fun a b => map_modseq_cmp a b ≤ 0) :=
    ⟨fun a b => by
      rw [map_modseq_cmp_le, map_modseq_cmp_le]
      exact Nat.le_total _ _⟩
  haveI : IsTrans index_map (fun a b => map_modseq_cmp a b ≤ 0) :=
    ⟨fun a b c => by
      rw [map_modseq_cmp_le, map_modseq_cmp_le, map_modseq_cmp_le]
      exact Nat.le_trans⟩
  exact ⟨List.perm_insertionSort _ l, List.sorted_insertionSort _ l⟩

/-- The scenario request on the scenario mailbox is a truncated, successful
report to which the truncation theorem applies. -/
theorem truncation_keeps_modseq_groups_witness :
    qsort_contract sample_environment ∧
    (report_sync_col sample_environment (.ok scenario_mailbox) 1 scenario_request).ret = none ∧
    (report_sync_col sample_environment (.ok scenario_mailbox) 1 scenario_request).limit <
      (select_resources sample_environment scenario_mailbox
        (report_sync_col sample_environment (.ok scenario_mailbox) 1
          scenario_request).syncmodseq).length ∧
    (batch (report_sync_col sample_environment (.ok scenario_mailbox) 1 scenario_request)).Perm
      ((select_resources sample_environment scenario_mailbox
        (report_sync_col sample_environment (.ok scenario_mailbox) 1
          scenario_request).syncmodseq).filter
        (fun m => decide (m.record.modseq ≤
          (report_sync_col sample_environment (.ok scenario_mailbox) 1
            scenario_request).highestmodseq))) :=
  ⟨sample_qsort_contract, by decide, by decide,
    (truncation_keeps_modseq_groups sample_environment sample_qsort_contract scenario_mailbox 1
      scenario_request _ rfl (by decide) (by decide)).2.1⟩

/-! ## Consequences for the responses -/

/-- No response for a resource is the 507 response for the request path. -/
theorem emitted_response_ne_507 (E : environment) (mb : mailbox) (l : List index_map) :
    response.status none HTTP_NO_STORAGE ∉ l.filterMap (emitted_response E mb) := by
  intro h
  rw [List.mem_filterMap] at h
  obtain ⟨m, _, hm⟩ := h
  rw [emitted_response_eq] at hm
  cases hr : resource_of E m with
  | none => rw [hr] at hm; simp at hm
  | some f =>
    rw [hr] at hm
    simp only [Option.map_some', Option.some.injEq] at hm
    split at hm <;> simp at hm

/-! ## Truncation under a limit -/

/-- C2 (as the code has it): when the selection exceeds the limit and the
report succeeds, the map is the selection sorted by ascending modseq and the
batch is its first `nresp` entries, where `nresp` is the position nearest
below or at `limit` at which the modseq rises strictly: the cut moves
leftward, so `1 ≤ nresp ≤ limit`, the batch holds at most `limit` entries,
the entries from the cut up to position `limit` share one modseq, and the
returned modseq is that of the last batch entry. -/
theorem truncation_cuts_leftward (E : environment) (hq : qsort_contract E)
    (mb : mailbox) (depth : Nat) (children : List xml_node) (st : report_state)
    (hst : report_sync_col E (.ok mb) depth children = st) (hok : st.ret = none)
    (htr : st.limit < (select_resources E mb st.syncmodseq).length) :
    st.map.Perm (select_resources E mb st.syncmodseq) ∧
    st.map.Pairwise (fun a b => a.record.modseq ≤ b.record.modseq) ∧
    batch st = st.map.take st.nresp ∧
    (batch st).length = st.nresp ∧
    1 ≤ st.nresp ∧ st.nresp ≤ st.limit ∧
    (∀ j, st.nresp ≤ j → j ≤ st.limit →
      (st.map.getD j zero_map).record.modseq = (st.map.getD st.limit zero_map).record.modseq) ∧
    (st.map.getD (st.nresp - 1) zero_map).record.modseq <
      (st.map.getD st.nresp zero_map).record.modseq ∧
    st.highestmodseq = (st.map.getD (st.nresp - 1) zero_map).record.modseq ∧
    st.sync_token = some (tokenuri E mb.uidvalidity st.highestmodseq) := by
  obtain ⟨hperm, hsorted, h1, h2, h3, hhigh, hrise, hrun⟩ :=
    truncated_cut E hq mb depth children st hst hok htr
  obtain ⟨_, _, htoken, _⟩ := report_success_fields E mb depth children st hst hok
  refine ⟨hperm, hsorted, rfl, ?_, h1, h2, hrun, ?_, hhigh, htoken⟩
  · unfold batch
    rw [List.length_take]
    omega
  · rw [← hhigh]; exact hrise

/-- The scenario of the specification under the amended statement: five
selected records, limit 2, a batch of one record and a returned modseq of 91. -/
theorem truncation_cuts_leftward_witness :
    qsort_contract sample_environment ∧
    (report_sync_col sample_environment (.ok scenario_mailbox) 1 scenario_request).ret = none ∧
    (report_sync_col sample_environment (.ok scenario_mailbox) 1 scenario_request).limit <
      (select_resources sample_environment scenario_mailbox
        (report_sync_col sample_environment (.ok scenario_mailbox) 1
          scenario_request).syncmodseq).length ∧
    (batch (report_sync_col sample_environment (.ok scenario_mailbox) 1
      scenario_request)).length =
      (report_sync_col sample_environment (.ok scenario_mailbox) 1 scenario_request).nresp ∧
    (report_sync_col sample_environment (.ok scenario_mailbox) 1 scenario_request).nresp ≤
      (report_sync_col sample_environment (.ok scenario_mailbox) 1 scenario_request).limit :=
  ⟨sample_qsort_contract, by decide, by decide,
    (truncation_cuts_leftward sample_environment sample_qsort_contract scenario_mailbox 1
      scenario_request _ rfl (by decide) (by decide)).2.2.2.1,
    (truncation_cuts_leftward sample_environment sample_qsort_contract scenario_mailbox 1
      scenario_request _ rfl (by decide) (by decide)).2.2.2.2.2.1⟩

/-- C2 fails as stated: for selected modseqs 91, 92, 92, 93, 95 under token
modseq 90 and limit 2, the report succeeds with a batch of one record (not
three, and fewer than `limit`) and returns the token modseq 91 (not 92). -/
theorem cut_is_not_extended_rightward :
    (select_resources sample_environment scenario_mailbox 90).map
      (fun m => m.record.modseq) = [91, 92, 92, 93, 95] ∧
    (report_sync_col sample_environment (.ok scenario_mailbox) 1 scenario_request).ret = none ∧
    (report_sync_col sample_environment (.ok scenario_mailbox) 1 scenario_request).limit = 2 ∧
    (batch (report_sync_col sample_environment (.ok scenario_mailbox) 1
      scenario_request)).map (fun m => m.record.modseq) = [91] ∧
    (report_sync_col sample_environment (.ok scenario_mailbox) 1
      scenario_request).highestmodseq = 91 ∧
    (report_sync_col sample_environment (.ok scenario_mailbox) 1 scenario_request).sync_token =
      some "http://cyrusimap.org/ns/sync/7-91" := by
  decide

/-! ## The returned sync-token -/

/-- C5: the sync-token of a successful report is formatted from the
mailbox's uidvalidity and `highestmodseq`, which is the unchanged
`highestmodseq` of the index header when the selection fits the limit, and
otherwise the modseq of the last entry of the truncated batch, which no
entry of the batch exceeds. -/
theorem returned_token_modseq (E : environment) (hq : qsort_contract E)
    (mb : mailbox) (depth : Nat) (children : List xml_node) (st : report_state)
    (hst : report_sync_col E (.ok mb) depth children = st) (hok : st.ret = none) :
    st.sync_token = some (tokenuri E mb.uidvalidity st.highestmodseq) ∧
    (¬ st.limit < (select_resources E mb st.syncmodseq).length →
      st.highestmodseq = mb.highestmodseq ∧
      response.status none HTTP_NO_STORAGE ∉ st.responses) ∧
    (st.limit < (select_resources E mb st.syncmodseq).length →
      response.status none HTTP_NO_STORAGE ∈ st.responses ∧
      (∃ m, (batch st).getLast? = some m ∧ m.record.modseq = st.highestmodseq) ∧
      ∀ m ∈ batch st, m.record.modseq ≤ st.highestmodseq) := by
  obtain ⟨_, _, htoken, hcase⟩ := report_success_fields E mb depth children st hst hok
  refine ⟨htoken, ?_, ?_⟩
  · intro hno
    rcases hcase with ⟨_, _, _, hh, hresp⟩ | ⟨htr, _⟩
    · refine ⟨hh, ?_⟩
      rw [hresp]
      exact emitted_response_ne_507 E mb _
    · exact absurd htr hno
  · intro htr
    obtain ⟨_, _, h1, h2, h3, hhigh, _, _⟩ := truncated_cut E hq mb depth children st hst hok htr
    obtain ⟨hb, _⟩ := truncated_batch_split E hq mb depth children st hst hok htr
    rcases hcase with ⟨hno, _⟩ | ⟨_, _, _, _, _, hresp⟩
    · exact absurd htr hno
    · refine ⟨?_, ?_, ?_⟩
      · rw [hresp]
        simp
      · refine ⟨st.map.getD (st.nresp - 1) zero_map, ?_, hhigh.symm⟩
        unfold batch
        rw [List.getLast?_take, if_neg (by omega),
          List.getD_eq_getElem st.map zero_map (by omega : st.nresp - 1 < st.map.length),
          List.getElem?_eq_getElem (by omega : st.nresp - 1 < st.map.length)]
        rfl
      · intro m hm
        rw [hb, List.mem_filter, decide_eq_true_iff] at hm
        exact hm.2

/-- The scenario request is a successful report to which the token theorem
applies; its token carries uidvalidity 7 and modseq 91. -/
theorem returned_token_modseq_witness :
    qsort_contract sample_environment ∧
    (report_sync_col sample_environment (.ok scenario_mailbox) 1 scenario_request).ret = none ∧
    (report_sync_col sample_environment (.ok scenario_mailbox) 1 scenario_request).sync_token =
      some (tokenuri sample_environment scenario_mailbox.uidvalidity
        (report_sync_col sample_environment (.ok scenario_mailbox) 1
          scenario_request).highestmodseq) :=
  ⟨sample_qsort_contract, by decide,
    (returned_token_modseq sample_environment sample_qsort_contract scenario_mailbox 1
      scenario_request _ rfl (by decide)).1⟩

/-- An entry whose iteration does not fault gets a response exactly when it
has a Content-Disposition header. -/
theorem emitted_response_none_iff (E : environment) (mb : mailbox) (m : index_map)
    (h : faulting_header E m = false) :
    emitted_response E mb m = none ↔ E.index_getheader m "Content-Disposition" = none := by
  rw [emitted_response_eq, Option.map_eq_none']
  unfold faulting_header at h
  unfold resource_of
  cases hh : E.index_getheader m "Content-Disposition" with
  | none => simp
  | some p =>
    rw [hh] at h
    dsimp only at h ⊢
    cases hf : resource_filename p.toList with
    | none => rw [hf] at h; simp at h
    | some f => simp

/-- C9: when the request is parsed without error, the depth is accepted and
the selection exceeds the limit, then a report that succeeds has a batch of
at least one record and at most `limit` records, and its responses are the
507 response followed by one response for each batch entry that has a
Content-Disposition header, in batch order, and none for an entry without
the header, so that a response other than the 507 exists exactly when some
batch entry has the header; and when the cut reaches 0, so that no record
can be returned within the limit, the call fails with 403 and "Unable to
truncate results", without any response or sync-token, which it does not
do when the cut is not 0. -/
theorem truncated_result_never_empty (E : environment) (hq : qsort_contract E)
    (mb : mailbox) (depth : Nat) (children : List xml_node) (p st : report_state)
    (hp : parsed_request E mb depth children = p)
    (hst : report_sync_col E (.ok mb) depth children = st)
    (hret : p.ret = none) (hd : p.depth ≠ 0)
    (htr : p.limit < (select_resources E mb p.syncmodseq).length) :
    (st.ret = none →
      1 ≤ st.nresp ∧ st.nresp ≤ st.limit ∧ (batch st).length = st.nresp ∧ batch st ≠ [] ∧
      st.responses =
        response.status none HTTP_NO_STORAGE :: (batch st).filterMap (emitted_response E mb) ∧
      (∀ m ∈ batch st,
        (emitted_response E mb m = none ↔
          E.index_getheader m "Content-Disposition" = none)) ∧
      ((∃ r ∈ st.responses, r ≠ response.status none HTTP_NO_STORAGE) ↔
        ∃ m ∈ batch st, E.index_getheader m "Content-Disposition" ≠ none)) ∧
    (last_with_modseq (E.qsort map_modseq_cmp (select_resources E mb p.syncmodseq)) p.limit = 0 →
      st.ret = some HTTP_FORBIDDEN ∧ st.errstr = some "Unable to truncate results" ∧
      st.responses = [] ∧ st.sync_token = none) ∧
    (last_with_modseq (E.qsort map_modseq_cmp (select_resources E mb p.syncmodseq)) p.limit ≠ 0 →
      st.ret ≠ some HTTP_FORBIDDEN) := by
  obtain ⟨_, f2, f3, _⟩ := parsed_request_frame E mb depth children
  rw [hp] at f2 f3
  refine ⟨?_, ?_, ?_⟩
  · intro hok
    obtain ⟨hs, hl, _, hcase⟩ := report_success_fields E mb depth children st hst hok
    have hnf := report_success_no_fault E mb depth children st hst hok
    rw [hp] at hs hl
    have htr' : st.limit < (select_resources E mb st.syncmodseq).length := by
      rw [hs, hl]; exact htr
    obtain ⟨_, _, h1, h2, h3, _⟩ := truncated_cut E hq mb depth children st hst hok htr'
    have hlen : (batch st).length = st.nresp := by
      unfold batch; rw [List.length_take]; omega
    have hne : batch st ≠ [] := by
      intro hnil
      rw [hnil] at hlen
      simp at hlen
      omega
    have hresp : st.responses =
        response.status none HTTP_NO_STORAGE :: (batch st).filterMap (emitted_response E mb) := by
      rcases hcase with ⟨hno, _⟩ | ⟨_, _, _, _, _, hresp⟩
      · exact absurd htr' hno
      · rw [hresp]
    have hiff : ∀ m ∈ batch st,
        (emitted_response E mb m = none ↔
          E.index_getheader m "Content-Disposition" = none) :=
      fun m hm => emitted_response_none_iff E mb m (hnf m hm)
    refine ⟨h1, h2, hlen, hne, hresp, hiff, ?_⟩
    constructor
    · rintro ⟨r, hr, hr507⟩
      rw [hresp, List.mem_cons] at hr
      rcases hr with hr | hr
      · exact absurd hr hr507
      · obtain ⟨m, hm, hem⟩ := List.mem_filterMap.1 hr
        refine ⟨m, hm, ?_⟩
        intro hnone
        rw [(hiff m hm).2 hnone] at hem
        simp at hem
    · rintro ⟨m, hm, hhead⟩
      cases hem : emitted_response E mb m with
      | none => exact absurd ((hiff m hm).1 hem) hhead
      | some r =>
        have hin : r ∈ (batch st).filterMap (emitted_response E mb) :=
          List.mem_filterMap.2 ⟨m, hm, hem⟩
        refine ⟨r, by rw [hresp]; exact List.mem_cons_of_mem _ hin, ?_⟩
        intro heq
        rw [heq] at hin
        exact emitted_response_ne_507 E mb _ hin
  · intro hc
    subst hst
    rcases report_cases E mb depth children p hp with
      ⟨hr, _⟩ | ⟨_, h0, _⟩ | ⟨_, _, _, _, h1⟩ | ⟨_, _, _, hc', _⟩ | ⟨_, _, hno, _⟩ |
      ⟨_, _, _, hc', _⟩ | ⟨_, _, hno, _⟩
    · exact absurd hret hr
    · exact absurd h0 hd
    · rw [h1]; exact ⟨rfl, rfl, f2, f3⟩
    · exact absurd hc hc'
    · exact absurd htr hno
    · exact absurd hc hc'
    · exact absurd htr hno
  · intro hc
    subst hst
    rcases report_cases E mb depth children p hp with
      ⟨hr, _⟩ | ⟨_, h0, _⟩ | ⟨_, _, _, hc', _⟩ | ⟨_, _, _, _, _, h1⟩ | ⟨_, _, hno, _⟩ |
      ⟨_, _, _, _, _, k, h1⟩ | ⟨_, _, hno, _⟩
    · exact absurd hret hr
    · exact absurd h0 hd
    · exact absurd hc' hc
    · rw [h1]; simp [unlock_index, hret]
    · exact absurd htr hno
    · rw [h1]; simp
    · exact absurd htr hno

/-- The request with token modseq 91 and limit 1 on the scenario mailbox
meets the hypotheses; its two smallest selected modseqs are both 92, and it
fails with the limit error. -/
theorem truncated_result_never_empty_witness :
    qsort_contract sample_environment ∧
    (parsed_request sample_environment scenario_mailbox 1 tight_request).ret = none ∧
    (parsed_request sample_environment scenario_mailbox 1 tight_request).depth ≠ 0 ∧
    (parsed_request sample_environment scenario_mailbox 1 tight_request).limit <
      (select_resources sample_environment scenario_mailbox
        (parsed_request sample_environment scenario_mailbox 1 tight_request).syncmodseq).length ∧
    (report_sync_col sample_environment (.ok scenario_mailbox) 1 tight_request).errstr =
      some "Unable to truncate results" :=
  ⟨sample_qsort_contract, by decide, by decide, by decide,
    ((truncated_result_never_empty sample_environment sample_qsort_contract scenario_mailbox 1
      tight_request _ _ rfl rfl (by decide) (by decide) (by decide)).2.1 (by decide)).2.1⟩

/-- C9, as stated, fails: with a cache that holds no Content-Disposition
header, the scenario request (token modseq 90, limit 2) on the scenario
mailbox selects five records, more than the limit, and succeeds with a
batch of one record (modseq 91) and the token 7-91, yet its response holds
the 507 status alone and no record. -/
theorem truncated_response_without_record :
    (report_sync_col headerless_environment (.ok scenario_mailbox) 1 scenario_request).ret =
      none ∧
    (report_sync_col headerless_environment (.ok scenario_mailbox) 1 scenario_request).limit <
      (select_resources headerless_environment scenario_mailbox
        (report_sync_col headerless_environment (.ok scenario_mailbox) 1
          scenario_request).syncmodseq).length ∧
    (batch (report_sync_col headerless_environment (.ok scenario_mailbox) 1
      scenario_request)).map (fun m => m.record.modseq) = [91] ∧
    (report_sync_col headerless_environment (.ok scenario_mailbox) 1
      scenario_request).responses = [response.status none HTTP_NO_STORAGE] ∧
    (report_sync_col headerless_environment (.ok scenario_mailbox) 1
      scenario_request).sync_token = some "http://cyrusimap.org/ns/sync/7-91" := by
  decide

/-! ## Token validation -/

/-- A token text that scans to a uidvalidity other than the mailbox's, or
to a modseq outside `[deletedmodseq, highestmodseq]`, is rejected with 403
and "Invalid sync-token". -/
theorem parse_sync_token_rejects (E : environment) (mb : mailbox) (str : String)
    (st : report_state) (u m : Nat) (hh : st.highestmodseq = mb.highestmodseq)
    (hscan : sscanf_u_dash_llu (after_last_slash str.toList) = some (u, m))
    (hbad : u ≠ mb.uidvalidity ∨ m < mb.deletedmodseq ∨ mb.highestmodseq < m) :
    parse_sync_token E mb str st = fail st HTTP_FORBIDDEN "Invalid sync-token" := by
  unfold parse_sync_token
  split
  · rfl
  · rw [hscan]
    have : m = 0 ∨ u ≠ mb.uidvalidity ∨ m < mb.deletedmodseq ∨ m > st.highestmodseq := by
      rw [hh]
      rcases hbad with h | h | h
      · exact Or.inr (Or.inl h)
      · exact Or.inr (Or.inr (Or.inl h))
      · exact Or.inr (Or.inr (Or.inr h))
    simp only [if_pos this]

/-- A child that is rejected in every state with the header's
`highestmodseq` makes the loop over the children end with an error: at
that child, or at an earlier one. -/
theorem parse_children_rejects (E : environment) (mb : mailbox) (node : xml_node)
    (hnode : ∀ st : report_state, st.highestmodseq = mb.highestmodseq →
      (parse_child E mb node st).ret ≠ none) :
    ∀ (children : List xml_node) (st : report_state),
      st.highestmodseq = mb.highestmodseq → node ∈ children →
      (parse_children E mb children st).ret ≠ none := by
  intro children
  induction children with
  | nil => intro st _ hmem; simp at hmem
  | cons n rest ih =>
    intro st hh hmem
    rw [parse_children]
    split
    · rename_i c hc
      rw [hc]; simp
    · rename_i hnone
      have hne : node ≠ n := by
        intro heq
        subst heq
        exact hnode st hh hnone
      have hrest : node ∈ rest := by
        rcases List.mem_cons.1 hmem with h | h
        · exact absurd h hne
        · exact h
      exact ih (parse_child E mb n st)
        ((parse_child_frame E mb n st).1.trans hh) hrest

/-- C4: a request that carries a sync-token whose text scans to a
uidvalidity other than the mailbox's, or to a modseq below `deletedmodseq`
or above `highestmodseq`, is rejected: `report_sync_col` returns an error,
adds no response and issues no sync-token. -/
theorem stale_or_foreign_token_rejected (E : environment) (mb : mailbox) (depth : Nat)
    (children : List xml_node) (str : String) (u m : Nat)
    (hmem : xml_node.sync_token (some str) ∈ children)
    (hscan : sscanf_u_dash_llu (after_last_slash str.toList) = some (u, m))
    (hbad : u ≠ mb.uidvalidity ∨ m < mb.deletedmodseq ∨ mb.highestmodseq < m) :
    (report_sync_col E (.ok mb) depth children).ret ≠ none ∧
    (report_sync_col E (.ok mb) depth children).responses = [] ∧
    (report_sync_col E (.ok mb) depth children).sync_token = none := by
  have hp : (parsed_request E mb depth children).ret ≠ none := by
    unfold parsed_request
    apply parse_children_rejects E mb (xml_node.sync_token (some str)) _ children _ rfl hmem
    intro st hh
    simp only [parse_child]
    rw [parse_sync_token_rejects E mb str st u m hh hscan hbad]
    simp [fail]
  have hret : (report_sync_col E (.ok mb) depth children).ret ≠ none := by
    rcases report_cases E mb depth children _ rfl with
      ⟨_, h1⟩ | ⟨hr, _⟩ | ⟨hr, _⟩ | ⟨hr, _⟩ | ⟨hr, _⟩ | ⟨hr, _⟩ | ⟨hr, _⟩
    · rw [h1]; exact hp
    all_goals exact absurd hr hp
  exact ⟨hret, report_failure_silent E mb depth children hp⟩

/-- The example of the claim: with highestmodseq 100 and deletedmodseq 50 a
token with modseq 40 is rejected. -/
theorem stale_or_foreign_token_rejected_witness :
    xml_node.sync_token (some "http://cyrusimap.org/ns/sync/7-40") ∈ stale_request ∧
    sscanf_u_dash_llu (after_last_slash "http://cyrusimap.org/ns/sync/7-40".toList) =
      some (7, 40) ∧
    (7 ≠ scenario_mailbox.uidvalidity ∨ 40 < scenario_mailbox.deletedmodseq ∨
      scenario_mailbox.highestmodseq < 40) ∧
    (report_sync_col sample_environment (.ok scenario_mailbox) 1 stale_request).ret ≠ none ∧
    (report_sync_col sample_environment (.ok scenario_mailbox) 1 stale_request).responses = [] ∧
    (report_sync_col sample_environment (.ok scenario_mailbox) 1 stale_request).sync_token =
      none :=
  ⟨by decide, by decide, by decide,
    stale_or_foreign_token_rejected sample_environment scenario_mailbox 1 stale_request
      "http://cyrusimap.org/ns/sync/7-40" 7 40 (by decide) (by decide) (by decide)⟩

/-! ## Error kinds of the request failures -/

/-- C10 fails as stated: on the scenario mailbox (uidvalidity 7,
deletedmodseq 50) a token of another generation (uidvalidity 8) and a token
below the purge horizon (modseq 40) give the same status, precondition and
description. -/
theorem invalid_and_stale_token_same_error :
    error_result (report_sync_col sample_environment (.ok scenario_mailbox) 1 foreign_request) =
      error_result (report_sync_col sample_environment (.ok scenario_mailbox) 1 stale_request) ∧
    error_result (report_sync_col sample_environment (.ok scenario_mailbox) 1 stale_request) =
      (some HTTP_FORBIDDEN, 0, some "Invalid sync-token") := by
  decide

/-- C10 (as the code has it): a token with a foreign uidvalidity and a
token below `deletedmodseq` are both surfaced as 403 with the description
"Invalid sync-token" and no precondition code; the limit failure is 403
with "Unable to truncate results" and no precondition code, so it differs
from the token failures, in the description only. -/
theorem request_failures_error_kinds (E : environment) (mb : mailbox)
    (depth : Nat) (str : String) (rest : List xml_node) (u m : Nat)
    (depth2 : Nat) (children2 : List xml_node) (p2 : report_state)
    (hscan : sscanf_u_dash_llu (after_last_slash str.toList) = some (u, m))
    (hbad : u ≠ mb.uidvalidity ∨ m < mb.deletedmodseq)
    (hp2 : parsed_request E mb depth2 children2 = p2)
    (hret : p2.ret = none) (hd : p2.depth ≠ 0)
    (htr : p2.limit < (select_resources E mb p2.syncmodseq).length)
    (hc : last_with_modseq (E.qsort map_modseq_cmp (select_resources E mb p2.syncmodseq))
      p2.limit = 0) :
    error_result (report_sync_col E (.ok mb) depth (xml_node.sync_token (some str) :: rest)) =
      (some HTTP_FORBIDDEN, 0, some "Invalid sync-token") ∧
    error_result (report_sync_col E (.ok mb) depth2 children2) =
      (some HTTP_FORBIDDEN, 0, some "Unable to truncate results") ∧
    error_result (report_sync_col E (.ok mb) depth (xml_node.sync_token (some str) :: rest)) ≠
      error_result (report_sync_col E (.ok mb) depth2 children2) := by
  have h1 : error_result
      (report_sync_col E (.ok mb) depth (xml_node.sync_token (some str) :: rest)) =
      (some HTTP_FORBIDDEN, 0, some "Invalid sync-token") := by
    have hp : parsed_request E mb depth (xml_node.sync_token (some str) :: rest) =
        fail { initial_state depth with highestmodseq := mb.highestmodseq } HTTP_FORBIDDEN
          "Invalid sync-token" := by
      unfold parsed_request
      rw [parse_children]
      simp only [parse_child]
      rw [parse_sync_token_rejects E mb str _ u m rfl hscan
        (by rcases hbad with h | h
            · exact Or.inl h
            · exact Or.inr (Or.inl h))]
      rfl
    rcases report_cases E mb depth (xml_node.sync_token (some str) :: rest) _ hp with
      ⟨_, h⟩ | ⟨hr, _⟩ | ⟨hr, _⟩ | ⟨hr, _⟩ | ⟨hr, _⟩ | ⟨hr, _⟩ | ⟨hr, _⟩
    · rw [h]; rfl
    all_goals exact absurd hr (by simp [fail])
  have h2 : error_result (report_sync_col E (.ok mb) depth2 children2) =
      (some HTTP_FORBIDDEN, 0, some "Unable to truncate results") := by
    obtain ⟨_, _, _, f4, _⟩ := parsed_request_frame E mb depth2 children2
    rw [hp2] at f4
    rcases report_cases E mb depth2 children2 p2 hp2 with
      ⟨hr, _⟩ | ⟨_, h0, _⟩ | ⟨_, _, _, _, h⟩ | ⟨_, _, _, hc', _⟩ | ⟨_, _, hno, _⟩ |
      ⟨_, _, _, hc', _⟩ | ⟨_, _, hno, _⟩
    · exact absurd hret hr
    · exact absurd h0 hd
    · rw [h]
      show (some HTTP_FORBIDDEN, p2.precond, some "Unable to truncate results") = _
      rw [f4]
    · exact absurd hc hc'
    · exact absurd htr hno
    · exact absurd hc hc'
    · exact absurd htr hno
  refine ⟨h1, h2, ?_⟩
  rw [h1, h2]
  decide

/-- The foreign token and the request whose limit cannot be met, both on
the scenario mailbox, meet the hypotheses and give errors that differ. -/
theorem request_failures_error_kinds_witness :
    sscanf_u_dash_llu (after_last_slash "http://cyrusimap.org/ns/sync/8-90".toList) =
      some (8, 90) ∧
    (8 ≠ scenario_mailbox.uidvalidity ∨ 90 < scenario_mailbox.deletedmodseq) ∧
    (parsed_request sample_environment scenario_mailbox 1 tight_request).ret = none ∧
    (parsed_request sample_environment scenario_mailbox 1 tight_request).depth ≠ 0 ∧
    error_result (report_sync_col sample_environment (.ok scenario_mailbox) 1
        (xml_node.sync_token (some "http://cyrusimap.org/ns/sync/8-90") :: [])) ≠
      error_result (report_sync_col sample_environment (.ok scenario_mailbox) 1 tight_request) :=
  ⟨by decide, by decide, by decide, by decide,
    (request_failures_error_kinds sample_environment scenario_mailbox 1
      "http://cyrusimap.org/ns/sync/8-90" [] 8 90 1 tight_request _
      (by decide) (by decide) rfl (by decide) (by decide) (by decide) (by decide)).2.2⟩

/-! ## A request without a limit -/

/-- A child other than a limit element leaves `limit` alone and sets no
description other than those of the token and sync-level checks. -/
theorem parse_child_no_limit (E : environment) (mb : mailbox) (node : xml_node)
    (st : report_state) (hnl : ∀ l, node ≠ xml_node.limit l) :
    (parse_child E mb node st).limit = st.limit ∧
    ((parse_child E mb node st).errstr = st.errstr ∨
      (parse_child E mb node st).errstr = some "Invalid sync-token" ∨
      (parse_child E mb node st).errstr =
        some "This server DOES NOT support infinite depth requests" ∨
      (parse_child E mb node st).errstr = some "Illegal sync-level") := by
  cases node with
  | sync_token str =>
    cases str with
    | none => simp [parse_child]
    | some str =>
      simp only [parse_child, parse_sync_token]
      split
      · simp [fail]
      · split
        · simp [fail]
        · split <;> simp [fail]
  | sync_level str =>
    cases str with
    | none => simp [parse_child]
    | some str =>
      simp only [parse_child, parse_sync_level]
      split
      · simp [fail]
      · split
        · simp [fail]
        · split <;> simp [fail]
  | limit l => exact absurd rfl (hnl l)
  | other => simp [parse_child]

/-- Without a limit element among the children, the loop over them leaves
`limit` alone and ends with the description it started with or with one of
the token and sync-level checks. -/
theorem parse_children_no_limit (E : environment) (mb : mailbox) :
    ∀ (children : List xml_node) (st : report_state),
      (∀ l, xml_node.limit l ∉ children) →
      (parse_children E mb children st).limit = st.limit ∧
      ((parse_children E mb children st).errstr = st.errstr ∨
        (parse_children E mb children st).errstr = some "Invalid sync-token" ∨
        (parse_children E mb children st).errstr =
          some "This server DOES NOT support infinite depth requests" ∨
        (parse_children E mb children st).errstr = some "Illegal sync-level") := by
  intro children
  induction children with
  | nil => intro st _; simp [parse_children]
  | cons n rest ih =>
    intro st hnl
    have hn : ∀ l, n ≠ xml_node.limit l := by
      intro l heq
      exact hnl l (by rw [heq]; exact List.mem_cons_self _ _)
    have hrest : ∀ l, xml_node.limit l ∉ rest := by
      intro l hmem
      exact hnl l (List.mem_cons_of_mem _ hmem)
    obtain ⟨c1, c2⟩ := parse_child_no_limit E mb n st hn
    rw [parse_children]
    split
    · exact ⟨c1, c2⟩
    · obtain ⟨r1, r2⟩ := ih (parse_child E mb n st) hrest
      refine ⟨r1.trans c1, ?_⟩
      rcases r2 with h | h | h | h
      · rw [h]; exact c2
      · exact Or.inr (Or.inl h)
      · exact Or.inr (Or.inr (Or.inl h))
      · exact Or.inr (Or.inr (Or.inr h))

/-- The selection holds at most `num_records` entries. -/
theorem select_resources_length_le (E : environment) (mb : mailbox) (s : Nat) :
    (select_resources E mb s).length ≤ mb.num_records := by
  rw [select_resources_eq, List.length_map]
  unfold selected_by_spec readable_records
  calc (List.filter _ _).length
      ≤ ((List.range' 1 mb.num_records).filterMap (mailbox_read_index_record mb)).length :=
        List.length_filter_le _ _
    _ ≤ (List.range' 1 mb.num_records).length := List.length_filterMap_le _ _
    _ = mb.num_records := List.length_range' _ _ _

/-- C6 (as the code has it): a request without a limit element, on a
mailbox whose record count fits `uint32_t`, is never truncated and never
fails with a limit error; when it succeeds, the batch is the whole
selection in `recno` order, which for a request with a token is exactly the
readable records with modseq above the token modseq whose superseded flag
is not set; each batch entry with a resource name is reported, and the
header's `highestmodseq` is returned as the new token modseq. -/
theorem sync_without_limit (E : environment) (mb : mailbox) (depth : Nat)
    (children : List xml_node) (st : report_state)
    (hst : report_sync_col E (.ok mb) depth children = st)
    (hnl : ∀ l, xml_node.limit l ∉ children) (hn : mb.num_records < 2 ^ 32) :
    st.errstr ≠ some "Unable to truncate results" ∧
    st.errstr ≠ some "Invalid limit" ∧
    response.status none HTTP_NO_STORAGE ∉ st.responses ∧
    (st.ret = none →
      batch st = select_resources E mb st.syncmodseq ∧
      (st.syncmodseq ≠ 0 →
        (batch st).map index_map.record =
          (readable_records mb).filter (fun r =>
            decide (st.syncmodseq < r.modseq ∧ is_unbound mb.unbind_userflag r = false))) ∧
      st.responses = (batch st).filterMap (emitted_response E mb) ∧
      st.highestmodseq = mb.highestmodseq ∧
      st.sync_token = some (tokenuri E mb.uidvalidity mb.highestmodseq)) := by
  subst hst
  obtain ⟨f1, f2, _⟩ := parsed_request_frame E mb depth children
  have hpl := parse_children_no_limit E mb children
    { initial_state depth with highestmodseq := mb.highestmodseq } hnl
  have hlimit : (parsed_request E mb depth children).limit = 4294967295 := hpl.1
  have herr : (parsed_request E mb depth children).errstr = none ∨
      (parsed_request E mb depth children).errstr = some "Invalid sync-token" ∨
      (parsed_request E mb depth children).errstr =
        some "This server DOES NOT support infinite depth requests" ∨
      (parsed_request E mb depth children).errstr = some "Illegal sync-level" := hpl.2
  have hfit : ¬ (parsed_request E mb depth children).limit <
      (select_resources E mb (parsed_request E mb depth children).syncmodseq).length := by
    rw [hlimit]
    have := select_resources_length_le E mb (parsed_request E mb depth children).syncmodseq
    have h32 : (2 : Nat) ^ 32 = 4294967296 := by norm_num
    omega
  have hperr : (parsed_request E mb depth children).errstr ≠ some "Unable to truncate results" ∧
      (parsed_request E mb depth children).errstr ≠ some "Invalid limit" := by
    rcases herr with h | h | h | h <;> rw [h] <;> exact ⟨by decide, by decide⟩
  rcases report_cases E mb depth children _ rfl with
    ⟨hr, h⟩ | ⟨_, _, h⟩ | ⟨_, _, htr, _⟩ | ⟨_, _, htr, _⟩ | ⟨hr, _, _, _, h⟩ |
    ⟨_, _, htr, _⟩ | ⟨_, _, _, _, k, h⟩
  · rw [h]
    refine ⟨hperr.1, hperr.2, ?_, fun hok => absurd hok hr⟩
    show response.status none HTTP_NO_STORAGE ∉ (parsed_request E mb depth children).responses
    rw [f2]; simp
  · rw [h]
    refine ⟨?_, ?_, ?_, fun hok => absurd hok (by simp [unlock_index, fail])⟩
    · show some "Illegal sync-level" ≠ some "Unable to truncate results"
      decide
    · show some "Illegal sync-level" ≠ some "Invalid limit"
      decide
    · show response.status none HTTP_NO_STORAGE ∉ (parsed_request E mb depth children).responses
      rw [f2]; simp
  · exact absurd htr hfit
  · exact absurd htr hfit
  · have herrstr : (report_sync_col E (.ok mb) depth children).errstr =
        (parsed_request E mb depth children).errstr := by rw [h]; rfl
    have hok : (report_sync_col E (.ok mb) depth children).ret = none := by rw [h]; exact hr
    obtain ⟨hs, hl, htoken, hcase⟩ := report_success_fields E mb depth children _ rfl hok
    rcases hcase with ⟨_, hmap, hnresp, hh, hresp⟩ | ⟨htr, _⟩
    · have hbatch : batch (report_sync_col E (.ok mb) depth children) =
          select_resources E mb (report_sync_col E (.ok mb) depth children).syncmodseq := by
        unfold batch
        rw [hnresp, hmap, List.take_length]
      refine ⟨by rw [herrstr]; exact hperr.1, by rw [herrstr]; exact hperr.2, ?_,
        fun _ => ⟨hbatch, ?_, hresp, hh, by rw [htoken, hh]⟩⟩
      · rw [hresp]
        exact emitted_response_ne_507 E mb _
      · intro htok
        rw [hbatch, select_resources_eq, List.map_map]
        have hid : index_map.record ∘ index_map.mk = id := rfl
        rw [hid, List.map_id]
        unfold selected_by_spec
        apply List.filter_congr
        intro r _
        simp [htok]
    · rw [hs, hl] at htr
      exact absurd htr hfit
  · exact absurd htr hfit
  · rw [h]
    refine ⟨hperr.1, hperr.2, ?_, fun hok => absurd hok (by simp)⟩
    show response.status none HTTP_NO_STORAGE ∉
      (parsed_request E mb depth children).responses ++
        ((select_resources E mb (parsed_request E mb depth children).syncmodseq).take
          k).filterMap (emitted_response E mb)
    rw [f2, List.nil_append]
    exact emitted_response_ne_507 E mb _

/-- The incremental request without a limit on the scenario mailbox meets
the hypotheses and returns the header's `highestmodseq`. -/
theorem sync_without_limit_witness :
    (∀ l, xml_node.limit l ∉ unlimited_request) ∧ scenario_mailbox.num_records < 2 ^ 32 ∧
    (report_sync_col sample_environment (.ok scenario_mailbox) 1 unlimited_request).errstr ≠
      some "Unable to truncate results" ∧
    (report_sync_col sample_environment (.ok scenario_mailbox) 1 unlimited_request).ret = none ∧
    (report_sync_col sample_environment (.ok scenario_mailbox) 1
      unlimited_request).highestmodseq = scenario_mailbox.highestmodseq :=
  ⟨by intro l; simp [unlimited_request], by decide,
    (sync_without_limit sample_environment scenario_mailbox 1 unlimited_request _ rfl
      (by intro l; simp [unlimited_request]) (by decide)).1,
    by decide,
    ((sync_without_limit sample_environment scenario_mailbox 1 unlimited_request _ rfl
      (by intro l; simp [unlimited_request]) (by decide)).2.2.2 (by decide)).2.2.2.1⟩

/-- C6 fails as stated: on a mailbox whose second record (modseq 96) was
replaced by a PUT, the request with token modseq 90 and no limit succeeds
and reports the first record only, although the second record is readable
and its modseq is above the token modseq. -/
theorem superseded_record_not_reported :
    (report_sync_col sample_environment (.ok superseded_mailbox) 1 unlimited_request).ret = none ∧
    (report_sync_col sample_environment (.ok superseded_mailbox) 1
      unlimited_request).syncmodseq = 90 ∧
    mailbox_read_index_record superseded_mailbox 2 = some ⟨2, 96, 0, [8, 0, 0, 0], 2⟩ ∧
    (batch (report_sync_col sample_environment (.ok superseded_mailbox) 1
      unlimited_request)).map (fun m => m.record.recno) = [1] ∧
    (report_sync_col sample_environment (.ok superseded_mailbox) 1
      unlimited_request).responses =
      [response.propstat (some "1.vcf") (some ⟨1, 95, 0, [0, 0, 0, 0], 1⟩)] := by
  decide

/-! ## Order and kind of the reported responses -/

/-- The selection is in strictly ascending `recno` order. -/
theorem select_resources_ordered (E : environment) (mb : mailbox) (s : Nat) :
    (select_resources E mb s).Pairwise (fun a b => a.record.recno < b.record.recno) := by
  rw [select_resources_eq, List.pairwise_map]
  exact (readable_records_ordered mb).sublist (List.filter_sublist _)

/-- C7 (as the code has it): the responses for the records follow the order
of the batch in `istate.map`. When the selection fits the limit that is
ascending `recno` order; when the result was truncated, the 507 response
comes first and the records follow in the order the modseq sort left them
in, which is ascending modseq order. -/
theorem emission_follows_map_order (E : environment) (hq : qsort_contract E)
    (mb : mailbox) (depth : Nat) (children : List xml_node) (st : report_state)
    (hst : report_sync_col E (.ok mb) depth children = st) (hok : st.ret = none) :
    (¬ st.limit < (select_resources E mb st.syncmodseq).length →
      st.responses = (batch st).filterMap (emitted_response E mb) ∧
      (batch st).Pairwise (fun a b => a.record.recno < b.record.recno)) ∧
    (st.limit < (select_resources E mb st.syncmodseq).length →
      st.responses =
        response.status none HTTP_NO_STORAGE :: (batch st).filterMap (emitted_response E mb) ∧
      (batch st).Pairwise (fun a b => a.record.modseq ≤ b.record.modseq)) := by
  obtain ⟨_, _, _, hcase⟩ := report_success_fields E mb depth children st hst hok
  constructor
  · intro hno
    rcases hcase with ⟨_, hmap, hnresp, _, hresp⟩ | ⟨htr, _⟩
    · refine ⟨by rw [hresp], ?_⟩
      unfold batch
      rw [hmap]
      exact (select_resources_ordered E mb _).sublist (List.take_sublist _ _)
    · exact absurd htr hno
  · intro htr
    rcases hcase with ⟨hno, _⟩ | ⟨_, hmap, _, _, _, hresp⟩
    · exact absurd htr hno
    · refine ⟨by rw [hresp], ?_⟩
      unfold batch
      rw [hmap]
      exact (qsort_sorted E hq _).sublist (List.take_sublist _ _)

/-- The scenario request is a truncated, successful report whose responses
are the 507 response followed by those of the batch in map order. -/
theorem emission_follows_map_order_witness :
    qsort_contract sample_environment ∧
    (report_sync_col sample_environment (.ok scenario_mailbox) 1 scenario_request).ret = none ∧
    (report_sync_col sample_environment (.ok scenario_mailbox) 1 scenario_request).limit <
      (select_resources sample_environment scenario_mailbox
        (report_sync_col sample_environment (.ok scenario_mailbox) 1
          scenario_request).syncmodseq).length ∧
    (report_sync_col sample_environment (.ok scenario_mailbox) 1 scenario_request).responses =
      response.status none HTTP_NO_STORAGE ::
        (batch (report_sync_col sample_environment (.ok scenario_mailbox) 1
          scenario_request)).filterMap (emitted_response sample_environment scenario_mailbox) :=
  ⟨sample_qsort_contract, by decide, by decide,
    ((emission_follows_map_order sample_environment sample_qsort_contract scenario_mailbox 1
      scenario_request _ rfl (by decide)).2 (by decide)).1⟩

/-- C7 fails as stated: on a mailbox whose records 1, 2, 3 have modseq 92,
91, 95, the request with token modseq 90 and limit 2 is truncated to the
records 2 and 1, and they are reported in that order, record 2 before
record 1. -/
theorem truncated_emission_not_in_recno_order :
    (report_sync_col sample_environment (.ok shuffled_mailbox) 1 scenario_request).ret = none ∧
    (batch (report_sync_col sample_environment (.ok shuffled_mailbox) 1
      scenario_request)).map (fun m => m.record.recno) = [2, 1] ∧
    (report_sync_col sample_environment (.ok shuffled_mailbox) 1 scenario_request).responses =
      [response.status none HTTP_NO_STORAGE,
        response.propstat (some "2.vcf") (some ⟨2, 91, 0, [0, 0, 0, 0], 2⟩),
        response.propstat (some "1.vcf") (some ⟨1, 92, 0, [0, 0, 0, 0], 1⟩)] := by
  decide

/-- C8 (as the code has it): in a successful report every response other
than the 507 response belongs to a batch entry with a resource name, and
it is the 404 status exactly when the record's EXPUNGED flag is set or its
uid is 0, and the property response for the record otherwise; each batch
entry with a resource name has its response in the result. -/
theorem removed_iff_expunged_or_no_uid (E : environment) (mb : mailbox) (depth : Nat)
    (children : List xml_node) (st : report_state)
    (hst : report_sync_col E (.ok mb) depth children = st) (hok : st.ret = none) :
    (∀ r ∈ st.responses, r = response.status none HTTP_NO_STORAGE ∨
      ∃ m ∈ batch st, ∃ f, resource_of E m = some f ∧
        (((is_expunged E m.record = true ∨ m.record.uid = 0) ∧
            r = response.status (some f) HTTP_NOT_FOUND) ∨
         (¬ (is_expunged E m.record = true ∨ m.record.uid = 0) ∧
            r = response.propstat (some f) (some m.record)))) ∧
    (∀ m ∈ batch st, ∀ f, resource_of E m = some f →
      ((is_expunged E m.record = true ∨ m.record.uid = 0) →
        response.status (some f) HTTP_NOT_FOUND ∈ st.responses) ∧
      (¬ (is_expunged E m.record = true ∨ m.record.uid = 0) →
        response.propstat (some f) (some m.record) ∈ st.responses)) := by
  obtain ⟨_, _, _, hcase⟩ := report_success_fields E mb depth children st hst hok
  have hresp : ∀ r, r ∈ st.responses ↔
      (r = response.status none HTTP_NO_STORAGE ∧
        st.limit < (select_resources E mb st.syncmodseq).length) ∨
      r ∈ (batch st).filterMap (emitted_response E mb) := by
    intro r
    rcases hcase with ⟨hno, _, _, _, h⟩ | ⟨htr, _, _, _, _, h⟩
    · rw [h]
      constructor
      · intro hr; exact Or.inr hr
      · rintro (⟨_, htr⟩ | hr)
        · exact absurd htr hno
        · exact hr
    · rw [h, List.mem_cons]
      constructor
      · rintro (hr | hr)
        · exact Or.inl ⟨hr, htr⟩
        · exact Or.inr hr
      · rintro (⟨hr, _⟩ | hr)
        · exact Or.inl hr
        · exact Or.inr hr
  constructor
  · intro r hr
    rcases (hresp r).1 hr with ⟨h, _⟩ | h
    · exact Or.inl h
    · right
      rw [List.mem_filterMap] at h
      obtain ⟨m, hm, hem⟩ := h
      rw [emitted_response_eq] at hem
      cases hf : resource_of E m with
      | none => rw [hf] at hem; simp at hem
      | some f =>
        rw [hf] at hem
        simp only [Option.map_some', Option.some.injEq] at hem
        refine ⟨m, hm, f, hf, ?_⟩
        by_cases hc : is_expunged E m.record = true ∨ m.record.uid = 0
        · rw [if_pos hc] at hem
          exact Or.inl ⟨hc, hem.symm⟩
        · rw [if_neg hc] at hem
          exact Or.inr ⟨hc, hem.symm⟩
  · intro m hm f hf
    have hmem : ∀ r, emitted_response E mb m = some r → r ∈ st.responses := by
      intro r hr
      exact (hresp r).2 (Or.inr (List.mem_filterMap.2 ⟨m, hm, hr⟩))
    constructor
    · intro hc
      apply hmem
      rw [emitted_response_eq, hf]
      simp only [Option.map_some', if_pos hc]
    · intro hc
      apply hmem
      rw [emitted_response_eq, hf]
      simp only [Option.map_some', if_neg hc]

/-- The initial sync of the mailbox with one record of uid 0 is a successful
report; its only response is a 404 status for a record that is not expunged. -/
theorem removed_iff_expunged_or_no_uid_witness :
    (report_sync_col sample_environment (.ok unbacked_mailbox) 1 []).ret = none ∧
    (∀ r ∈ (report_sync_col sample_environment (.ok unbacked_mailbox) 1 []).responses,
      r = response.status none HTTP_NO_STORAGE ∨
      ∃ m ∈ batch (report_sync_col sample_environment (.ok unbacked_mailbox) 1 []),
        ∃ f, resource_of sample_environment m = some f ∧
          (((is_expunged sample_environment m.record = true ∨ m.record.uid = 0) ∧
              r = response.status (some f) HTTP_NOT_FOUND) ∨
           (¬ (is_expunged sample_environment m.record = true ∨ m.record.uid = 0) ∧
              r = response.propstat (some f) (some m.record)))) :=
  ⟨by decide,
    (removed_iff_expunged_or_no_uid sample_environment unbacked_mailbox 1 [] _ rfl
      (by decide)).1⟩

/-- C8 fails as stated: the record of the mailbox with one record has uid 0
and its EXPUNGED flag is not set, yet the initial sync reports it with a
404 status. -/
theorem unexpunged_record_reported_removed :
    (report_sync_col sample_environment (.ok unbacked_mailbox) 1 []).ret = none ∧
    batch (report_sync_col sample_environment (.ok unbacked_mailbox) 1 []) =
      [⟨⟨0, 95, 0, [0, 0, 0, 0], 1⟩⟩] ∧
    is_expunged sample_environment ⟨0, 95, 0, [0, 0, 0, 0], 1⟩ = false ∧
    (report_sync_col sample_environment (.ok unbacked_mailbox) 1 []).responses =
      [response.status (some "0.vcf") HTTP_NOT_FOUND] := by
  decide

/-! ## A token with modseq 0, and the initial sync -/

/-- A token text that scans to modseq 0 is rejected like any invalid token. -/
theorem parse_sync_token_rejects_zero (E : environment) (mb : mailbox) (str : String)
    (st : report_state) (u : Nat)
    (hscan : sscanf_u_dash_llu (after_last_slash str.toList) = some (u, 0)) :
    parse_sync_token E mb str st = fail st HTTP_FORBIDDEN "Invalid sync-token" := by
  unfold parse_sync_token
  split
  · rfl
  · rw [hscan]
    simp only [true_or, if_true]

/-- Without a sync-token element that has text, the loop over the children
leaves `syncmodseq` at its value. -/
theorem parse_children_no_token (E : environment) (mb : mailbox) :
    ∀ (children : List xml_node) (st : report_state),
      (∀ str, xml_node.sync_token (some str) ∉ children) →
      (parse_children E mb children st).syncmodseq = st.syncmodseq := by
  intro children
  induction children with
  | nil => intro st _; simp [parse_children]
  | cons n rest ih =>
    intro st hnt
    have hrest : ∀ str, xml_node.sync_token (some str) ∉ rest := by
      intro str hmem
      exact hnt str (List.mem_cons_of_mem _ hmem)
    have hn : (parse_child E mb n st).syncmodseq = st.syncmodseq := by
      cases n with
      | sync_token str =>
        cases str with
        | none => simp [parse_child]
        | some str => exact absurd (List.mem_cons_self _ _) (hnt str)
      | sync_level str =>
        cases str with
        | none => simp [parse_child]
        | some str =>
          simp only [parse_child, parse_sync_level]
          split
          · simp [fail]
          · split
            · simp [fail]
            · split <;> simp [fail]
      | limit l => exact (parse_limit_frame l st).2.2.2.2.2.2.2.1
      | other => simp [parse_child]
    rw [parse_children]
    split
    · exact hn
    · rw [ih (parse_child E mb n st) hrest, hn]

/-- C11 (as the code has it): a sync-token whose text scans to modseq 0 is
rejected, whatever its uidvalidity: the report returns an error, adds no
response and issues no sync-token. Only a request without sync-token text
is an initial sync: its token modseq is 0, and the selection for it is the
readable records with a modseq above 0 that are neither superseded nor
expunged. -/
theorem zero_token_rejected (E : environment) (mb : mailbox) (depth : Nat)
    (children : List xml_node) (str : String) (u : Nat)
    (depth2 : Nat) (children2 : List xml_node)
    (hmem : xml_node.sync_token (some str) ∈ children)
    (hscan : sscanf_u_dash_llu (after_last_slash str.toList) = some (u, 0))
    (hnone : ∀ s, xml_node.sync_token (some s) ∉ children2) :
    ((report_sync_col E (.ok mb) depth children).ret ≠ none ∧
      (report_sync_col E (.ok mb) depth children).responses = [] ∧
      (report_sync_col E (.ok mb) depth children).sync_token = none) ∧
    ((report_sync_col E (.ok mb) depth2 children2).ret = none →
      (report_sync_col E (.ok mb) depth2 children2).syncmodseq = 0 ∧
      (select_resources E mb
          (report_sync_col E (.ok mb) depth2 children2).syncmodseq).map index_map.record =
        (readable_records mb).filter (fun r =>
          decide (0 < r.modseq ∧ is_unbound mb.unbind_userflag r = false ∧
            is_expunged E r = false))) := by
  constructor
  · have hp : (parsed_request E mb depth children).ret ≠ none := by
      unfold parsed_request
      apply parse_children_rejects E mb (xml_node.sync_token (some str)) _ children _ rfl hmem
      intro st _
      simp only [parse_child]
      rw [parse_sync_token_rejects_zero E mb str st u hscan]
      simp [fail]
    have hret : (report_sync_col E (.ok mb) depth children).ret ≠ none := by
      rcases report_cases E mb depth children _ rfl with
        ⟨_, h1⟩ | ⟨hr, _⟩ | ⟨hr, _⟩ | ⟨hr, _⟩ | ⟨hr, _⟩ | ⟨hr, _⟩ | ⟨hr, _⟩
      · rw [h1]; exact hp
      all_goals exact absurd hr hp
    exact ⟨hret, report_failure_silent E mb depth children hp⟩
  · intro hok
    obtain ⟨hs, _⟩ := report_success_fields E mb depth2 children2 _ rfl hok
    have h0 : (report_sync_col E (.ok mb) depth2 children2).syncmodseq = 0 := by
      rw [hs]
      exact parse_children_no_token E mb children2 _ hnone
    refine ⟨h0, ?_⟩
    rw [h0, select_resources_eq, List.map_map]
    have hid : index_map.record ∘ index_map.mk = id := rfl
    rw [hid, List.map_id]
    unfold selected_by_spec
    apply List.filter_congr
    intro r _
    simp

/-- The token with modseq 0 on the scenario mailbox, and the request
without any child, meet the hypotheses: the first is rejected, the second
is an initial sync. -/
theorem zero_token_rejected_witness :
    xml_node.sync_token (some "http://cyrusimap.org/ns/sync/7-0") ∈ zero_token_request ∧
    sscanf_u_dash_llu (after_last_slash "http://cyrusimap.org/ns/sync/7-0".toList) =
      some (7, 0) ∧
    (∀ s, xml_node.sync_token (some s) ∉ ([] : List xml_node)) ∧
    (report_sync_col sample_environment (.ok scenario_mailbox) 1 zero_token_request).ret ≠ none ∧
    (report_sync_col sample_environment (.ok scenario_mailbox) 1 []).ret = none ∧
    (report_sync_col sample_environment (.ok scenario_mailbox) 1 []).syncmodseq = 0 :=
  ⟨by decide, by decide, by intro s; simp,
    (zero_token_rejected sample_environment scenario_mailbox 1 zero_token_request
      "http://cyrusimap.org/ns/sync/7-0" 7 1 [] (by decide) (by decide)
      (by intro s; simp)).1.1,
    by decide,
    ((zero_token_rejected sample_environment scenario_mailbox 1 zero_token_request
      "http://cyrusimap.org/ns/sync/7-0" 7 1 [] (by decide) (by decide)
      (by intro s; simp)).2 (by decide)).1⟩

/-- C11 fails as stated: on the scenario mailbox (uidvalidity 7) the
well-formed token with the mailbox's uidvalidity and modseq 0 is rejected
with 403 and "Invalid sync-token", and selects nothing, whereas the request
without a token succeeds and reports the five records. -/
theorem zero_token_is_not_initial_sync :
    (report_sync_col sample_environment (.ok scenario_mailbox) 1 zero_token_request).ret =
      some HTTP_FORBIDDEN ∧
    (report_sync_col sample_environment (.ok scenario_mailbox) 1 zero_token_request).errstr =
      some "Invalid sync-token" ∧
    (report_sync_col sample_environment (.ok scenario_mailbox) 1 zero_token_request).map = [] ∧
    (report_sync_col sample_environment (.ok scenario_mailbox) 1 []).ret = none ∧
    (batch (report_sync_col sample_environment (.ok scenario_mailbox) 1 [])).length = 5 := by
  decide

/-! ## The index lock -/

/-- C14: after a successful open, every call of `report_sync_col` that
returns, on whichever way through the function (success, rejected
sync-token, illegal sync-level, invalid limit, limit too small, or any other
`goto done`), has called `mailbox_unlock_index` exactly once when it returns,
at the label `done`; when the open fails, the call returns
`HTTP_SERVER_ERROR` and no unlock is made. -/
theorem index_lock_released_once (E : environment) (mb : mailbox) (desc : String)
    (depth : Nat) (children : List xml_node) (st : report_state)
    (hst : report_sync_col E (.ok mb) depth children = st)
    (hreturns : st.ret ≠ some SIGSEGV) :
    st.unlocks = 1 ∧
    (report_sync_col E (.error desc) depth children).unlocks = 0 ∧
    (report_sync_col E (.error desc) depth children).ret = some HTTP_SERVER_ERROR := by
  obtain ⟨_, _, _, _, _, _, f7⟩ := parsed_request_frame E mb depth children
  refine ⟨?_, rfl, rfl⟩
  subst hst
  rcases report_cases E mb depth children _ rfl with
    ⟨_, h⟩ | ⟨_, _, h⟩ | ⟨_, _, _, _, h⟩ | ⟨_, _, _, _, _, h⟩ | ⟨_, _, _, _, h⟩ |
    ⟨_, _, _, _, _, _, h⟩ | ⟨_, _, _, _, _, h⟩
  · rw [h]
    show (parsed_request E mb depth children).unlocks + 1 = 1
    rw [f7]
  · rw [h]
    show (parsed_request E mb depth children).unlocks + 1 = 1
    rw [f7]
  · rw [h]
    show (parsed_request E mb depth children).unlocks + 1 = 1
    rw [f7]
  · rw [h]
    show (parsed_request E mb depth children).unlocks + 1 = 1
    rw [f7]
  · rw [h]
    show (parsed_request E mb depth children).unlocks + 1 = 1
    rw [f7]
  · rw [h] at hreturns
    exact absurd rfl hreturns
  · rw [h] at hreturns
    exact absurd rfl hreturns

/-- The scenario request on the scenario mailbox returns, so the theorem
applies to it: one unlock. -/
theorem index_lock_released_once_witness :
    (report_sync_col sample_environment (.ok scenario_mailbox) 1 scenario_request).ret ≠
      some SIGSEGV ∧
    (report_sync_col sample_environment (.ok scenario_mailbox) 1 scenario_request).unlocks = 1 :=
  ⟨by decide,
    (index_lock_released_once sample_environment scenario_mailbox "" 1 scenario_request _ rfl
      (by decide)).1⟩

/-- The nresults loop does not stop the call. -/
theorem parse_limit_returns : ∀ (l : List (Option String)) (st : report_state),
    st.ret ≠ some SIGSEGV → (parse_limit l st).ret ≠ some SIGSEGV := by
  intro l
  induction l with
  | nil => intro st h; simpa [parse_limit] using h
  | cons a rest ih =>
    intro st h
    cases a with
    | none => simp [parse_limit, fail]
    | some str =>
      rw [parse_limit]
      split
      · simp [fail]
      · exact ih _ h

/-- One child of the request does not stop the call. -/
theorem parse_child_returns (E : environment) (mb : mailbox) (node : xml_node)
    (st : report_state) (h : st.ret ≠ some SIGSEGV) :
    (parse_child E mb node st).ret ≠ some SIGSEGV := by
  cases node with
  | sync_token str =>
    cases str with
    | none => simpa [parse_child] using h
    | some str =>
      simp only [parse_child, parse_sync_token]
      split
      · simp [fail]
      · split
        · simp [fail]
        · split
          · simp [fail]
          · exact h
  | sync_level str =>
    cases str with
    | none => simpa [parse_child] using h
    | some str =>
      simp only [parse_child, parse_sync_level]
      split
      · simp [fail]
      · split
        · simp [fail]
        · split
          · simp [fail]
          · exact h
  | limit l => exact parse_limit_returns l st h
  | other => simpa [parse_child] using h

/-- The loop over the children of the request does not stop the call. -/
theorem parse_children_returns (E : environment) (mb : mailbox) :
    ∀ (children : List xml_node) (st : report_state),
      st.ret ≠ some SIGSEGV → (parse_children E mb children st).ret ≠ some SIGSEGV := by
  intro children
  induction children with
  | nil => intro st h; simpa [parse_children] using h
  | cons node rest ih =>
    intro st h
    have hc := parse_child_returns E mb node st h
    rw [parse_children]
    split
    · exact hc
    · exact ih _ hc

/-- The calls that do not return: after a successful open, the call is
stopped exactly when the request and the depth are accepted and an entry of
the batch has a Content-Disposition header without `filename=`, which the
reporting loop then reads through `(char *) 9`; the label `done` is not
reached then and no sync-token is added. -/
theorem stopped_iff_faulting_header (E : environment) (mb : mailbox) (depth : Nat)
    (children : List xml_node) (st : report_state)
    (hst : report_sync_col E (.ok mb) depth children = st) :
    (st.ret = some SIGSEGV ↔
      (parsed_request E mb depth children).ret = none ∧
      (parsed_request E mb depth children).depth ≠ 0 ∧
      ∃ m ∈ batch st, faulting_header E m = true) ∧
    (st.ret = some SIGSEGV → st.unlocks = 0 ∧ st.sync_token = none) := by
  obtain ⟨_, _, f3, _, _, _, f7⟩ := parsed_request_frame E mb depth children
  have hparse : (parsed_request E mb depth children).ret ≠ some SIGSEGV :=
    parse_children_returns E mb children _ (by simp [initial_state])
  subst hst
  rcases report_cases E mb depth children _ rfl with
    ⟨hr, h⟩ | ⟨_, h0, h⟩ | ⟨_, _, _, _, h⟩ | ⟨hret, _, _, _, hall, h⟩ | ⟨hret, _, _, hall, h⟩ |
    ⟨hret, hd, _, _, hex, k, h⟩ | ⟨hret, hd, _, hex, k, h⟩
  · rw [h]
    exact ⟨⟨fun hs => absurd hs hparse, fun hs => absurd hs.1 hr⟩, fun hs => absurd hs hparse⟩
  · rw [h]
    exact ⟨⟨fun hs => absurd hs (by simp [unlock_index, fail]), fun hs => absurd h0 hs.2.1⟩,
      fun hs => absurd hs (by simp [unlock_index, fail])⟩
  · rw [h]
    refine ⟨⟨fun hs => absurd hs (by simp [unlock_index, fail]), ?_⟩,
      fun hs => absurd hs (by simp [unlock_index, fail])⟩
    rintro ⟨_, _, m, hm, _⟩
    simp [batch, unlock_index, fail] at hm
  · rw [h]
    refine ⟨⟨fun hs => absurd hs (by simp [unlock_index, hret]), ?_⟩,
      fun hs => absurd hs (by simp [unlock_index, hret])⟩
    rintro ⟨_, _, m, hm, hf⟩
    have hm2 : m ∈ (E.qsort map_modseq_cmp
        (select_resources E mb (parsed_request E mb depth children).syncmodseq)).take
        (last_with_modseq
          (E.qsort map_modseq_cmp
            (select_resources E mb (parsed_request E mb depth children).syncmodseq))
          (parsed_request E mb depth children).limit) := hm
    rw [hall m hm2] at hf
    exact absurd hf (by simp)
  · rw [h]
    refine ⟨⟨fun hs => absurd hs (by simp [unlock_index, hret]), ?_⟩,
      fun hs => absurd hs (by simp [unlock_index, hret])⟩
    rintro ⟨_, _, m, hm, hf⟩
    have hm2 : m ∈ select_resources E mb (parsed_request E mb depth children).syncmodseq := by
      simpa [batch, unlock_index] using hm
    rw [hall m hm2] at hf
    exact absurd hf (by simp)
  · rw [h]
    exact ⟨⟨fun _ => ⟨hret, hd, hex⟩, fun _ => rfl⟩, fun _ => ⟨f7, f3⟩⟩
  · rw [h]
    refine ⟨⟨fun _ => ⟨hret, hd, ?_⟩, fun _ => rfl⟩, fun _ => ⟨f7, f3⟩⟩
    obtain ⟨m, hm, hf⟩ := hex
    exact ⟨m, by simpa [batch] using hm, hf⟩

/-- With a header that names no file, the initial sync of the scenario
mailbox is stopped at the first record: nothing is returned, no response and
no sync-token have been added, and the index lock has not been released. -/
theorem nameless_header_stops_report :
    (report_sync_col nameless_environment (.ok scenario_mailbox) 1 []).ret = some SIGSEGV ∧
    (report_sync_col nameless_environment (.ok scenario_mailbox) 1 []).responses = [] ∧
    (report_sync_col nameless_environment (.ok scenario_mailbox) 1 []).sync_token = none ∧
    (report_sync_col nameless_environment (.ok scenario_mailbox) 1 []).unlocks = 0 := by
  decide

/-! ## The text of a sync-token -/

/-- A decimal digit character has the properties the scanner tests. -/
theorem digitChar_props (d : Nat) (hd : d < 10) :
    (Nat.digitChar d).isDigit = true ∧ (Nat.digitChar d).toNat - 48 = d ∧
    isspace (Nat.digitChar d) = false ∧ Nat.digitChar d ≠ '-' ∧ Nat.digitChar d ≠ '+' ∧
    Nat.digitChar d ≠ '/' := by
  interval_cases d <;> decide

/-- The value that `scan_digits` accumulates over a run of digit characters. -/
theorem scan_digits_append (xs ys : List Char)
    (hx : ∀ c ∈ xs, c.isDigit = true) :
    ∀ acc n, scan_digits (xs ++ ys) acc n =
      scan_digits ys (xs.foldl (fun a c => 10 * a + (c.toNat - 48)) acc) (n + xs.length) := by
  induction xs with
  | nil => intro acc n; simp
  | cons c cs ih =>
    intro acc n
    have hc : c.isDigit = true := hx c (List.mem_cons_self _ _)
    have hcs : ∀ c ∈ cs, c.isDigit = true := fun c h => hx c (List.mem_cons_of_mem _ h)
    rw [List.cons_append, scan_digits, if_pos hc, ih hcs]
    simp only [List.foldl_cons, List.length_cons]
    congr 1
    omega

/-- The decimal digits of `n`: a non-empty run of digit characters whose
value is `n`. -/
theorem toDigitsCore_digits : ∀ (fuel n : Nat) (ds : List Char), n < fuel →
    ∃ xs : List Char, Nat.toDigitsCore 10 fuel n ds = xs ++ ds ∧ xs ≠ [] ∧
      (∀ c ∈ xs, ∃ d, d < 10 ∧ c = Nat.digitChar d) ∧
      xs.foldl (fun a c => 10 * a + (c.toNat - 48)) 0 = n := by
  intro fuel
  induction fuel with
  | zero => intro n ds h; omega
  | succ fuel ih =>
    intro n ds h
    rw [Nat.toDigitsCore]
    by_cases h0 : n / 10 = 0
    · simp only [h0, if_true]
      have hn : n < 10 := by omega
      refine ⟨[Nat.digitChar (n % 10)], rfl, by simp, ?_, ?_⟩
      · intro c hc
        rw [List.mem_singleton] at hc
        exact ⟨n % 10, by omega, hc⟩
      · simp only [List.foldl_cons, List.foldl_nil]
        rw [(digitChar_props (n % 10) (by omega)).2.1]
        omega
    · simp only [h0, if_false]
      obtain ⟨xs, hxs, hne, hdig, hval⟩ := ih (n / 10) (Nat.digitChar (n % 10) :: ds) (by omega)
      refine ⟨xs ++ [Nat.digitChar (n % 10)], ?_, by simp, ?_, ?_⟩
      · rw [hxs]; simp
      · intro c hc
        rw [List.mem_append, List.mem_singleton] at hc
        rcases hc with hc | hc
        · exact hdig c hc
        · exact ⟨n % 10, by omega, hc⟩
      · rw [List.foldl_append, hval]
        simp only [List.foldl_cons, List.foldl_nil]
        rw [(digitChar_props (n % 10) (by omega)).2.1]
        omega

/-- Scanning stops, without consuming anything, where no digit follows. -/
theorem scan_digits_stop (rest : List Char) (acc n : Nat)
    (hrest : ∀ c, rest.head? = some c → c.isDigit = false) :
    scan_digits rest acc n = (acc, n, rest) := by
  cases rest with
  | nil => rfl
  | cons c cs =>
    have hc : c.isDigit = false := hrest c rfl
    rw [scan_digits]
    simp [hc]

/-- The digits that `Nat.repr` writes, as the list that `Nat.toDigits` gives. -/
theorem repr_toList (n : Nat) : (Nat.repr n).toList = Nat.toDigits 10 n := rfl

/-- One unsigned conversion reads back the decimal digits of a 64-bit value
and stops at the first character that is no digit. -/
theorem scan_unsigned_digits (n : Nat) (rest : List Char) (hn : n < 2 ^ 64)
    (hrest : ∀ c, rest.head? = some c → c.isDigit = false) :
    scan_unsigned (Nat.toDigits 10 n ++ rest) = some (n, rest) := by
  obtain ⟨xs, hxs, hne, hdig, hval⟩ := toDigitsCore_digits (n + 1) n [] (Nat.lt_succ_self n)
  rw [List.append_nil] at hxs
  have hxs' : Nat.toDigits 10 n = xs := hxs
  rw [hxs']
  have hall : ∀ c ∈ xs, c.isDigit = true := by
    intro c hc
    obtain ⟨d, hd, rfl⟩ := hdig c hc
    exact (digitChar_props d hd).1
  cases xs with
  | nil => exact absurd rfl hne
  | cons c cs =>
    obtain ⟨d, hd, hcd⟩ := hdig c (List.mem_cons_self _ _)
    obtain ⟨_, _, hsp, hminus, hplus, _⟩ := digitChar_props d hd
    rw [← hcd] at hsp hminus hplus
    have hdrop : List.dropWhile isspace (c :: cs ++ rest) = c :: cs ++ rest := by
      rw [List.cons_append, List.dropWhile_cons, hsp]
      simp
    have hscan := scan_digits_append (c :: cs) rest hall 0 0
    rw [hval, scan_digits_stop rest _ _ hrest] at hscan
    unfold scan_unsigned
    simp only [hdrop]
    have hh : (c :: cs ++ rest).head? = some c := rfl
    have h1 : ¬ ((c :: cs ++ rest).head? = some '-' ∨ (c :: cs ++ rest).head? = some '+') := by
      rw [hh]
      rintro (h | h)
      · exact hminus (Option.some.inj h)
      · exact hplus (Option.some.inj h)
    have h2 : ¬ ((c :: cs ++ rest).head? = some '-') := fun h => h1 (Or.inl h)
    rw [if_neg h1, hscan]
    have hlen : ¬ (0 + (c :: cs).length = 0) := by simp
    have hbig : ¬ (2 ^ 64 ≤ n) := by omega
    simp only [hlen, if_false, hbig, h2, decide_False, Bool.false_eq_true]

/-- The digits of a number contain no slash and start with a digit. -/
theorem toDigits_chars (n : Nat) :
    Nat.toDigits 10 n ≠ [] ∧ ∀ c ∈ Nat.toDigits 10 n, c.isDigit = true ∧ c ≠ '/' := by
  obtain ⟨xs, hxs, hne, hdig, _⟩ := toDigitsCore_digits (n + 1) n [] (Nat.lt_succ_self n)
  rw [List.append_nil] at hxs
  have hxs' : Nat.toDigits 10 n = xs := hxs
  rw [hxs']
  refine ⟨hne, ?_⟩
  intro c hc
  obtain ⟨d, hd, rfl⟩ := hdig c hc
  exact ⟨(digitChar_props d hd).1, (digitChar_props d hd).2.2.2.2.2⟩

/-- The two conversions of the token format read back `u-m`. -/
theorem sscanf_u_dash_llu_digits (u m : Nat) (hu : u < 2 ^ 32) (hm : m < 2 ^ 64) :
    sscanf_u_dash_llu (Nat.toDigits 10 u ++ '-' :: Nat.toDigits 10 m) = some (u, m) := by
  have h1 : scan_unsigned (Nat.toDigits 10 u ++ '-' :: Nat.toDigits 10 m) =
      some (u, '-' :: Nat.toDigits 10 m) := by
    apply scan_unsigned_digits u _ (by omega)
    intro c hc
    have : c = '-' := (Option.some.inj hc).symm
    rw [this]
    decide
  have h2 : scan_unsigned (Nat.toDigits 10 m) = some (m, []) := by
    have := scan_unsigned_digits m [] hm (by intro c hc; simp at hc)
    rwa [List.append_nil] at this
  unfold sscanf_u_dash_llu
  rw [h1]
  simp only [if_true, h2]
  rw [Nat.mod_eq_of_lt hu]

/-- Taking while a test holds stops at the first element that fails it. -/
theorem takeWhile_append_stop {α : Type} (p : α → Bool) (xs ys : List α) (a : α)
    (hx : ∀ x ∈ xs, p x = true) (ha : p a = false) :
    (xs ++ a :: ys).takeWhile p = xs := by
  induction xs with
  | nil => simp [List.takeWhile_cons, ha]
  | cons x rest ih =>
    have hx1 : p x = true := hx x (List.mem_cons_self _ _)
    rw [List.cons_append, List.takeWhile_cons, hx1]
    simp only [if_true]
    rw [ih (fun y hy => hx y (List.mem_cons_of_mem _ hy))]

/-- The text after the last slash, for a text that has no slash after one
given slash. -/
theorem after_last_slash_append (pre body : List Char) (hb : ∀ c ∈ body, c ≠ '/') :
    after_last_slash (pre ++ '/' :: body) = body := by
  unfold after_last_slash
  rw [List.reverse_append, List.reverse_cons, List.append_assoc, List.singleton_append,
    takeWhile_append_stop _ body.reverse pre.reverse '/'
      (by intro x hx; simpa using hb x (List.mem_reverse.1 hx)) (by simp),
    List.reverse_reverse]

/-- A text starts with each of its own beginnings. -/
theorem starts_with_append (pre rest : List Char) : starts_with pre (pre ++ rest) = true := by
  induction pre with
  | nil => simp [starts_with]
  | cons c cs ih => simp [starts_with, ih]

/-- The characters of the token text when the buffer is long enough for
it: the namespace, `sync/`, and the two numbers in decimal with a dash
between them. -/
theorem tokenuri_toList (E : environment) (u m : Nat) (hu : u < 2 ^ 32) (hm : m < 2 ^ 64)
    (hfit : E.XML_NS_CYRUS.length + 36 < E.MAX_MAILBOX_PATH) :
    (tokenuri E u m).toList =
      (E.XML_NS_CYRUS.toList ++ ['s', 'y', 'n', 'c']) ++
        '/' :: (Nat.toDigits 10 u ++ '-' :: Nat.toDigits 10 m) := by
  have hlu : (Nat.repr u).length ≤ 10 := Nat.repr_length u 10 (by decide) (by omega)
  have hlm : (Nat.repr m).length ≤ 20 := Nat.repr_length m 20 (by decide) (by omega)
  have hfull : (E.XML_NS_CYRUS ++ "sync/" ++ Nat.repr u ++ "-" ++ Nat.repr m).toList =
      (E.XML_NS_CYRUS.toList ++ ['s', 'y', 'n', 'c']) ++
        '/' :: (Nat.toDigits 10 u ++ '-' :: Nat.toDigits 10 m) := by
    simp only [String.toList, String.data_append, Nat.repr, List.asString]
    simp
  unfold tokenuri
  show List.take _ _ = _
  rw [hfull, List.take_of_length_le]
  have hu' : (Nat.toDigits 10 u).length ≤ 10 := hlu
  have hm' : (Nat.toDigits 10 m).length ≤ 20 := hlm
  have hns : E.XML_NS_CYRUS.toList.length = E.XML_NS_CYRUS.length := rfl
  simp only [List.length_append, List.length_cons, List.length_nil, hns]
  omega

/-- An accepted token text: the token that is formatted for `(u, m)` is
stored as it is when `m` is not 0, `u` is the mailbox's uidvalidity and `m`
lies between `deletedmodseq` and `highestmodseq`. -/
theorem parse_sync_token_accepts (E : environment) (mb : mailbox) (st : report_state)
    (u m : Nat) (hu : u < 2 ^ 32) (hm : m < 2 ^ 64)
    (hfit : E.XML_NS_CYRUS.length + 36 < E.MAX_MAILBOX_PATH)
    (h0 : m ≠ 0) (huid : u = mb.uidvalidity) (hdel : mb.deletedmodseq ≤ m)
    (hhigh : m ≤ st.highestmodseq) :
    parse_sync_token E mb (tokenuri E u m) st = { st with uidvalidity := u, syncmodseq := m } := by
  have hl := tokenuri_toList E u m hu hm hfit
  have hpre : (E.XML_NS_CYRUS ++ "sync/").toList =
      E.XML_NS_CYRUS.toList ++ ['s', 'y', 'n', 'c', '/'] := by
    simp only [String.toList, String.data_append]
  have hstart : starts_with (E.XML_NS_CYRUS ++ "sync/").toList (tokenuri E u m).toList = true := by
    rw [hl, hpre]
    have : E.XML_NS_CYRUS.toList ++ ['s', 'y', 'n', 'c'] ++
        '/' :: (Nat.toDigits 10 u ++ '-' :: Nat.toDigits 10 m) =
        (E.XML_NS_CYRUS.toList ++ ['s', 'y', 'n', 'c', '/']) ++
          (Nat.toDigits 10 u ++ '-' :: Nat.toDigits 10 m) := by simp
    rw [this]
    exact starts_with_append _ _
  have hafter : after_last_slash (tokenuri E u m).toList =
      Nat.toDigits 10 u ++ '-' :: Nat.toDigits 10 m := by
    rw [hl]
    apply after_last_slash_append
    intro c hc
    rw [List.mem_append, List.mem_cons] at hc
    rcases hc with hc | hc | hc
    · exact ((toDigits_chars u).2 c hc).2
    · rw [hc]; decide
    · exact ((toDigits_chars m).2 c hc).2
  unfold parse_sync_token
  rw [hstart, hafter, sscanf_u_dash_llu_digits u m hu hm]
  have hok : ¬ (m = 0 ∨ u ≠ mb.uidvalidity ∨ m < mb.deletedmodseq ∨ m > st.highestmodseq) := by
    rintro (h | h | h | h)
    · exact h0 h
    · exact h huid
    · omega
    · omega
  simp only [Bool.true_eq_false, if_false, hok]

/-- C12: for a 32-bit uidvalidity `u` and a 64-bit modseq `m`, and a token
buffer that holds the namespace text and 36 more characters, the token that
`report_sync_col` formats is the namespace text, `sync/`, `u` in decimal, a
dash and `m` in decimal; it passes the prefix check, the text after its last
slash is `u-m`, and the scan of that text with the token format gives back
exactly `(u, m)`. -/
theorem sync_token_round_trip (E : environment) (u m : Nat) (hu : u < 2 ^ 32)
    (hm : m < 2 ^ 64) (hfit : E.XML_NS_CYRUS.length + 36 < E.MAX_MAILBOX_PATH) :
    tokenuri E u m = E.XML_NS_CYRUS ++ "sync/" ++ Nat.repr u ++ "-" ++ Nat.repr m ∧
    starts_with (E.XML_NS_CYRUS ++ "sync/").toList (tokenuri E u m).toList = true ∧
    after_last_slash (tokenuri E u m).toList = (Nat.repr u ++ "-" ++ Nat.repr m).toList ∧
    sscanf_u_dash_llu (after_last_slash (tokenuri E u m).toList) = some (u, m) := by
  have hl := tokenuri_toList E u m hu hm hfit
  have hpre : (E.XML_NS_CYRUS ++ "sync/").toList =
      E.XML_NS_CYRUS.toList ++ ['s', 'y', 'n', 'c', '/'] := by
    simp only [String.toList, String.data_append]
  have hafter : after_last_slash (tokenuri E u m).toList =
      Nat.toDigits 10 u ++ '-' :: Nat.toDigits 10 m := by
    rw [hl]
    apply after_last_slash_append
    intro c hc
    rw [List.mem_append, List.mem_cons] at hc
    rcases hc with hc | hc | hc
    · exact ((toDigits_chars u).2 c hc).2
    · rw [hc]; decide
    · exact ((toDigits_chars m).2 c hc).2
  refine ⟨?_, ?_, ?_, ?_⟩
  · apply String.ext
    have hfull : (E.XML_NS_CYRUS ++ "sync/" ++ Nat.repr u ++ "-" ++ Nat.repr m).toList =
        (E.XML_NS_CYRUS.toList ++ ['s', 'y', 'n', 'c']) ++
          '/' :: (Nat.toDigits 10 u ++ '-' :: Nat.toDigits 10 m) := by
      simp only [String.toList, String.data_append, Nat.repr, List.asString]
      simp
    exact hl.trans hfull.symm
  · rw [hl, hpre]
    have : E.XML_NS_CYRUS.toList ++ ['s', 'y', 'n', 'c'] ++
        '/' :: (Nat.toDigits 10 u ++ '-' :: Nat.toDigits 10 m) =
        (E.XML_NS_CYRUS.toList ++ ['s', 'y', 'n', 'c', '/']) ++
          (Nat.toDigits 10 u ++ '-' :: Nat.toDigits 10 m) := by simp
    rw [this]
    exact starts_with_append _ _
  · rw [hafter]
    simp only [String.toList, String.data_append, Nat.repr, List.asString]
    simp
  · rw [hafter]
    exact sscanf_u_dash_llu_digits u m hu hm

/-- The token for uidvalidity 7 and modseq 91 in the sample environment
meets the hypotheses and reads back as `(7, 91)`. -/
theorem sync_token_round_trip_witness :
    (7 : Nat) < 2 ^ 32 ∧ (91 : Nat) < 2 ^ 64 ∧
    sample_environment.XML_NS_CYRUS.length + 36 < sample_environment.MAX_MAILBOX_PATH ∧
    tokenuri sample_environment 7 91 = "http://cyrusimap.org/ns/sync/7-91" ∧
    sscanf_u_dash_llu (after_last_slash (tokenuri sample_environment 7 91).toList) =
      some (7, 91) :=
  ⟨by decide, by decide, by decide, by decide,
    (sync_token_round_trip sample_environment 7 91 (by decide) (by decide) (by decide)).2.2.2⟩

/-! ## Presenting a returned token again -/

/-- C13 fails on the code: the mailbox with highestmodseq 100, deletedmodseq
50 and two records of modseq 10 and 60 satisfies the store invariants; the
initial sync with limit 1 succeeds, is truncated to the record of modseq 10
and returns the token with modseq 10; that token, presented back against
the unchanged mailbox, is rejected with 403 and "Invalid sync-token". -/
theorem truncated_initial_sync_token_rejected :
    (purged_mailbox.deletedmodseq ≤ purged_mailbox.highestmodseq ∧
      1 ≤ purged_mailbox.highestmodseq ∧
      ∀ r ∈ readable_records purged_mailbox, r.modseq ≤ purged_mailbox.highestmodseq) ∧
    (report_sync_col sample_environment (.ok purged_mailbox) 1 limited_initial_request).ret =
      none ∧
    (report_sync_col sample_environment (.ok purged_mailbox) 1
      limited_initial_request).sync_token = some "http://cyrusimap.org/ns/sync/7-10" ∧
    (report_sync_col sample_environment (.ok purged_mailbox) 1
      [.sync_token (some "http://cyrusimap.org/ns/sync/7-10")]).ret = some HTTP_FORBIDDEN ∧
    (report_sync_col sample_environment (.ok purged_mailbox) 1
      [.sync_token (some "http://cyrusimap.org/ns/sync/7-10")]).errstr =
      some "Invalid sync-token" := by
  decide

/-- One child of the request leaves the token modseq at 0 or at a value that
is not below `deletedmodseq`. -/
theorem parse_child_token_range (E : environment) (mb : mailbox) (node : xml_node)
    (st : report_state) (h : st.syncmodseq = 0 ∨ mb.deletedmodseq ≤ st.syncmodseq) :
    (parse_child E mb node st).syncmodseq = 0 ∨
      mb.deletedmodseq ≤ (parse_child E mb node st).syncmodseq := by
  cases node with
  | sync_token str =>
    cases str with
    | none => exact h
    | some str =>
      simp only [parse_child, parse_sync_token]
      split
      · exact h
      · split
        · exact h
        · split
          · exact h
          · rename_i hv
            right
            simp only
            omega
  | sync_level str =>
    cases str with
    | none => exact h
    | some str =>
      simp only [parse_child, parse_sync_level]
      split
      · exact h
      · split
        · exact h
        · split
          · exact h
          · exact h
  | limit l =>
    simp only [parse_child]
    rw [(parse_limit_frame l st).2.2.2.2.2.2.2.1]
    exact h
  | other => exact h

/-- The loop over the children leaves the token modseq at 0 or at a value
that is not below `deletedmodseq`. -/
theorem parse_children_token_range (E : environment) (mb : mailbox) :
    ∀ (children : List xml_node) (st : report_state),
      (st.syncmodseq = 0 ∨ mb.deletedmodseq ≤ st.syncmodseq) →
      ((parse_children E mb children st).syncmodseq = 0 ∨
        mb.deletedmodseq ≤ (parse_children E mb children st).syncmodseq) := by
  intro children
  induction children with
  | nil => intro st h; exact h
  | cons node rest ih =>
    intro st h
    rw [parse_children]
    split
    · exact parse_child_token_range E mb node st h
    · exact ih _ (parse_child_token_range E mb node st h)

/-- Where a returned token can be presented again: under the store
invariants, for a uidvalidity of 32 bits and modseqs of 64 bits, a
successful report whose request carried an accepted token, or whose result
was not truncated, returns a token that the token validation accepts
against the unchanged mailbox, with the returned modseq as its value. -/
theorem returned_token_accepted (E : environment) (hq : qsort_contract E) (mb : mailbox)
    (depth : Nat) (children : List xml_node) (st : report_state)
    (hst : report_sync_col E (.ok mb) depth children = st) (hok : st.ret = none)
    (hdel : mb.deletedmodseq ≤ mb.highestmodseq) (h1 : 1 ≤ mb.highestmodseq)
    (hrec : ∀ r ∈ readable_records mb, r.modseq ≤ mb.highestmodseq)
    (hu : mb.uidvalidity < 2 ^ 32) (hm : mb.highestmodseq < 2 ^ 64)
    (hfit : E.XML_NS_CYRUS.length + 36 < E.MAX_MAILBOX_PATH)
    (hcase : st.syncmodseq ≠ 0 ∨ ¬ st.limit < (select_resources E mb st.syncmodseq).length)
    (depth2 : Nat) :
    ∃ tok, st.sync_token = some tok ∧
      (parsed_request E mb depth2 [.sync_token (some tok)]).ret = none ∧
      (parsed_request E mb depth2 [.sync_token (some tok)]).syncmodseq = st.highestmodseq := by
  obtain ⟨hs, _, htok, hfields⟩ := report_success_fields E mb depth children st hst hok
  have hrange : st.syncmodseq = 0 ∨ mb.deletedmodseq ≤ st.syncmodseq := by
    rw [hs]
    unfold parsed_request
    exact parse_children_token_range E mb children _ (Or.inl rfl)
  have key : st.highestmodseq ≠ 0 ∧ mb.deletedmodseq ≤ st.highestmodseq ∧
      st.highestmodseq ≤ mb.highestmodseq := by
    rcases hfields with ⟨_, _, _, hh, _⟩ | ⟨htr, _, _, _, hh, _⟩
    · rw [hh]; omega
    · have hsync : st.syncmodseq ≠ 0 := by
        rcases hcase with h | h
        · exact h
        · exact absurd htr h
      obtain ⟨hperm, _, h1n, hnl, hll, _⟩ := truncated_cut E hq mb depth children st hst hok htr
      have hidx : st.nresp - 1 < st.map.length := by omega
      have hmem : st.map.getD (st.nresp - 1) zero_map ∈ st.map := by
        rw [List.getD_eq_getElem _ _ hidx]
        exact List.getElem_mem _
      have hsel := hperm.mem_iff.1 hmem
      have hgt := select_resources_modseq E mb _ _ hsel
      rw [select_resources_eq, List.mem_map] at hsel
      obtain ⟨r, hr, hreq⟩ := hsel
      unfold selected_by_spec at hr
      have hle := hrec r (List.mem_filter.1 hr).1
      rw [hh, ← hreq]
      rw [← hreq] at hgt
      simp only at hgt ⊢
      omega
  refine ⟨_, htok, ?_⟩
  have hacc := parse_sync_token_accepts E mb
    { initial_state depth2 with highestmodseq := mb.highestmodseq }
    mb.uidvalidity st.highestmodseq hu (by omega) hfit key.1 rfl key.2.1 key.2.2
  unfold parsed_request
  simp only [parse_children, parse_child]
  rw [hacc]
  exact ⟨rfl, rfl⟩

/-- The scenario request carries a token and is truncated to the record of
modseq 91; the token it returns is accepted when it is presented again. -/
theorem returned_token_accepted_at_scenario :
    (report_sync_col sample_environment (.ok scenario_mailbox) 1 scenario_request).sync_token =
      some "http://cyrusimap.org/ns/sync/7-91" ∧
    ∃ tok,
      (report_sync_col sample_environment (.ok scenario_mailbox) 1 scenario_request).sync_token =
        some tok ∧
      (parsed_request sample_environment scenario_mailbox 1 [.sync_token (some tok)]).ret = none ∧
      (parsed_request sample_environment scenario_mailbox 1
        [.sync_token (some tok)]).syncmodseq =
        (report_sync_col sample_environment (.ok scenario_mailbox) 1
          scenario_request).highestmodseq :=
  ⟨by decide,
    returned_token_accepted sample_environment sample_qsort_contract scenario_mailbox 1
      scenario_request _ rfl (by decide) (by decide) (by decide) (by decide) (by decide)
      (by decide) (by decide) (Or.inl (by decide)) 1⟩


/-! ## The consistency checker -/

/-- A mailbox whose lookup succeeds makes `chkmbox` return 0. -/
theorem chkmbox_returns (W : chk_world) (check_part : Option String) (name : String)
    (e : mboxlist_entry) (h : W.mboxlist_lookup name = some e) :
    (chkmbox W check_part name).2 = .returned 0 := by
  unfold chkmbox
  rw [h]
  dsimp only
  split <;> rfl

/-- A mailbox whose lookup fails makes `chkmbox` end in `fatal`. -/
theorem chkmbox_fatal (W : chk_world) (check_part : Option String) (name : String)
    (h : W.mboxlist_lookup name = none) :
    chkmbox W check_part name =
      ([.stderr ("bad mailbox " ++ name ++ " in chkmbox\n")],
        .fatal "fatal error" EC_TEMPFAIL) := by
  unfold chkmbox
  rw [h]

/-- While the callback returns 0 the walk goes through the whole list and
gathers the events of every call. -/
theorem mboxlist_findall_all (proc : String → List chk_event × chk_outcome) :
    ∀ names : List String, (∀ n ∈ names, (proc n).2 = .returned 0) →
      mboxlist_findall proc names = (names.flatMap (fun n => (proc n).1), .returned 0) := by
  intro names
  induction names with
  | nil => intro _; rfl
  | cons n rest ih =>
    intro h
    have hn : (proc n).2 = .returned 0 := h n (List.mem_cons_self _ _)
    have hrest := ih (fun m hm => h m (List.mem_cons_of_mem _ hm))
    rw [mboxlist_findall]
    cases hp : proc n with
    | mk events outcome =>
      rw [hp] at hn
      simp only at hn
      subst hn
      simp only [if_true, hrest, List.flatMap_cons, hp]

/-- A callback that ends the process ends the walk there: the mailboxes
after it are not visited. -/
theorem mboxlist_findall_fatal (proc : String → List chk_event × chk_outcome)
    (name : String) (post : List String) (events : List chk_event) (msg : String)
    (code : exit_code) (hname : proc name = (events, .fatal msg code)) :
    ∀ pre : List String, (∀ n ∈ pre, (proc n).2 = .returned 0) →
      mboxlist_findall proc (pre ++ name :: post) =
        (pre.flatMap (fun n => (proc n).1) ++ events, .fatal msg code) := by
  intro pre
  induction pre with
  | nil =>
    intro _
    rw [List.nil_append, mboxlist_findall, hname]
    rfl
  | cons n rest ih =>
    intro h
    have hn : (proc n).2 = .returned 0 := h n (List.mem_cons_self _ _)
    have hrest := ih (fun m hm => h m (List.mem_cons_of_mem _ hm))
    rw [List.cons_append, mboxlist_findall]
    cases hp : proc n with
    | mk ev outcome =>
      rw [hp] at hn
      simp only at hn
      subst hn
      simp only [if_true, hrest, List.flatMap_cons, hp, List.append_assoc]

/-- C15 (as the code has it): a mailbox-lookup failure is fatal. `chkmbox`
writes "bad mailbox" with the name to stderr and calls `fatal` with
`EC_TEMPFAIL`, which does not return; in a walk over the mailboxes the run
ends at that mailbox and no later mailbox is visited. -/
theorem lookup_failure_is_fatal (W : chk_world) (check_part : Option String)
    (name : String) (pre post : List String)
    (hfail : W.mboxlist_lookup name = none)
    (hpre : ∀ n ∈ pre, W.mboxlist_lookup n ≠ none) :
    chkmbox W check_part name =
      ([.stderr ("bad mailbox " ++ name ++ " in chkmbox\n")],
        .fatal "fatal error" EC_TEMPFAIL) ∧
    (mboxlist_findall (chkmbox W check_part) (pre ++ name :: post)).2 =
      .fatal "fatal error" EC_TEMPFAIL ∧
    mboxlist_findall (chkmbox W check_part) (pre ++ name :: post) =
      mboxlist_findall (chkmbox W check_part) (pre ++ [name]) := by
  have hf := chkmbox_fatal W check_part name hfail
  have hp : ∀ n ∈ pre, (chkmbox W check_part n).2 = .returned 0 := by
    intro n hn
    cases hl : W.mboxlist_lookup n with
    | none => exact absurd hl (hpre n hn)
    | some e => exact chkmbox_returns W check_part n e hl
  have h1 := mboxlist_findall_fatal (chkmbox W check_part) name post _ _ _ hf pre hp
  have h2 := mboxlist_findall_fatal (chkmbox W check_part) name [] _ _ _ hf pre hp
  refine ⟨hf, ?_, ?_⟩
  · rw [h1]
  · rw [h1, h2]

/-- The sample mailbox list meets the hypotheses at its second name: the
first name can be looked up, the second cannot, and the walk ends in `fatal`. -/
theorem lookup_failure_is_fatal_witness :
    sample_world.mboxlist_lookup "user.bob" = none ∧
    (∀ n ∈ ["user.ann"], sample_world.mboxlist_lookup n ≠ none) ∧
    (mboxlist_findall (chkmbox sample_world none) (["user.ann"] ++ "user.bob" :: ["user.cat"])).2 =
      .fatal "fatal error" EC_TEMPFAIL :=
  ⟨by decide, by decide,
    (lookup_failure_is_fatal sample_world none "user.bob" ["user.ann"] ["user.cat"]
      (by decide) (by decide)).2.1⟩

/-- C15 fails as stated: in the sample mailbox list the lookup of the second
mailbox fails; `chkmbox` does not return for it but ends in `fatal`, the run
of `main` over all mailboxes ends there, and the third mailbox is never
checked. -/
theorem lookup_failure_aborts_run :
    chkmbox sample_world none "user.bob" =
      ([.stderr "bad mailbox user.bob in chkmbox\n"], .fatal "fatal error" EC_TEMPFAIL) ∧
    chk_main sample_world none none =
      ([.stderr "Examining partition: ALL PARTITIONS\n",
        .stderr "checking: user.ann\n",
        .reconstruct "user.ann" 0 (-1),
        .stderr "bad mailbox user.bob in chkmbox\n"],
       .fatal "fatal error" EC_TEMPFAIL) := by
  decide

/-- C16: for a mailbox whose lookup succeeds `chkmbox` returns 0 whatever
`mailbox_reconstruct` returns; so in a walk over mailboxes whose lookups
succeed every mailbox is visited, in order, and the walk ends with 0, also
when a reconstruct fails. -/
theorem reconstruct_failure_isolated (W : chk_world) (check_part : Option String)
    (name : String) (e : mboxlist_entry) (names : List String)
    (hlook : W.mboxlist_lookup name = some e)
    (hall : ∀ n ∈ names, W.mboxlist_lookup n ≠ none) :
    (chkmbox W check_part name).2 = .returned 0 ∧
    (∀ reconstruct : String → Int → Int,
      (chkmbox { W with mailbox_reconstruct := reconstruct } check_part name).2 = .returned 0) ∧
    mboxlist_findall (chkmbox W check_part) names =
      (names.flatMap (fun n => (chkmbox W check_part n).1), .returned 0) := by
  refine ⟨chkmbox_returns W check_part name e hlook, ?_, ?_⟩
  · intro reconstruct
    exact chkmbox_returns { W with mailbox_reconstruct := reconstruct } check_part name e hlook
  · apply mboxlist_findall_all
    intro n hn
    cases hl : W.mboxlist_lookup n with
    | none => exact absurd hl (hall n hn)
    | some e2 => exact chkmbox_returns W check_part n e2 hl

/-- In the mailbox list whose lookups succeed, the reconstruct of the first
mailbox fails with -1, and the walk still visits the second mailbox and
ends with 0. -/
theorem reconstruct_failure_isolated_witness :
    sound_world.mboxlist_lookup "user.ann" = some ⟨"p1"⟩ ∧
    (∀ n ∈ sound_world.all_mailboxes, sound_world.mboxlist_lookup n ≠ none) ∧
    sound_world.mailbox_reconstruct "user.ann" 0 = -1 ∧
    mboxlist_findall (chkmbox sound_world none) sound_world.all_mailboxes =
      (sound_world.all_mailboxes.flatMap (fun n => (chkmbox sound_world none n).1),
        .returned 0) :=
  ⟨by decide, by decide, by decide,
    (reconstruct_failure_isolated sound_world none "user.ann" ⟨"p1"⟩ sound_world.all_mailboxes
      (by decide) (by decide)).2.2⟩

/-- C17: for a mailbox whose lookup succeeded, `chkmbox` calls
`mailbox_reconstruct` exactly when no partition was selected or the
mailbox's partition is the selected one; the call is for that mailbox with
`make_changes` 0; and a mailbox that is skipped returns 0 without any event. -/
theorem reconstruct_iff_on_partition (W : chk_world) (check_part : Option String)
    (name : String) (e : mboxlist_entry) (hlook : W.mboxlist_lookup name = some e) :
    ((∃ mc r, chk_event.reconstruct name mc r ∈ (chkmbox W check_part name).1) ↔
      (check_part = none ∨ check_part = some e.partition)) ∧
    (∀ n mc r, chk_event.reconstruct n mc r ∈ (chkmbox W check_part name).1 →
      n = name ∧ mc = 0 ∧ r = W.mailbox_reconstruct name 0) ∧
    (¬ (check_part = none ∨ check_part = some e.partition) →
      chkmbox W check_part name = ([], .returned 0)) ∧
    (chkmbox W check_part name).2 = .returned 0 := by
  unfold chkmbox
  rw [hlook]
  dsimp only
  by_cases hc : check_part ≠ none ∧ check_part ≠ some e.partition
  · rw [if_pos hc]
    have hneg : ¬ (check_part = none ∨ check_part = some e.partition) := by
      rintro (h | h)
      · exact hc.1 h
      · exact hc.2 h
    refine ⟨?_, ?_, fun _ => rfl, rfl⟩
    · constructor
      · rintro ⟨mc, r, hmem⟩
        simp at hmem
      · intro h; exact absurd h hneg
    · intro n mc r hmem
      simp at hmem
  · rw [if_neg hc]
    have hpos : check_part = none ∨ check_part = some e.partition := by
      by_contra hn
      apply hc
      constructor
      · intro h; exact hn (Or.inl h)
      · intro h; exact hn (Or.inr h)
    refine ⟨?_, ?_, fun h => absurd hpos h, rfl⟩
    · constructor
      · intro _; exact hpos
      · intro _
        exact ⟨0, W.mailbox_reconstruct name 0, by simp⟩
    · intro n mc r hmem
      simp at hmem
      exact hmem

/-- With partition `p2` selected, the mailbox on `p1` is skipped and the
mailbox on `p2` is checked in dry-run mode. -/
theorem reconstruct_iff_on_partition_witness :
    sample_world.mboxlist_lookup "user.ann" = some ⟨"p1"⟩ ∧
    chkmbox sample_world (some "p2") "user.ann" = ([], .returned 0) ∧
    chkmbox sample_world (some "p2") "user.cat" =
      ([.stderr "checking: user.cat\n", .reconstruct "user.cat" 0 0], .returned 0) :=
  ⟨by decide,
    (reconstruct_iff_on_partition sample_world (some "p2") "user.ann" ⟨"p1"⟩ (by decide)).2.2.1
      (by decide),
    by decide⟩

/-! ## Retrying reads and writes -/

/-- Conversion to `int` leaves a value of the `int` range as it is. -/
theorem to_int_of_range (x : Int) (h1 : -2147483648 ≤ x) (h2 : x ≤ 2147483647) :
    to_int x = x := by
  unfold to_int
  omega

/-- Conversion to `size_t` of a value that is not negative and fits. -/
theorem to_size_t_of_nonneg (x : Int) (h1 : 0 ≤ x) (h2 : x ≤ 2147483647) :
    to_size_t x = x.toNat := by
  unfold to_size_t
  congr 1
  omega

/-- Unfinished progress moves fewer bytes than were requested. -/
theorem partial_progress_lt (retried : errno_t → Bool) :
    ∀ (pre : List sys_result) (rem : Nat), partial_progress retried pre rem →
      transferred pre ≤ rem ∧ (1 ≤ rem → transferred pre < rem) := by
  intro pre
  induction pre with
  | nil => intro rem _; simp [transferred]; omega
  | cons p ps ih =>
    intro rem h
    rw [partial_progress] at h
    rw [transferred]
    rcases h with ⟨hr, _, hrest⟩ | ⟨h1, h2, hrest⟩
    · have := ih rem hrest
      simp only [hr, if_true]
      omega
    · have := ih (rem - p.ret.toNat) hrest
      have hne : p.ret ≠ -1 := by omega
      simp only [hne, if_false]
      omega

/-- The calls expected for a run that starts with one more result. -/
theorem range_map_calls (p : sys_result) (ps : List sys_result) (buf : Int) (rem : Nat) :
    (List.range (p :: ps).length).map (fun i =>
        (buf + (transferred ((p :: ps).take i) : Int), rem - transferred ((p :: ps).take i))) =
      (buf, rem) :: (List.range ps.length).map (fun i =>
        (buf + ((if p.ret = -1 then 0 else p.ret.toNat : Nat) : Int) +
            (transferred (ps.take i) : Int),
          rem - (if p.ret = -1 then 0 else p.ret.toNat) - transferred (ps.take i))) := by
  rw [List.length_cons, List.range_succ_eq_map, List.map_cons, List.map_map]
  congr 1
  · simp [transferred]
  · apply List.map_congr_left
    intro i _
    simp only [Function.comp, List.take_succ_cons, transferred, Nat.cast_add]
    rw [Nat.sub_sub, Int.add_assoc]

/-- The loop of `retry_write` over a run of unfinished progress: it goes on
with the results that follow, at the offset and with the counts that the
run has moved, having made one call per result. -/
theorem retry_write_loop_progress :
    ∀ (pre tail : List sys_result) (buf : Int) (rem : Nat) (written : Int)
      (calls : List (Int × Nat)),
      partial_progress write_retried pre rem → 0 ≤ written → written + rem ≤ 2147483647 →
      retry_write_loop (pre ++ tail) buf rem written calls =
        retry_write_loop tail (buf + transferred pre) (rem - transferred pre)
          (written + transferred pre)
          (calls ++ (List.range pre.length).map (fun i =>
            (buf + (transferred (pre.take i) : Int), rem - transferred (pre.take i)))) := by
  intro pre
  induction pre with
  | nil => intro tail buf rem written calls _ _ _; simp [transferred]
  | cons p ps ih =>
    intro tail buf rem written calls hp hw hmax
    rw [partial_progress] at hp
    rw [range_map_calls, List.cons_append, retry_write_loop]
    rcases hp with ⟨hr, he, hrest⟩ | ⟨h1, h2, hrest⟩
    · have hto : to_int p.ret = -1 := by rw [hr]; rfl
      have herr : p.errno = EINTR := by simpa [write_retried] using he
      rw [if_pos hto, if_pos herr, ih tail buf rem written _ hrest hw hmax]
      simp [transferred, hr]
    · have hto : to_int p.ret = p.ret := to_int_of_range _ (by omega) (by omega)
      have hsz : to_size_t p.ret = p.ret.toNat := to_size_t_of_nonneg _ (by omega) (by omega)
      have hne : ¬ (p.ret = -1) := by omega
      have hlt : ¬ (p.ret.toNat ≥ rem) := by omega
      rw [hto, if_neg hne, hsz, if_neg hlt,
        to_int_of_range (written + p.ret) (by omega) (by omega),
        ih tail (buf + p.ret) (rem - p.ret.toNat) (written + p.ret) _ hrest (by omega) (by omega)]
      have hcast : ((p.ret.toNat : Nat) : Int) = p.ret := Int.toNat_of_nonneg (by omega)
      simp only [transferred, hne, if_false, Nat.cast_add, hcast, List.append_assoc,
        List.singleton_append, Nat.sub_sub, Int.add_assoc]

/-- The calls made over a run of unfinished progress and one more call are
the expected ones. -/
theorem expected_calls_eq (pre : List sys_result) (nbyte : Nat) :
    ([] : List (Int × Nat)) ++ (List.range pre.length).map (fun i =>
        ((0 : Int) + (transferred (pre.take i) : Int), nbyte - transferred (pre.take i))) ++
      [((0 : Int) + (transferred pre : Int), nbyte - transferred pre)] =
    expected_calls pre nbyte := by
  unfold expected_calls
  rw [List.range_succ, List.map_append]
  simp

/-- C18: for `nbyte` between 1 and `INT_MAX`, after any run of `write`
results in which every failure is `EINTR` and every success writes at
least one byte and fewer than are still requested, a call that writes the
bytes that remain makes `retry_write` return `nbyte`, and a failure with
another `errno` makes it return -1; each call was made with the buffer
advanced by the bytes written before it and for the bytes that remained.
For `nbyte` 0 it returns 0 without a call. -/
theorem retry_write_contract (pre : List sys_result) (r : sys_result)
    (extra : List sys_result) (nbyte : Nat) (h0 : 0 < nbyte) (hmax : nbyte ≤ 2147483647)
    (hpre : partial_progress write_retried pre nbyte) :
    (r.ret = ((nbyte - transferred pre : Nat) : Int) →
      retry_write (pre ++ r :: extra) nbyte = ⟨some (nbyte : Int), expected_calls pre nbyte⟩) ∧
    (r.ret = -1 → r.errno ≠ EINTR →
      retry_write (pre ++ r :: extra) nbyte = ⟨some (-1), expected_calls pre nbyte⟩) ∧
    (∀ results, retry_write results 0 = ⟨some 0, []⟩) := by
  obtain ⟨hle, hlt⟩ := partial_progress_lt write_retried pre nbyte hpre
  have hlt' := hlt h0
  have hloop := retry_write_loop_progress pre (r :: extra) 0 nbyte 0 [] hpre (by omega) (by omega)
  have hne : ¬ nbyte = 0 := by omega
  refine ⟨?_, ?_, ?_⟩
  · intro hr
    unfold retry_write
    rw [if_neg hne, hloop, retry_write_loop]
    have hto : to_int r.ret = r.ret := to_int_of_range _ (by omega) (by omega)
    have hsz : to_size_t r.ret = nbyte - transferred pre := by
      rw [to_size_t_of_nonneg _ (by omega) (by omega), hr, Int.toNat_ofNat]
    have hn1 : ¬ (r.ret = -1) := by omega
    rw [hto, if_neg hn1, hsz, if_pos (Nat.le_refl _),
      to_int_of_range (0 + ↑(transferred pre) + r.ret) (by omega) (by omega), expected_calls_eq]
    congr 2
    omega
  · intro hr he
    unfold retry_write
    rw [if_neg hne, hloop, retry_write_loop]
    have hto : to_int r.ret = -1 := by rw [hr]; rfl
    rw [if_pos hto, if_neg he, expected_calls_eq]
  · intro results
    unfold retry_write
    rw [if_pos rfl]

/-- The sample run of writes leaves the transfer of 10 bytes unfinished. -/
theorem sample_writes_progress : partial_progress write_retried sample_transfers 10 := by
  simp [partial_progress, sample_transfers, write_retried]

/-- A transfer of 10 bytes in the steps 3, `EINTR`, 4, 3 meets the
hypotheses and returns 10. -/
theorem retry_write_contract_witness :
    (0 < 10) ∧ (10 ≤ 2147483647) ∧ partial_progress write_retried sample_transfers 10 ∧
    retry_write (sample_transfers ++ ⟨3, other 0⟩ :: []) 10 =
      ⟨some 10, [(0, 10), (3, 7), (3, 7), (7, 3)]⟩ :=
  ⟨by decide, by decide, sample_writes_progress,
    ((retry_write_contract sample_transfers ⟨3, other 0⟩ [] 10 (by decide) (by decide)
      sample_writes_progress).1 (by decide)).trans (by decide)⟩

/-- The loop of `retry_read` over a run of unfinished progress: it goes on
with the results that follow, at the offset and with the counts that the
run has moved, having made one call per result. -/
theorem retry_read_loop_progress :
    ∀ (pre tail : List sys_result) (buf : Int) (rem : Nat) (nread : Int)
      (calls : List (Int × Nat)),
      partial_progress read_retried pre rem → 0 ≤ nread → nread + rem ≤ 2147483647 →
      retry_read_loop (pre ++ tail) buf rem nread calls =
        retry_read_loop tail (buf + transferred pre) (rem - transferred pre)
          (nread + transferred pre)
          (calls ++ (List.range pre.length).map (fun i =>
            (buf + (transferred (pre.take i) : Int), rem - transferred (pre.take i)))) := by
  intro pre
  induction pre with
  | nil => intro tail buf rem nread calls _ _ _; simp [transferred]
  | cons p ps ih =>
    intro tail buf rem nread calls hp hw hmax
    rw [partial_progress] at hp
    rw [range_map_calls, List.cons_append, retry_read_loop]
    rcases hp with ⟨hr, he, hrest⟩ | ⟨h1, h2, hrest⟩
    · have hto : to_int p.ret = -1 := by rw [hr]; rfl
      have hz : ¬ (to_int p.ret = 0) := by rw [hto]; decide
      have herr : p.errno = EINTR ∨ p.errno = EAGAIN := by simpa [read_retried] using he
      rw [if_neg hz, if_pos hto, if_pos herr, ih tail buf rem nread _ hrest hw hmax]
      simp [transferred, hr]
    · have hto : to_int p.ret = p.ret := to_int_of_range _ (by omega) (by omega)
      have hsz : to_size_t p.ret = p.ret.toNat := to_size_t_of_nonneg _ (by omega) (by omega)
      have hz : ¬ (p.ret = 0) := by omega
      have hne : ¬ (p.ret = -1) := by omega
      have hlt : ¬ (p.ret.toNat ≥ rem) := by omega
      rw [hto, if_neg hz, if_neg hne, hsz, if_neg hlt,
        to_int_of_range (nread + p.ret) (by omega) (by omega),
        ih tail (buf + p.ret) (rem - p.ret.toNat) (nread + p.ret) _ hrest (by omega) (by omega)]
      have hcast : ((p.ret.toNat : Nat) : Int) = p.ret := Int.toNat_of_nonneg (by omega)
      simp only [transferred, hne, if_false, Nat.cast_add, hcast, List.append_assoc,
        List.singleton_append, Nat.sub_sub, Int.add_assoc]

/-- C19 (as the code has it): for `nbyte` between 1 and `INT_MAX`, after any
run of `read` results in which every failure is `EINTR` or `EAGAIN` and
every success reads at least one byte and fewer than are still requested, a
call that reads the bytes that remain makes `retry_read` return `nbyte`;
end of file (a result of 0) and a failure with another `errno` make it
return -1, also when bytes were read before. For `nbyte` 0 it returns 0
without a call. -/
theorem retry_read_contract (pre : List sys_result) (r : sys_result)
    (extra : List sys_result) (nbyte : Nat) (h0 : 0 < nbyte) (hmax : nbyte ≤ 2147483647)
    (hpre : partial_progress read_retried pre nbyte) :
    (r.ret = ((nbyte - transferred pre : Nat) : Int) →
      retry_read (pre ++ r :: extra) nbyte = ⟨some (nbyte : Int), expected_calls pre nbyte⟩) ∧
    (r.ret = 0 →
      retry_read (pre ++ r :: extra) nbyte = ⟨some (-1), expected_calls pre nbyte⟩) ∧
    (r.ret = -1 → r.errno ≠ EINTR → r.errno ≠ EAGAIN →
      retry_read (pre ++ r :: extra) nbyte = ⟨some (-1), expected_calls pre nbyte⟩) ∧
    (∀ results, retry_read results 0 = ⟨some 0, []⟩) := by
  obtain ⟨hle, hlt⟩ := partial_progress_lt read_retried pre nbyte hpre
  have hlt' := hlt h0
  have hloop := retry_read_loop_progress pre (r :: extra) 0 nbyte 0 [] hpre (by omega) (by omega)
  have hne : ¬ nbyte = 0 := by omega
  refine ⟨?_, ?_, ?_, ?_⟩
  · intro hr
    unfold retry_read
    rw [if_neg hne, hloop, retry_read_loop]
    have hto : to_int r.ret = r.ret := to_int_of_range _ (by omega) (by omega)
    have hsz : to_size_t r.ret = nbyte - transferred pre := by
      rw [to_size_t_of_nonneg _ (by omega) (by omega), hr, Int.toNat_ofNat]
    have hz : ¬ (r.ret = 0) := by omega
    have hn1 : ¬ (r.ret = -1) := by omega
    rw [hto, if_neg hz, if_neg hn1, hsz, if_pos (Nat.le_refl _),
      to_int_of_range (0 + ↑(transferred pre) + r.ret) (by omega) (by omega), expected_calls_eq]
    congr 2
    omega
  · intro hr
    unfold retry_read
    rw [if_neg hne, hloop, retry_read_loop]
    have hto : to_int r.ret = 0 := by rw [hr]; rfl
    rw [if_pos hto, expected_calls_eq]
  · intro hr he1 he2
    unfold retry_read
    rw [if_neg hne, hloop, retry_read_loop]
    have hto : to_int r.ret = -1 := by rw [hr]; rfl
    have hz : ¬ (to_int r.ret = 0) := by rw [hto]; decide
    have he : ¬ (r.errno = EINTR ∨ r.errno = EAGAIN) := by
      rintro (h | h)
      · exact he1 h
      · exact he2 h
    rw [if_neg hz, if_pos hto, if_neg he, expected_calls_eq]
  · intro results
    unfold retry_read
    rw [if_pos rfl]

/-- The sample run of reads leaves the transfer of 10 bytes unfinished. -/
theorem sample_reads_progress : partial_progress read_retried sample_transfers 10 := by
  simp [partial_progress, sample_transfers, read_retried]

/-- After 7 of 10 bytes were read, end of file makes `retry_read` return -1
and not the partial count. -/
theorem retry_read_contract_witness :
    (0 < 10) ∧ (10 ≤ 2147483647) ∧ partial_progress read_retried sample_transfers 10 ∧
    transferred sample_transfers = 7 ∧
    retry_read (sample_transfers ++ ⟨0, other 0⟩ :: []) 10 =
      ⟨some (-1), [(0, 10), (3, 7), (3, 7), (7, 3)]⟩ :=
  ⟨by decide, by decide, sample_reads_progress, by decide,
    ((retry_read_contract sample_transfers ⟨0, other 0⟩ [] 10 (by decide) (by decide)
      sample_reads_progress).2.1 rfl).trans (by decide)⟩

/-- C19 fails as stated: for `nbyte` 2147483648, which is above `INT_MAX`,
two reads of 2147479552 and 4096 bytes deliver `nbyte` bytes in total,
and `retry_read` returns -2147483648, not `nbyte`. -/
theorem retry_read_overflows_int :
    (2147479552 : Int) + 4096 = 2147483648 ∧
    retry_read [⟨2147479552, other 0⟩, ⟨4096, other 0⟩] 2147483648 =
      ⟨some (-2147483648), [(0, 2147483648), (2147479552, 4096)]⟩ := by
  decide

/-- The value of an `int` lies between `INT_MIN` and `INT_MAX`. -/
theorem to_int_bounds (x : Int) : -2147483648 ≤ to_int x ∧ to_int x ≤ 2147483647 := by
  unfold to_int
  omega

/-- Whatever the reads deliver, the value the loop of `retry_read` returns
is an `int`. -/
theorem retry_read_loop_result_is_int :
    ∀ (results : List sys_result) (buf : Int) (nbyte : Nat) (nread : Int)
      (calls : List (Int × Nat)) (v : Int),
      (retry_read_loop results buf nbyte nread calls).ret = some v →
      -2147483648 ≤ v ∧ v ≤ 2147483647 := by
  intro results
  induction results with
  | nil => intro buf nbyte nread calls v h; simp [retry_read_loop] at h
  | cons r rest ih =>
    intro buf nbyte nread calls v h
    rw [retry_read_loop] at h
    split at h
    · simp only [Option.some.injEq] at h
      omega
    · split at h
      · split at h
        · exact ih _ _ _ _ v h
        · simp only [Option.some.injEq] at h
          omega
      · split at h
        · simp only [Option.some.injEq] at h
          rw [← h]
          exact to_int_bounds _
        · exact ih _ _ _ _ v h

/-- For every `nbyte` above `INT_MAX` and every run of reads, `retry_read`
does not return `nbyte`. -/
theorem retry_read_never_returns_above_int_max (results : List sys_result) (nbyte : Nat)
    (h : 2147483647 < nbyte) : (retry_read results nbyte).ret ≠ some (nbyte : Int) := by
  intro hr
  unfold retry_read at hr
  rw [if_neg (by omega)] at hr
  have := retry_read_loop_result_is_int results 0 nbyte 0 [] _ hr
  omega

/-! ## The caller's array in retry_writev -/

/-- The copy loop writes the cells from `iov + i` on, `k` of them, and no
other cell. -/
theorem copy_iov_outside (srciov iov : Nat) :
    ∀ (k i : Nat) (mem : Nat → iovec) (a : Nat), (a < iov + i ∨ iov + i + k ≤ a) →
      copy_iov srciov iov k i mem a = mem a := by
  intro k
  induction k with
  | zero => intro i mem a _; rfl
  | succ k ih =>
    intro i mem a ha
    rw [copy_iov, ih (i + 1) _ a (by omega), Function.update_noteq (by omega)]

/-- Skipping empty cells moves `iov` forward by what it takes from `iovcnt`. -/
theorem skip_empty_bounds (mem : Nat → iovec) :
    ∀ (iovcnt iov : Nat),
      (skip_empty mem iov iovcnt).1 + (skip_empty mem iov iovcnt).2 = iov + iovcnt ∧
      iov ≤ (skip_empty mem iov iovcnt).1 := by
  intro iovcnt
  induction iovcnt with
  | zero => intro iov; simp [skip_empty]
  | succ k ih =>
    intro iov
    rw [skip_empty]
    split
    · have := ih (iov + 1)
      omega
    · simp

/-- The accounting loop writes cells from `iov + i` on, at most `k` of
them, and no other cell. -/
theorem advance_iov_outside (iov : Nat) :
    ∀ (k i : Nat) (n : Int) (mem : Nat → iovec) (a : Nat), (a < iov + i ∨ iov + i + k ≤ a) →
      (advance_iov iov k i n mem).1 a = mem a := by
  intro k
  induction k with
  | zero => intro i n mem a _; rfl
  | succ k ih =>
    intro i n mem a ha
    rw [advance_iov]
    split
    · exact Function.update_noteq (by omega) _ _
    · rw [ih (i + 1) _ _ a (by omega), Function.update_noteq (by omega)]

/-- The main loop writes no cell outside a block that holds the cells from
`iov` to `iov + iovcnt`. -/
theorem retry_writev_loop_outside (lo hi a : Nat) (ha : a < lo ∨ hi ≤ a) :
    ∀ (results : List sys_result) (st : writev_state) (calls : List (Nat × Int)),
      lo ≤ st.iov → st.iov + st.iovcnt ≤ hi →
      (retry_writev_loop results st calls).mem a = st.mem a := by
  intro results
  induction results with
  | nil =>
    intro st calls _ _
    rw [retry_writev_loop]
    split <;> rfl
  | cons r rest ih =>
    intro st calls hlo hhi
    obtain ⟨hsum, hge⟩ := skip_empty_bounds st.mem st.iovcnt st.iov
    rw [retry_writev_loop]
    split
    · rfl
    · split
      · split
        · rw [ih _ _ (by show lo ≤ (skip_empty st.mem st.iov st.iovcnt).1; omega)
            (by show (skip_empty st.mem st.iov st.iovcnt).1 +
                  (skip_empty st.mem st.iov st.iovcnt).2 ≤ hi; omega)]
        · split
          · rw [ih _ _ (by show lo ≤ (skip_empty st.mem st.iov st.iovcnt).1; omega)
              (by show (skip_empty st.mem st.iov st.iovcnt).1 +
                    (skip_empty st.mem st.iov st.iovcnt).2 ≤ hi; omega)]
          · rfl
      · split
        · exact advance_iov_outside _ _ 0 _ st.mem a (by omega)
        · rw [ih _ _ (by show lo ≤ (skip_empty st.mem st.iov st.iovcnt).1; omega)
            (by show (skip_empty st.mem st.iov st.iovcnt).1 +
                  (skip_empty st.mem st.iov st.iovcnt).2 ≤ hi; omega)]
          exact advance_iov_outside _ _ 0 _ st.mem a (by omega)

/-- C20: `retry_writev` writes `struct iovec` cells only inside the block it
allocated for its copy. So for every array of the caller, every sequence of
`writev` results and every value of `iov_max`, with the allocated block
apart from the caller's array, each cell of the caller's array holds the
same base pointer and length after the call as before it, whether the call
has returned or is still retrying. -/
theorem retry_writev_keeps_srciov (results : List sys_result) (mem : Nat → iovec)
    (srciov iovcnt baseiov : Nat) (iov_max : Int)
    (hfresh : baseiov + iovcnt ≤ srciov ∨ srciov + iovcnt ≤ baseiov) :
    (∀ i, i < iovcnt →
      (retry_writev results mem srciov iovcnt baseiov iov_max).mem (srciov + i) =
        mem (srciov + i)) ∧
    (∀ a, (a < baseiov ∨ baseiov + iovcnt ≤ a) →
      (retry_writev results mem srciov iovcnt baseiov iov_max).mem a = mem a) := by
  have hout : ∀ a, (a < baseiov ∨ baseiov + iovcnt ≤ a) →
      (retry_writev results mem srciov iovcnt baseiov iov_max).mem a = mem a := by
    intro a ha
    unfold retry_writev
    rw [retry_writev_loop_outside baseiov (baseiov + iovcnt) a ha results _ _
      (Nat.le_refl _) (Nat.le_refl _)]
    exact copy_iov_outside srciov baseiov iovcnt 0 mem a (by omega)
  refine ⟨?_, hout⟩
  intro i hi
  exact hout (srciov + i) (by omega)

/-- The array of two cells at address 0 with the copy at address 2: the
call writes 4 bytes, is interrupted, is refused, fails and returns -1, and
the two cells of the caller are as before. -/
theorem retry_writev_keeps_srciov_witness :
    (2 + 2 ≤ 0 ∨ 0 + 2 ≤ 2) ∧
    (retry_writev sample_writev_results sample_memory 0 2 2 1024).ret = some (-1) ∧
    (retry_writev sample_writev_results sample_memory 0 2 2 1024).mem 2 = ⟨1004, 1⟩ ∧
    (∀ i, i < 2 →
      (retry_writev sample_writev_results sample_memory 0 2 2 1024).mem (0 + i) =
        sample_memory (0 + i)) :=
  ⟨by decide, by decide, by decide,
    (retry_writev_keeps_srciov sample_writev_results sample_memory 0 2 2 1024 (by decide)).1⟩

/-! ## The status for a failed mailbox lookup -/

/-- Where the lookup switch is entered: at the first label for
`IMAP_PERMISSION_DENIED`, at the second for a different value equal to
`IMAP_MAILBOX_NONEXISTENT`, at `default` otherwise. -/
theorem mlookup_switch_entry (C : imap_errors) (r : Int) :
    switch_entry (mlookup_arms C) r =
      if r = C.IMAP_PERMISSION_DENIED then mlookup_arms C
      else if r = C.IMAP_MAILBOX_NONEXISTENT then (mlookup_arms C).drop 1
      else (mlookup_arms C).drop 2 := by
  by_cases h1 : r = C.IMAP_PERMISSION_DENIED
  · subst h1
    simp [switch_entry, mlookup_arms, List.dropWhile]
  · by_cases h2 : r = C.IMAP_MAILBOX_NONEXISTENT
    · subst h2
      have h1' : ¬ C.IMAP_PERMISSION_DENIED = C.IMAP_MAILBOX_NONEXISTENT := fun h => h1 h.symm
      simp [switch_entry, mlookup_arms, List.dropWhile, h1, h1']
    · have h1' : ¬ C.IMAP_PERMISSION_DENIED = r := fun h => h1 h.symm
      have h2' : ¬ C.IMAP_MAILBOX_NONEXISTENT = r := fun h => h2 h.symm
      simp [switch_entry, mlookup_arms, List.dropWhile, h1, h2, h1', h2']

/-- C27 fails on the code: whatever `http_mlookup` returned, `meth_report`
ends with 500 Server Error, because no statement of its switch is followed
by `break`; `meth_acl`, `meth_get_dav`, `meth_propfind` and `meth_proppatch`
answer `IMAP_PERMISSION_DENIED` with 403 Forbidden and, the two codes being
different, `IMAP_MAILBOX_NONEXISTENT` with 404 Not Found. -/
theorem meth_report_lookup_status_differs (C : imap_errors) (r : Int) :
    meth_report_mlookup_failed C r = some HTTP_SERVER_ERROR ∧
    meth_acl_mlookup_failed C C.IMAP_PERMISSION_DENIED = some HTTP_FORBIDDEN ∧
    meth_get_dav_mlookup_failed C C.IMAP_PERMISSION_DENIED = some HTTP_FORBIDDEN ∧
    meth_propfind_mlookup_failed C C.IMAP_PERMISSION_DENIED = some HTTP_FORBIDDEN ∧
    meth_proppatch_mlookup_failed C C.IMAP_PERMISSION_DENIED = some HTTP_FORBIDDEN ∧
    (C.IMAP_PERMISSION_DENIED ≠ C.IMAP_MAILBOX_NONEXISTENT →
      meth_acl_mlookup_failed C C.IMAP_MAILBOX_NONEXISTENT = some HTTP_NOT_FOUND) ∧
    meth_report_mlookup_failed C C.IMAP_PERMISSION_DENIED ≠
      meth_acl_mlookup_failed C C.IMAP_PERMISSION_DENIED := by
  have hrep : ∀ x, meth_report_mlookup_failed C x = some HTTP_SERVER_ERROR := by
    intro x
    unfold meth_report_mlookup_failed switch_assign
    rw [mlookup_switch_entry]
    split
    · rfl
    · split <;> rfl
  have hacl : switch_return (mlookup_arms C) C.IMAP_PERMISSION_DENIED = some HTTP_FORBIDDEN := by
    unfold switch_return
    rw [mlookup_switch_entry, if_pos rfl]
    rfl
  refine ⟨hrep r, hacl, hacl, hacl, hacl, ?_, ?_⟩
  · intro hne
    unfold meth_acl_mlookup_failed switch_return
    rw [mlookup_switch_entry, if_neg (fun h => hne h.symm), if_pos rfl]
    rfl
  · rw [hrep]
    unfold meth_acl_mlookup_failed
    rw [hacl]
    decide

/-- With the sample error codes: a mailbox that does not exist is answered
with 404 by `meth_acl` and with 500 by `meth_report`. -/
theorem meth_report_lookup_status_differs_witness :
    sample_imap_errors.IMAP_PERMISSION_DENIED ≠ sample_imap_errors.IMAP_MAILBOX_NONEXISTENT ∧
    meth_acl_mlookup_failed sample_imap_errors sample_imap_errors.IMAP_MAILBOX_NONEXISTENT =
      some HTTP_NOT_FOUND ∧
    meth_report_mlookup_failed sample_imap_errors sample_imap_errors.IMAP_MAILBOX_NONEXISTENT =
      some HTTP_SERVER_ERROR :=
  ⟨by decide,
    (meth_report_lookup_status_differs sample_imap_errors
      sample_imap_errors.IMAP_MAILBOX_NONEXISTENT).2.2.2.2.2.1 (by decide),
    (meth_report_lookup_status_differs sample_imap_errors
      sample_imap_errors.IMAP_MAILBOX_NONEXISTENT).1⟩

/-! ## The user segment of a principal path -/

/-- C29 fails on the code: `prin_parse_path` compares the segment after the
namespace with `user` over the length of the segment only, so the segments
`u`, `us`, `use` and the empty segment enter user space like `user` does:
the result is 0 and the following segment `alice` is recorded as the user
id. A segment that is not an initial part of `user` gives `HTTP_NOT_FOUND`
and no user. -/
theorem prefix_segment_enters_user_space :
    ((prin_parse_path (fresh_target "/principals/u/alice".toList)).ret = none ∧
      user_text (prin_parse_path (fresh_target "/principals/u/alice".toList)).tgt =
        some "alice".toList) ∧
    ((prin_parse_path (fresh_target "/principals/us/alice".toList)).ret = none ∧
      user_text (prin_parse_path (fresh_target "/principals/us/alice".toList)).tgt =
        some "alice".toList) ∧
    ((prin_parse_path (fresh_target "/principals/use/alice".toList)).ret = none ∧
      user_text (prin_parse_path (fresh_target "/principals/use/alice".toList)).tgt =
        some "alice".toList) ∧
    ((prin_parse_path (fresh_target "/principals//alice".toList)).ret = none ∧
      user_text (prin_parse_path (fresh_target "/principals//alice".toList)).tgt =
        some "alice".toList) ∧
    ((prin_parse_path (fresh_target "/principals/user/alice".toList)).ret = none ∧
      user_text (prin_parse_path (fresh_target "/principals/user/alice".toList)).tgt =
        some "alice".toList) ∧
    ((prin_parse_path (fresh_target "/principals/users/alice".toList)).ret =
        some HTTP_NOT_FOUND ∧
      (prin_parse_path (fresh_target "/principals/users/alice".toList)).tgt.user = none) := by
  decide

/-- Inside the text the pointer is advanced and the condition fails. -/
theorem at_end_or_next_inside (s : List Char) (p : Nat) (h : p + 1 < s.length) :
    at_end_or_next s p = (false, p + 1) := by
  unfold at_end_or_next
  rw [if_neg (by omega), if_neg (by omega)]

/-- At the end of the text the condition holds and the pointer stays. -/
theorem at_end_or_next_end (s : List Char) (p : Nat) (h : s.length ≤ p) :
    at_end_or_next s p = (true, p) := by
  unfold at_end_or_next
  rw [if_pos h]

/-- A segment without a slash that is followed by a slash is measured whole. -/
theorem strcspn_slash_segment (seg rest : List Char) (h : ∀ c ∈ seg, c ≠ '/') :
    strcspn_slash (seg ++ '/' :: rest) = seg.length := by
  unfold strcspn_slash
  induction seg with
  | nil => simp
  | cons c cs ih =>
    have hc : c ≠ '/' := h c (List.mem_cons_self _ _)
    simp only [List.cons_append, List.takeWhile_cons, hc, ne_eq, not_false_eq_true,
      decide_True, if_true, List.length_cons]
    rw [ih (fun x hx => h x (List.mem_cons_of_mem _ hx))]

/-- A last segment without a slash is measured whole. -/
theorem strcspn_slash_last (seg : List Char) (h : ∀ c ∈ seg, c ≠ '/') :
    strcspn_slash seg = seg.length := by
  unfold strcspn_slash
  rw [List.takeWhile_eq_self_iff.2 (fun c hc => decide_eq_true (h c hc))]

/-- Comparing a segment that is followed by a slash with a text without a
slash over the length of the segment: the comparison finds them equal
exactly when the segment is an initial part of the text. -/
theorem strncmp_eq_segment : ∀ (seg rest t : List Char),
    strncmp_eq (seg ++ '/' :: rest) t seg.length = true ↔ seg <+: t := by
  intro seg
  induction seg with
  | nil => intro rest t; simp [strncmp_eq]
  | cons c cs ih =>
    intro rest t
    cases t with
    | nil => simp [strncmp_eq]
    | cons d ds =>
      simp only [List.cons_append, List.length_cons, strncmp_eq, Bool.and_eq_true,
        decide_eq_true_eq, List.cons_prefix_cons]
      exact and_congr_right (fun _ => ih rest ds)

/-- What `prin_parse_path` does with a path of a namespace segment, a
second segment and a user id: the second segment enters user space, and the
user id is recorded, exactly when the segment is an initial part of `user`;
otherwise the result is `HTTP_NOT_FOUND` and the target is left as it is. -/
theorem prin_parse_path_user_space (tgt : request_target) (ns seg uid : List Char)
    (hpath : tgt.path = '/' :: (ns ++ '/' :: (seg ++ '/' :: uid)))
    (hns : ∀ c ∈ ns, c ≠ '/') (hseg : ∀ c ∈ seg, c ≠ '/') (huid : ∀ c ∈ uid, c ≠ '/')
    (hne : uid ≠ []) :
    prin_parse_path tgt =
      if seg <+: ['u', 's', 'e', 'r'] then
        ⟨none, none, { tgt with user := some (ns.length + seg.length + 3),
                                userlen := uid.length }⟩
      else ⟨some HTTP_NOT_FOUND, none, tgt⟩ := by
  have hul : 0 < uid.length := List.length_pos.2 hne
  have hlen : tgt.path.length = ns.length + seg.length + uid.length + 3 := by
    rw [hpath]
    simp only [List.length_cons, List.length_append]
    omega
  have hd1 : tgt.path.drop 1 = ns ++ '/' :: (seg ++ '/' :: uid) := by rw [hpath]; rfl
  have hd2 : tgt.path.drop (1 + ns.length + 1) = seg ++ '/' :: uid := by
    rw [hpath]
    have : '/' :: (ns ++ '/' :: (seg ++ '/' :: uid)) =
        ('/' :: ns ++ ['/']) ++ (seg ++ '/' :: uid) := by simp
    rw [this]
    exact List.drop_left' (by simp; omega)
  have hd3 : tgt.path.drop (1 + ns.length + 1 + seg.length + 1) = uid := by
    rw [hpath]
    have : '/' :: (ns ++ '/' :: (seg ++ '/' :: uid)) =
        ('/' :: ns ++ '/' :: seg ++ ['/']) ++ uid := by simp
    rw [this]
    exact List.drop_left' (by simp; omega)
  unfold prin_parse_path
  simp only []
  rw [at_end_or_next_inside _ 0 (by omega)]
  simp only [Nat.zero_add]
  rw [hd1, strcspn_slash_segment ns _ hns, at_end_or_next_inside _ _ (by omega)]
  simp only []
  rw [hd2, strcspn_slash_segment seg _ hseg]
  by_cases hp : seg <+: ['u', 's', 'e', 'r']
  · rw [if_pos ((strncmp_eq_segment seg uid _).2 hp), if_pos hp,
      at_end_or_next_inside _ _ (by omega)]
    simp only []
    rw [hd3, strcspn_slash_last uid huid, at_end_or_next_end _ _ (by omega)]
    have : 1 + ns.length + 1 + seg.length + 1 = ns.length + seg.length + 3 := by omega
    simp only [this]
  · rw [if_neg (fun h => hp ((strncmp_eq_segment seg uid _).1 h)), if_neg hp]

/-- The general statement at the path `/principals/us/alice`: `us` is an
initial part of `user`, so `alice` is recorded as the user id at offset 15. -/
theorem prin_parse_path_user_space_at_us :
    prin_parse_path (fresh_target "/principals/us/alice".toList) =
      ⟨none, none, { fresh_target "/principals/us/alice".toList with
        user := some 15, userlen := 5 }⟩ :=
  (prin_parse_path_user_space (fresh_target "/principals/us/alice".toList)
    "principals".toList "us".toList "alice".toList rfl (by decide) (by decide) (by decide)
    (by decide)).trans (by decide)


/-! ## The mailbox name of an addressbook path -/

/-- C28 fails on the code: the two paths below are accepted, have the same
user segment `alice` (without `@`) and the same collection segment
`Default`, and differ in the resource segment only, yet their mailbox names
differ. `carddav_parse_path` looks for `@` with `strchr` from the start of
the user segment to the end of the path, so the `@` of the resource name is
taken for the start of a domain, and the mailbox name of the second path is
not of the form `user.<userid>.<addressbookprefix>.<collection>`. -/
theorem resource_segment_changes_mboxname :
    carddav_segments sample_carddav_environment "/addressbooks/user/alice/Default/card.vcf" =
      some (some "alice", some "Default", some "card.vcf",
        "user.alice.#addressbooks.Default") ∧
    carddav_segments sample_carddav_environment
        "/addressbooks/user/alice/Default/bob@example.com.vcf" =
      some (some "alice", some "Default", some "bob@example.com.vcf",
        "example.com.vcf!user.alice/Default/bob.#addressbooks.Default") ∧
    carddav_mboxname_of sample_carddav_environment "/addressbooks/user/alice/Default/card.vcf" ≠
      carddav_mboxname_of sample_carddav_environment
        "/addressbooks/user/alice/Default/bob@example.com.vcf" := by
  decide

/-- A path that fills the working copy and ends with the collection
segment, without a slash: the slash is stored at `path[MAX_MAILBOX_PATH]`,
the last element of the array, and the function returns 0 with the mailbox
name of the collection. -/
theorem full_path_collection_gets_slash :
    "/addressbooks/user/alice/Ab".length = tight_carddav_environment.MAX_MAILBOX_PATH ∧
    carddav_segments tight_carddav_environment "/addressbooks/user/alice/Ab" =
      some (some "alice", some "Ab", none, "user.alice.#addressbooks.Ab") := by
  decide

/-- An output that fits the rest of the buffer is stored whole, and the
pointer and the size move by its length. -/
theorem mbox_printf_fits (b : mbox_buf) (out : List Char) (hp : b.p = b.text.length)
    (hfit : out.length < b.siz) (hsiz : b.siz < 2 ^ 64) :
    mbox_printf b out =
      some ⟨b.text ++ out, b.text.length + out.length, b.siz - out.length⟩ := by
  unfold mbox_printf
  rw [if_neg (by omega), if_neg (by omega), List.take_of_length_le (by omega), hp]
  have : to_size_t ((b.siz : Int) - (out.length : Int)) = b.siz - out.length := by
    unfold to_size_t
    have h1 : ((b.siz : Int) - (out.length : Int)) = ((b.siz - out.length : Nat) : Int) := by
      omega
    rw [h1, Int.emod_eq_of_lt (by omega) (by omega), Int.toNat_ofNat]
  rw [this]

/-- The mailbox name for a target with a user and a collection, when no `@`
follows the start of the user segment up to the end of the path, the
lengths fit an `int`, the name fits the buffer and
`mboxname_hiersep_tointernal` keeps the length of its text: `user.`, the
user id in internal form, a dot, the addressbook prefix, a dot and the
collection. The resource segment has no part in it. -/
theorem carddav_mboxname_plain_user (E : carddav_environment) (tgt : request_target)
    (u c : Nat) (hu : tgt.user = some u) (hul : tgt.userlen ≠ 0)
    (hc : tgt.collection = some c)
    (hat : strchr (tgt.path.drop u) '@' = none)
    (hkeep : ∀ s n, (E.mboxname_hiersep_tointernal s n).length = s.length)
    (hi1 : tgt.userlen ≤ 2147483647) (hi2 : tgt.collen ≤ 2147483647)
    (hfit : 5 + tgt.userlen + 1 + E.addressbookprefix.length + 1 + tgt.collen <
      E.MAX_MAILBOX_BUFFER)
    (hbuf : E.MAX_MAILBOX_BUFFER < 2 ^ 64) :
    carddav_mboxname E tgt =
      some (['u', 's', 'e', 'r', '.'] ++
        E.mboxname_hiersep_tointernal ((tgt.path.drop u).take tgt.userlen) tgt.userlen ++
        '.' :: E.addressbookprefix ++ '.' :: (tgt.path.drop c).take tgt.collen) := by
  have hti1 : to_int (tgt.userlen : Int) = tgt.userlen := to_int_of_range _ (by omega) (by omega)
  have hti2 : to_int (tgt.collen : Int) = tgt.collen := to_int_of_range _ (by omega) (by omega)
  have hpu : printf_precision (tgt.userlen : Int) (tgt.path.drop u) =
      (tgt.path.drop u).take tgt.userlen := by
    unfold printf_precision
    rw [if_neg (by omega), Int.toNat_ofNat]
  have hpc : printf_precision (tgt.collen : Int) (tgt.path.drop c) =
      (tgt.path.drop c).take tgt.collen := by
    unfold printf_precision
    rw [if_neg (by omega), Int.toNat_ofNat]
  have hlu : ((tgt.path.drop u).take tgt.userlen).length ≤ tgt.userlen := by
    rw [List.length_take]; omega
  have hlc : ((tgt.path.drop c).take tgt.collen).length ≤ tgt.collen := by
    rw [List.length_take]; omega
  unfold carddav_mboxname
  simp only [hu, hc, if_pos hul]
  unfold carddav_user_part
  simp only [hat, hti1, hpu]
  rw [mbox_printf_fits ⟨[], 0, E.MAX_MAILBOX_BUFFER⟩ _ rfl
    (by simp only [List.length_append, List.length_cons, List.length_nil]; omega) hbuf]
  simp only [List.nil_append, List.length_nil, Nat.zero_add]
  have h5 : (['u', 's', 'e', 'r', '.'] ++ (tgt.path.drop u).take tgt.userlen).take 5 =
      ['u', 's', 'e', 'r', '.'] := List.take_left' rfl
  have h5d : (['u', 's', 'e', 'r', '.'] ++ (tgt.path.drop u).take tgt.userlen).drop 5 =
      (tgt.path.drop u).take tgt.userlen := List.drop_left' rfl
  rw [h5, h5d]
  have hne : ¬ ((['u', 's', 'e', 'r', '.'] ++ (tgt.path.drop u).take tgt.userlen).length = 0) := by
    simp
  simp only [ne_eq, hne, not_false_eq_true, if_true]
  rw [mbox_printf_fits _ _
    (by simp only [List.length_append, List.length_cons, List.length_nil, hkeep])
    (by simp only [List.length_append, List.length_cons, List.length_nil]; omega)
    (by simp only []; omega)]
  simp only []
  rw [hti2, hpc, mbox_printf_fits _ _
    (by simp only [List.length_append, List.length_cons, List.length_nil, hkeep])
    (by simp only [List.length_append, List.length_cons, List.length_nil, hkeep]; omega)
    (by simp only []; omega)]
  simp

/-- The general statement at the target that the parser records for
`/addressbooks/user/alice/Default/card.vcf`. -/
theorem carddav_mboxname_plain_user_at_card :
    carddav_mboxname sample_carddav_environment
        { fresh_target "/addressbooks/user/alice/Default/card.vcf".toList with
          user := some 19
          userlen := 5
          collection := some 25
          collen := 7
          resource := some 33
          reslen := 8 } =
      some "user.alice.#addressbooks.Default".toList :=
  (carddav_mboxname_plain_user sample_carddav_environment _ 19 25 rfl (by decide) rfl
    (by decide) (fun _ _ => rfl) (by decide) (by decide) (by decide) (by decide)).trans
    (by decide)


/-! ## The sync-token property and the report token -/

/-- A token that fits the buffer is formatted without a cut. -/
theorem tokenuri_uncut (E : environment) (u m : Nat) (hu : u < 2 ^ 32) (hm : m < 2 ^ 64)
    (hfit : E.XML_NS_CYRUS.length + 36 < E.MAX_MAILBOX_PATH) :
    tokenuri E u m = E.XML_NS_CYRUS ++ "sync/" ++ Nat.repr u ++ "-" ++ Nat.repr m := by
  apply String.ext
  have hfull : (E.XML_NS_CYRUS ++ "sync/" ++ Nat.repr u ++ "-" ++ Nat.repr m).toList =
      (E.XML_NS_CYRUS.toList ++ ['s', 'y', 'n', 'c']) ++
        '/' :: (Nat.toDigits 10 u ++ '-' :: Nat.toDigits 10 m) := by
    simp only [String.toList, String.data_append, Nat.repr, List.asString]
    simp
  exact (tokenuri_toList E u m hu hm hfit).trans hfull.symm

/-- C25: for a mailbox with a uidvalidity of 32 bits and a highestmodseq of
64 bits, and a token buffer that holds the namespace text and 36 more
characters, the value that `propfind_sync_token` yields for the collection
(status 200) is the sync-token of every successful report on that mailbox
whose result is not truncated: the namespace text, `sync/`, the uidvalidity,
a dash and the highestmodseq. -/
theorem sync_token_property_is_report_token (E : environment) (mb : mailbox) (depth : Nat)
    (children : List xml_node) (st : report_state)
    (hst : report_sync_col E (.ok mb) depth children = st) (hok : st.ret = none)
    (hun : ¬ st.limit < (select_resources E mb st.syncmodseq).length)
    (hu : mb.uidvalidity < 2 ^ 32) (hm : mb.highestmodseq < 2 ^ 64)
    (hfit : E.XML_NS_CYRUS.length + 36 < E.MAX_MAILBOX_PATH) :
    (propfind_sync_token E (some mb) none).status = HTTP_OK ∧
    (propfind_sync_token E (some mb) none).content = st.sync_token ∧
    st.sync_token = some (E.XML_NS_CYRUS ++ "sync/" ++ Nat.repr mb.uidvalidity ++ "-" ++
      Nat.repr mb.highestmodseq) := by
  obtain ⟨_, _, htok, hfields⟩ := report_success_fields E mb depth children st hst hok
  have hhigh : st.highestmodseq = mb.highestmodseq := by
    rcases hfields with ⟨_, _, _, hh, _⟩ | ⟨htr, _⟩
    · exact hh
    · exact absurd htr hun
  have hval : st.sync_token = some (E.XML_NS_CYRUS ++ "sync/" ++ Nat.repr mb.uidvalidity ++
      "-" ++ Nat.repr mb.highestmodseq) := by
    rw [htok, hhigh, tokenuri_uncut E _ _ hu hm hfit]
  exact ⟨rfl, hval.symm, hval⟩

/-- The report on the scenario mailbox without a limit is not truncated;
its token and the property value are both the text for 7 and 100. -/
theorem sync_token_property_is_report_token_witness :
    (report_sync_col sample_environment (.ok scenario_mailbox) 1 unlimited_request).ret = none ∧
    (propfind_sync_token sample_environment (some scenario_mailbox) none).content =
      some "http://cyrusimap.org/ns/sync/7-100" ∧
    (propfind_sync_token sample_environment (some scenario_mailbox) none).content =
      (report_sync_col sample_environment (.ok scenario_mailbox) 1 unlimited_request).sync_token :=
  ⟨by decide, by decide,
    (sync_token_property_is_report_token sample_environment scenario_mailbox 1 unlimited_request
      _ rfl (by decide) (by decide) (by decide) (by decide) (by decide)).2.1⟩

/-! ## WebDAV privileges -/

/-- A mask that was added to the rights is found in them whole. -/
theorem or_and_self_right (r b : Nat) : (r ||| b) &&& b = b := by
  apply Nat.eq_of_testBit_eq
  intro i
  simp only [Nat.testBit_and, Nat.testBit_or]
  cases r.testBit i <;> cases b.testBit i <;> rfl

/-- A mask that is not 0 and was added to the rights meets them. -/
theorem or_and_ne_zero (r b : Nat) (hb : b ≠ 0) : (r ||| b) &&& b ≠ 0 := by
  rw [or_and_self_right]; exact hb

/-- The privileges that `add_privs` lists when no flag is given, each with
the test on the rights that admits it. -/
theorem add_privs_no_flags (A : acl_bits) (rights : Nat) (p : priv_elem) :
    some p ∈ add_privs A rights 0 ↔
      (p = ⟨NS_DAV, "all"⟩ ∧ rights &&& DACL_ALL A = DACL_ALL A) ∨
      (p = ⟨NS_DAV, "read"⟩ ∧ rights &&& DACL_READ A = DACL_READ A) ∨
      (p = ⟨NS_CALDAV, "read-free-busy"⟩ ∧ rights &&& DACL_READFB A ≠ 0) ∨
      (p = ⟨NS_DAV, "write"⟩ ∧ rights &&& DACL_WRITE A = DACL_WRITE A) ∨
      (p = ⟨NS_DAV, "write-content"⟩ ∧ rights &&& DACL_WRITECONT A ≠ 0) ∨
      (p = ⟨NS_DAV, "write-properties"⟩ ∧ rights &&& DACL_WRITEPROPS A ≠ 0) ∨
      (p = ⟨NS_DAV, "bind"⟩ ∧ rights &&& DACL_BIND A = DACL_BIND A) ∨
      (p = ⟨NS_CYRUS, "make-collection"⟩ ∧ rights &&& DACL_MKCOL A ≠ 0) ∨
      (p = ⟨NS_CYRUS, "add-resource"⟩ ∧ rights &&& DACL_ADDRSRC A ≠ 0) ∨
      (p = ⟨NS_DAV, "unbind"⟩ ∧ rights &&& DACL_UNBIND A = DACL_UNBIND A) ∨
      (p = ⟨NS_CYRUS, "remove-collection"⟩ ∧ rights &&& DACL_RMCOL A ≠ 0) ∨
      (p = ⟨NS_CYRUS, "remove-resource"⟩ ∧ rights &&& DACL_RMRSRC A ≠ 0) ∨
      (p = ⟨NS_CYRUS, "admin"⟩ ∧ rights &&& DACL_ADMIN A ≠ 0) := by
  have h0 : ¬ (rights &&& DACL_READ A = DACL_READ A ∧ 0 &&& PRIV_IMPLICIT ≠ 0) := by
    rintro ⟨_, h⟩
    exact h (Nat.zero_and _)
  have h1 : ¬ (0 &&& PRIV_INBOX ≠ 0) := fun h => h (Nat.zero_and _)
  have h2 : ¬ (0 &&& PRIV_OUTBOX ≠ 0) := fun h => h (Nat.zero_and _)
  unfold add_privs
  simp only [if_neg h0, if_neg h1, if_neg h2, List.mem_append]
  constructor
  · intro h
    rcases h with ((((((((((((h|h)|h)|h)|h)|h)|h)|h)|h)|h)|h)|h)|h)|h
    all_goals
      split at h
      · first
        | (simp only [List.mem_singleton, Option.some.injEq] at h; subst h; simp_all)
        | (simp at h)
      · simp at h
  · intro h
    rcases h with ⟨rfl, h⟩|⟨rfl, h⟩|⟨rfl, h⟩|⟨rfl, h⟩|⟨rfl, h⟩|⟨rfl, h⟩|⟨rfl, h⟩|⟨rfl, h⟩|⟨rfl, h⟩|
      ⟨rfl, h⟩|⟨rfl, h⟩|⟨rfl, h⟩|⟨rfl, h⟩
    all_goals simp [h]

/-- A privilege that the extension callback passes over, leaving the rights
as they are, is treated as without a callback. -/
theorem meth_acl_privilege_unhandled (A : acl_bits)
    (acl_ext : Option (priv_elem → Nat → acl_ext_result)) (priv : priv_elem) (rights : Nat)
    (hext : ∀ f, acl_ext = some f →
      (f priv rights).handled = false ∧ (f priv rights).rights = rights) :
    meth_acl_privilege A acl_ext priv rights = meth_acl_privilege A none priv rights := by
  cases acl_ext with
  | none => rfl
  | some f =>
    obtain ⟨h1, h2⟩ := hext f rfl
    unfold meth_acl_privilege
    simp only [h1, h2]
    simp

/-- C26: for right bits that are not 0, every privilege that `meth_acl`
accepts in an ACE (DAV: all, read, write, write-content, write-properties,
bind, unbind; Cyrus: make-collection, remove-collection, add-resource,
remove-resource, admin) and that the extension callback, if there is one,
passes over, is parsed without error, whatever rights were gathered before
it, and the rights after it, rendered by `add_privs` with no flags, give a
list of privileges that holds the same name in the same namespace. -/
theorem privilege_round_trip (A : acl_bits)
    (acl_ext : Option (priv_elem → Nat → acl_ext_result)) (priv : priv_elem) (rights : Nat)
    (hbits : acl_bits_nonzero A)
    (hext : ∀ f, acl_ext = some f →
      (f priv rights).handled = false ∧ (f priv rights).rights = rights)
    (hp : priv ∈ accepted_privileges) :
    ∃ r, meth_acl_privilege A acl_ext priv rights = .ok r ∧
      some priv ∈ add_privs A r 0 := by
  obtain ⟨b1, b2, b3, b4, b5, b6, b7⟩ := hbits
  rw [meth_acl_privilege_unhandled A acl_ext priv rights hext]
  simp only [accepted_privileges, List.mem_cons, List.mem_singleton, List.not_mem_nil,
    or_false] at hp
  rcases hp with rfl|rfl|rfl|rfl|rfl|rfl|rfl|rfl|rfl|rfl|rfl|rfl
  · exact ⟨rights ||| DACL_ALL A, by simp [meth_acl_privilege],
      (add_privs_no_flags A _ _).2 (Or.inl ⟨rfl, or_and_self_right _ _⟩)⟩
  · exact ⟨rights ||| DACL_READ A, by simp [meth_acl_privilege],
      (add_privs_no_flags A _ _).2 (Or.inr (Or.inl ⟨rfl, or_and_self_right _ _⟩))⟩
  · exact ⟨rights ||| DACL_WRITE A, by simp [meth_acl_privilege],
      (add_privs_no_flags A _ _).2
        (Or.inr (Or.inr (Or.inr (Or.inl ⟨rfl, or_and_self_right _ _⟩))))⟩
  · exact ⟨rights ||| DACL_WRITECONT A, by simp [meth_acl_privilege],
      (add_privs_no_flags A _ _).2
        (Or.inr (Or.inr (Or.inr (Or.inr (Or.inl ⟨rfl, or_and_ne_zero _ _ b1⟩)))))⟩
  · exact ⟨rights ||| DACL_WRITEPROPS A, by simp [meth_acl_privilege],
      (add_privs_no_flags A _ _).2
        (Or.inr (Or.inr (Or.inr (Or.inr (Or.inr (Or.inl ⟨rfl, or_and_ne_zero _ _ b2⟩))))))⟩
  · exact ⟨rights ||| DACL_BIND A, by simp [meth_acl_privilege],
      (add_privs_no_flags A _ _).2
        (Or.inr (Or.inr (Or.inr (Or.inr (Or.inr (Or.inr
          (Or.inl ⟨rfl, or_and_self_right _ _⟩)))))))⟩
  · exact ⟨rights ||| DACL_UNBIND A, by simp [meth_acl_privilege],
      (add_privs_no_flags A _ _).2
        (Or.inr (Or.inr (Or.inr (Or.inr (Or.inr (Or.inr (Or.inr (Or.inr (Or.inr
          (Or.inl ⟨rfl, or_and_self_right _ _⟩))))))))))⟩
  · exact ⟨rights ||| DACL_MKCOL A, by simp [meth_acl_privilege],
      (add_privs_no_flags A _ _).2
        (Or.inr (Or.inr (Or.inr (Or.inr (Or.inr (Or.inr (Or.inr
          (Or.inl ⟨rfl, or_and_ne_zero _ _ b3⟩))))))))⟩
  · exact ⟨rights ||| DACL_RMCOL A, by simp [meth_acl_privilege],
      (add_privs_no_flags A _ _).2
        (Or.inr (Or.inr (Or.inr (Or.inr (Or.inr (Or.inr (Or.inr (Or.inr (Or.inr (Or.inr
          (Or.inl ⟨rfl, or_and_ne_zero _ _ b5⟩)))))))))))⟩
  · exact ⟨rights ||| DACL_ADDRSRC A, by simp [meth_acl_privilege],
      (add_privs_no_flags A _ _).2
        (Or.inr (Or.inr (Or.inr (Or.inr (Or.inr (Or.inr (Or.inr (Or.inr
          (Or.inl ⟨rfl, or_and_ne_zero _ _ b4⟩)))))))))⟩
  · exact ⟨rights ||| DACL_RMRSRC A, by simp [meth_acl_privilege],
      (add_privs_no_flags A _ _).2
        (Or.inr (Or.inr (Or.inr (Or.inr (Or.inr (Or.inr (Or.inr (Or.inr (Or.inr (Or.inr
          (Or.inr (Or.inl ⟨rfl, or_and_ne_zero _ _ b6⟩))))))))))))⟩
  · exact ⟨rights ||| DACL_ADMIN A, by simp [meth_acl_privilege],
      (add_privs_no_flags A _ _).2
        (Or.inr (Or.inr (Or.inr (Or.inr (Or.inr (Or.inr (Or.inr (Or.inr (Or.inr (Or.inr
          (Or.inr (Or.inr ⟨rfl, or_and_ne_zero _ _ b7⟩))))))))))))⟩

/-- With the bits of `lib/acl.h` and no extension callback: `write` alone is
parsed to the six bits of `DACL_WRITE`, and their rendering holds `write`. -/
theorem privilege_round_trip_witness :
    acl_bits_nonzero sample_acl_bits ∧
    meth_acl_privilege sample_acl_bits none ⟨NS_DAV, "write"⟩ 0 = .ok 0x1f8 ∧
    ∃ r, meth_acl_privilege sample_acl_bits none ⟨NS_DAV, "write"⟩ 0 = .ok r ∧
      some ⟨NS_DAV, "write"⟩ ∈ add_privs sample_acl_bits r 0 :=
  ⟨by simp [acl_bits_nonzero, sample_acl_bits], rfl,
    privilege_round_trip sample_acl_bits none ⟨NS_DAV, "write"⟩ 0
      (by simp [acl_bits_nonzero, sample_acl_bits]) (fun _ h => nomatch h) (by decide)⟩

/-! ## The limit that is too small -/

/-- The cut reaches 0 exactly when all entries up to the start value carry
one modseq. -/
theorem last_with_modseq_zero_iff (l : List index_map) (k : Nat) :
    last_with_modseq l k = 0 ↔
      ∀ j, j ≤ k → (l.getD j zero_map).record.modseq = (l.getD k zero_map).record.modseq := by
  constructor
  · intro h j hj
    exact last_with_modseq_run l k j (by omega) hj
  · intro h
    by_contra hne
    have hb := last_with_modseq_boundary l k hne
    have hle := last_with_modseq_le l k
    exact hb ((h _ (by omega)).trans (h _ hle).symm)

/-- In a list that is ascending by modseq, the entries up to position `k`
carry one modseq exactly when more than `k` entries carry the smallest
modseq of the list. -/
theorem sorted_prefix_one_modseq (l : List index_map)
    (hs : l.Pairwise (fun a b => a.record.modseq ≤ b.record.modseq)) (k : Nat)
    (hk : k < l.length) :
    (∀ j, j ≤ k → (l.getD j zero_map).record.modseq = (l.getD k zero_map).record.modseq) ↔
      ∃ m, (∀ x ∈ l, m ≤ x.record.modseq) ∧
        k < (l.filter (fun x => decide (x.record.modseq = m))).length := by
  constructor
  · intro h
    refine ⟨(l.getD k zero_map).record.modseq, ?_, ?_⟩
    · intro x hx
      obtain ⟨i, hi, rfl⟩ := List.mem_iff_getElem.1 hx
      have h0 := sorted_getD_le l hs 0 i (Nat.zero_le _) hi
      rw [h 0 (Nat.zero_le _), List.getD_eq_getElem l zero_map hi] at h0
      exact h0
    · have hall : ∀ x ∈ l.take (k + 1),
          decide (x.record.modseq = (l.getD k zero_map).record.modseq) = true := by
        intro x hx
        obtain ⟨i, hi, rfl⟩ := List.mem_take_iff_getElem.1 hx
        have hi' : i < l.length := by omega
        have := h i (by omega)
        rw [List.getD_eq_getElem l zero_map hi'] at this
        exact decide_eq_true this
      have hsplit : l.filter (fun x => decide (x.record.modseq = (l.getD k zero_map).record.modseq)) =
          (l.take (k + 1)).filter
              (fun x => decide (x.record.modseq = (l.getD k zero_map).record.modseq)) ++
            (l.drop (k + 1)).filter
              (fun x => decide (x.record.modseq = (l.getD k zero_map).record.modseq)) := by
        rw [← List.filter_append, List.take_append_drop]
      rw [hsplit, List.filter_eq_self.2 hall, List.length_append, List.length_take]
      omega
  · rintro ⟨m, hmin, hcount⟩
    have hall : ∀ j, j ≤ k → (l.getD j zero_map).record.modseq = m := by
      intro j hj
      by_contra hne
      have hjl : j < l.length := by omega
      have hgt : m < (l.getD j zero_map).record.modseq := by
        have := hmin (l.getD j zero_map) (by
          rw [List.getD_eq_getElem l zero_map hjl]; exact List.getElem_mem _)
        omega
      have hnone : ∀ x ∈ l.drop j, decide (x.record.modseq = m) = false := by
        intro x hx
        obtain ⟨i, hi, rfl⟩ := List.mem_iff_getElem.1 hx
        rw [List.length_drop] at hi
        rw [List.getElem_drop]
        have := sorted_getD_le l hs j (j + i) (by omega) (by omega)
        rw [List.getD_eq_getElem l zero_map (by omega : j + i < l.length)] at this
        exact decide_eq_false (by omega)
      have hsplit : l.filter (fun x => decide (x.record.modseq = m)) =
          (l.take j).filter (fun x => decide (x.record.modseq = m)) ++
            (l.drop j).filter (fun x => decide (x.record.modseq = m)) := by
        rw [← List.filter_append, List.take_append_drop]
      have hnil : (l.drop j).filter (fun x => decide (x.record.modseq = m)) = [] :=
        List.filter_eq_nil_iff.2 (fun a ha => by rw [hnone a ha]; exact Bool.false_ne_true)
      rw [hsplit, hnil, List.append_nil] at hcount
      have := List.length_filter_le (fun x => decide (x.record.modseq = m)) (l.take j)
      rw [List.length_take] at this
      omega
    intro j hj
    rw [hall j hj, hall k (Nat.le_refl _)]

/-- The cut on the sorted selection reaches 0 exactly when the condition of
the claim holds for the selection. -/
theorem cut_zero_iff_limit_too_small (E : environment) (hq : qsort_contract E)
    (sel : List index_map) (limit : Nat) (hlim : limit < sel.length) :
    last_with_modseq (E.qsort map_modseq_cmp sel) limit = 0 ↔ limit_too_small sel limit := by
  have hperm := (hq sel).1
  have hs := qsort_sorted E hq sel
  have hlen : limit < (E.qsort map_modseq_cmp sel).length := by rw [hperm.length_eq]; exact hlim
  rw [last_with_modseq_zero_iff, sorted_prefix_one_modseq _ hs limit hlen]
  unfold limit_too_small
  constructor
  · rintro ⟨m, hmin, hcount⟩
    refine ⟨hlim, m, fun x hx => hmin x (hperm.mem_iff.2 hx), ?_⟩
    rw [← (hperm.filter _).length_eq]
    exact hcount
  · rintro ⟨_, m, hmin, hcount⟩
    refine ⟨m, fun x hx => hmin x (hperm.mem_iff.1 hx), ?_⟩
    rw [(hperm.filter _).length_eq]
    exact hcount

/-- C23: for a request that is parsed without error and has an accepted
depth, `report_sync_col` fails with 403 and "Unable to truncate results"
if and only if more records are selected than the limit allows and the
`limit + 1` selected records with the smallest modseqs share one modseq;
this is so for every limit of 0 with a record selected; with a limit of 0
and nothing selected the report succeeds with an empty batch, no response
(so no 507 either) and the token of the header's highestmodseq. -/
theorem limit_too_small_iff (E : environment) (hq : qsort_contract E)
    (mb : mailbox) (depth : Nat) (children : List xml_node) (p st : report_state)
    (hp : parsed_request E mb depth children = p)
    (hst : report_sync_col E (.ok mb) depth children = st)
    (hret : p.ret = none) (hd : p.depth ≠ 0) :
    ((st.ret = some HTTP_FORBIDDEN ∧ st.errstr = some "Unable to truncate results") ↔
      limit_too_small (select_resources E mb p.syncmodseq) p.limit) ∧
    (p.limit = 0 → select_resources E mb p.syncmodseq ≠ [] →
      limit_too_small (select_resources E mb p.syncmodseq) p.limit) ∧
    (p.limit = 0 → select_resources E mb p.syncmodseq = [] →
      st.ret = none ∧ batch st = [] ∧ st.responses = [] ∧
      st.sync_token = some (tokenuri E mb.uidvalidity mb.highestmodseq)) := by
  obtain ⟨f1, f2, _⟩ := parsed_request_frame E mb depth children
  rw [hp] at f1 f2
  subst hst
  refine ⟨?_, ?_, ?_⟩
  · rcases report_cases E mb depth children p hp with
      ⟨hr, _⟩ | ⟨_, h0, _⟩ | ⟨_, _, hlim, hc, h1⟩ | ⟨_, _, hlim, hc, _, h1⟩ | ⟨_, _, hno, _, h1⟩ |
      ⟨_, _, hlim, hc, _, k, h1⟩ | ⟨_, _, hno, _, k, h1⟩
    · exact absurd hret hr
    · exact absurd h0 hd
    · rw [h1]
      exact ⟨fun _ => (cut_zero_iff_limit_too_small E hq _ _ hlim).1 hc, fun _ => ⟨rfl, rfl⟩⟩
    · rw [h1]
      constructor
      · rintro ⟨hf, _⟩
        have : p.ret = some HTTP_FORBIDDEN := hf
        rw [hret] at this
        exact absurd this (by simp)
      · intro h
        exact absurd ((cut_zero_iff_limit_too_small E hq _ _ hlim).2 h) hc
    · rw [h1]
      constructor
      · rintro ⟨hf, _⟩
        have : p.ret = some HTTP_FORBIDDEN := hf
        rw [hret] at this
        exact absurd this (by simp)
      · intro h
        exact absurd h.1 hno
    · rw [h1]
      constructor
      · rintro ⟨hf, _⟩
        exact absurd hf (by simp)
      · intro h
        exact absurd ((cut_zero_iff_limit_too_small E hq _ _ hlim).2 h) hc
    · rw [h1]
      constructor
      · rintro ⟨hf, _⟩
        exact absurd hf (by simp)
      · intro h
        exact absurd h.1 hno
  · intro h0 hne
    have hlim : p.limit < (select_resources E mb p.syncmodseq).length := by
      rw [h0]
      exact List.length_pos.2 hne
    apply (cut_zero_iff_limit_too_small E hq _ _ hlim).1
    rw [h0]
    rfl
  · intro h0 hnil
    rcases report_cases E mb depth children p hp with
      ⟨hr, _⟩ | ⟨_, hz, _⟩ | ⟨_, _, hlim, _⟩ | ⟨_, _, hlim, _⟩ | ⟨_, _, _, _, h1⟩ |
      ⟨_, _, hlim, _⟩ | ⟨_, _, _, hex, _⟩
    · exact absurd hret hr
    · exact absurd hz hd
    · rw [hnil] at hlim; exact absurd hlim (by simp)
    · rw [hnil] at hlim; exact absurd hlim (by simp)
    · rw [h1, hnil]
      refine ⟨hret, rfl, ?_, ?_⟩
      · show p.responses ++ List.filterMap (emitted_response E mb) [] = []
        rw [f2]
        rfl
      · show some (tokenuri E mb.uidvalidity p.highestmodseq) = _
        rw [f1]
    · rw [hnil] at hlim; exact absurd hlim (by simp)
    · rw [hnil] at hex
      obtain ⟨m, hm, _⟩ := hex
      simp at hm

/-- On the scenario mailbox the request with token modseq 91 and limit 1
selects the modseqs 92, 92, 93, 95: the two smallest share 92, and the
report fails with the limit error. On the mailbox without records the
limit 0 gives a successful report with an empty batch. -/
theorem limit_too_small_iff_witness :
    qsort_contract sample_environment ∧
    (parsed_request sample_environment scenario_mailbox 1 tight_request).ret = none ∧
    (parsed_request sample_environment scenario_mailbox 1 tight_request).depth ≠ 0 ∧
    (report_sync_col sample_environment (.ok scenario_mailbox) 1 tight_request).errstr =
      some "Unable to truncate results" ∧
    limit_too_small
      (select_resources sample_environment scenario_mailbox
        (parsed_request sample_environment scenario_mailbox 1 tight_request).syncmodseq)
      (parsed_request sample_environment scenario_mailbox 1 tight_request).limit ∧
    ((report_sync_col sample_environment (.ok empty_mailbox) 1 zero_limit_request).ret = none ∧
      batch (report_sync_col sample_environment (.ok empty_mailbox) 1 zero_limit_request) = [] ∧
      (report_sync_col sample_environment (.ok empty_mailbox) 1 zero_limit_request).responses =
        [] ∧
      (report_sync_col sample_environment (.ok empty_mailbox) 1 zero_limit_request).sync_token =
        some (tokenuri sample_environment empty_mailbox.uidvalidity
          empty_mailbox.highestmodseq)) :=
  ⟨sample_qsort_contract, by decide, by decide, by decide,
    (limit_too_small_iff sample_environment sample_qsort_contract scenario_mailbox 1
      tight_request _ _ rfl rfl (by decide) (by decide)).1.1 ⟨by decide, by decide⟩,
    (limit_too_small_iff sample_environment sample_qsort_contract empty_mailbox 1
      zero_limit_request _ _ rfl rfl (by decide) (by decide)).2.2 (by decide) (by decide)⟩

/-! ## PROPPATCH and the annotation transaction -/

/-- C24 fails on the code: in a PROPPATCH that sets the dead properties
`color` and `size`, the annotation write for `size` fails; `proppatch_todb`
files `size` under 500 but leaves `*pctx->ret` at 0, so `color` stays under
200 and `meth_proppatch` commits the transaction. When instead the second
property is refused (the protected DAV:getetag, 403), `*pctx->ret` is set:
`color` is reported under 424 and the transaction is aborted. -/
theorem failed_write_is_committed :
    meth_proppatch sample_proppatch_environment sample_proppatch_ctx false two_dead_properties =
      { ret := none
        transaction := .annotatemore_commit
        multistatus := some
          [⟨some [⟨"http://example.com/ns/", "color"⟩], some HTTP_OK, none⟩,
           ⟨some [⟨"http://example.com/ns/", "size"⟩], some HTTP_SERVER_ERROR, none⟩]
        errstr := none
        writes := [⟨"/vendor/cmu/cyrus-imapd/1234ABCD:color", some "red", 0⟩,
          ⟨"/vendor/cmu/cyrus-imapd/1234ABCD:size", some "10", -1⟩] } ∧
    meth_proppatch sample_proppatch_environment sample_proppatch_ctx false
        dead_and_protected_property =
      { ret := none
        transaction := .annotatemore_abort
        multistatus := some
          [⟨some [⟨"DAV:", "getetag"⟩], some HTTP_FORBIDDEN, some DAV_PROT_PROP⟩,
           ⟨some [⟨"http://example.com/ns/", "color"⟩], some HTTP_FAILED_DEP, none⟩]
        errstr := none
        writes := [⟨"/vendor/cmu/cyrus-imapd/1234ABCD:color", some "red", 0⟩] } := by
  decide

/-! ## The index record codec -/

/-- A field takes as many bytes as its width. -/
theorem encode_be_length : ∀ (width value : Nat), (encode_be width value).length = width := by
  intro width
  induction width with
  | zero => intro value; rfl
  | succ w ih => intro value; simp [encode_be, ih]

/-- Every byte of a field is below 256. -/
theorem encode_be_bytes : ∀ (width value : Nat), ∀ b ∈ encode_be width value, b < 256 := by
  intro width
  induction width with
  | zero => intro value b hb; simp [encode_be] at hb
  | succ w ih =>
    intro value b hb
    rw [encode_be, List.mem_cons] at hb
    rcases hb with rfl | hb
    · exact Nat.mod_lt _ (by decide)
    · exact ih value b hb

/-- Reading the bytes of a field after a value `acc` shifts `acc` by the
width and adds the part of the value that fits the width. -/
theorem foldl_encode_be : ∀ (width value acc : Nat),
    (encode_be width value).foldl (fun a b => a * 256 + b) acc =
      acc * 256 ^ width + value % 256 ^ width := by
  intro width
  induction width with
  | zero => intro value acc; simp [encode_be, Nat.mod_one]
  | succ w ih =>
    intro value acc
    rw [encode_be, List.foldl_cons, ih, Nat.mod_pow_succ]
    ring

/-- A value that fits its width is read back from its bytes. -/
theorem decode_encode_be (width value : Nat) (h : value < 256 ^ width) :
    decode_be (encode_be width value) = value := by
  unfold decode_be
  rw [foldl_encode_be, Nat.zero_mul, Nat.zero_add, Nat.mod_eq_of_lt h]

/-- A sequence of the fixed length is left as it is. -/
theorem fixed_length_self (n : Nat) (xs : List Nat) (h : xs.length = n) :
    fixed_length n xs = xs := by
  unfold fixed_length
  exact List.take_left' h

/-- The words of the user flags are read back from their bytes. -/
theorem decode_words_encode (width : Nat) : ∀ (ws rest : List Nat),
    (∀ w ∈ ws, w < 256 ^ width) →
    decode_words width ws.length (ws.flatMap (encode_be width) ++ rest) = ws := by
  intro ws
  induction ws with
  | nil => intro rest _; rfl
  | cons w ws ih =>
    intro rest h
    have hw := h w (List.mem_cons_self _ _)
    rw [List.flatMap_cons, List.length_cons, decode_words, List.append_assoc,
      List.take_left' (encode_be_length width w), List.drop_left' (encode_be_length width w),
      decode_encode_be width w hw, ih rest (fun x hx => h x (List.mem_cons_of_mem _ hx))]

/-- The bytes of the user flag words take the words times the width. -/
theorem flatMap_encode_be_length (width : Nat) : ∀ ws : List Nat,
    (ws.flatMap (encode_be width)).length = ws.length * width := by
  intro ws
  induction ws with
  | nil => simp
  | cons w ws ih =>
    rw [List.flatMap_cons, List.length_append, encode_be_length, ih, List.length_cons]
    ring

/-- A sequence brought to a fixed length has that length. -/
theorem fixed_length_length (n : Nat) (xs : List Nat) : (fixed_length n xs).length = n := by
  unfold fixed_length
  rw [List.length_take, List.length_append, List.length_replicate]
  omega

/-- The fields of every record take `OFFSET_RECORD_CRC` bytes. -/
theorem encode_fields_length (L : codec_layout) (r : IndexRecord) :
    (encode_fields L r).length = OFFSET_RECORD_CRC L := by
  unfold encode_fields OFFSET_RECORD_CRC
  simp only [List.length_append, encode_be_length, fixed_length_length,
    flatMap_encode_be_length]

/-- The block of a record, field by field. -/
theorem encode_eq (L : codec_layout) (r : IndexRecord) :
    encode L r =
      encode_be L.uid_width r.uid ++ (encode_be 8 r.modseq ++
        (encode_be L.date_width r.internalDate ++ (encode_be L.size_width r.size ++
          (encode_be L.size_width r.headerSize ++ (fixed_length L.guid_size r.guid ++
            (encode_be L.flags_width r.systemFlags ++
              ((fixed_length L.user_flag_words r.userFlags).flatMap (encode_be L.flags_width) ++
                encode_be 4 (record_crc L r)))))))) := by
  unfold encode encode_fields
  simp only [List.append_assoc]

/-- C21: for every layout of the block and every valid record `r`,
`decode (encode r)` is `r`; the block that `encode` produces has the fixed
size `INDEX_RECORD_SIZE`, which is `OFFSET_RECORD_CRC + 4`, consists of
bytes, and its last four bytes are the record CRC, which is the checksum of
the bytes before them. -/
theorem decode_encode (L : codec_layout) (r : IndexRecord) (hv : valid_record L r) :
    decode L (encode L r) = .ok r ∧
    (encode L r).length = INDEX_RECORD_SIZE L ∧
    (encode L r).drop (INDEX_RECORD_SIZE L - 4) = encode_be 4 r.crc ∧
    r.crc = L.crc32_map ((encode L r).take (INDEX_RECORD_SIZE L - 4)) % 4294967296 ∧
    (∀ b ∈ encode L r, b < 256) := by
  obtain ⟨h1, h2, h3, h4, h5, h6, h6b, h7, h8, h9, h10⟩ := hv
  have hlen : (encode L r).length = INDEX_RECORD_SIZE L := by
    unfold encode INDEX_RECORD_SIZE
    rw [List.length_append, encode_fields_length, encode_be_length]
  have hoff : INDEX_RECORD_SIZE L - 4 = OFFSET_RECORD_CRC L := by
    unfold INDEX_RECORD_SIZE; omega
  have hdrop : (encode L r).drop (OFFSET_RECORD_CRC L) = encode_be 4 (record_crc L r) := by
    unfold encode
    exact List.drop_left' (encode_fields_length L r)
  have htake : (encode L r).take (OFFSET_RECORD_CRC L) = encode_fields L r := by
    unfold encode
    exact List.take_left' (encode_fields_length L r)
  have hcrc : record_crc L r < 256 ^ 4 := by
    unfold record_crc
    exact Nat.mod_lt _ (by decide)
  refine ⟨?_, hlen, ?_, ?_, ?_⟩
  · unfold decode
    rw [if_neg (by rw [hlen]; exact fun h => h rfl), hdrop, htake, decode_encode_be 4 _ hcrc,
      if_neg (fun h => h rfl)]
    simp only [encode_eq, fixed_length_self _ _ h6, fixed_length_self _ _ h8,
      List.take_left' (encode_be_length _ _), List.drop_left' (encode_be_length _ _),
      List.take_left' h6, List.drop_left' h6]
    rw [decode_encode_be _ _ h1, decode_encode_be _ _ h2, decode_encode_be _ _ h3,
      decode_encode_be _ _ h4, decode_encode_be _ _ h5, decode_encode_be _ _ h7, ← h8,
      decode_words_encode _ _ _ h9, ← h10]
  · rw [hoff, hdrop, h10]
  · rw [hoff, htake, h10]
    rfl
  · intro b hb
    unfold encode encode_fields at hb
    rw [fixed_length_self _ _ h6, fixed_length_self _ _ h8] at hb
    simp only [List.mem_append, List.mem_flatMap] at hb
    rcases hb with (hb | hb | hb | hb | hb | hb | hb | ⟨w, _, hb⟩) | hb
    all_goals first
      | exact encode_be_bytes _ _ b hb
      | exact h6b b hb

/-- The sample record is valid for the sample layout; its block has 68
bytes, ends in the bytes of its CRC 715, and is decoded to the record. -/
theorem decode_encode_witness :
    valid_record sample_layout sample_record ∧
    (encode sample_layout sample_record).length = 68 ∧
    (encode sample_layout sample_record).drop 64 = [0, 0, 2, 203] ∧
    decode sample_layout (encode sample_layout sample_record) = .ok sample_record :=
  ⟨by unfold valid_record; decide, by decide, by decide,
    (decode_encode sample_layout sample_record (by unfold valid_record; decide)).1⟩

/-- A block of the wrong size and a block with a changed byte are refused
with `CorruptRecord`. -/
theorem decode_refuses_corrupt_block :
    decode sample_layout ((encode sample_layout sample_record).take 67) =
      .error .CorruptRecord ∧
    decode sample_layout ((encode sample_layout sample_record).set 3 8) =
      .error .CorruptRecord :=
  ⟨rfl, rfl⟩

/-! ## PROPPATCH when a property is refused -/

/-- Filing a property keeps the status 200 to the element `PROPSTAT_OK`, when
it is filed under 200 there only. -/
theorem xml_add_prop_only_first_ok (status : http_code) (index : Nat) (prop : xml_name)
    (precond : Option prop_precond) (st : proppatch_state)
    (hs : index ≠ PROPSTAT_OK → status ≠ HTTP_OK) (h : only_first_ok st) :
    only_first_ok (xml_add_prop status index prop precond st) := by
  obtain ⟨hl, hi⟩ := h
  refine ⟨by simp [xml_add_prop, hl], ?_⟩
  intro i hne
  unfold xml_add_prop
  simp only [List.getD_eq_getElem?_getD, List.getElem?_set]
  by_cases hii : index = i
  · subst hii
    by_cases hlt : index < st.propstat.length
    · simp only [if_pos rfl, if_pos hlt, Option.getD_some]
      intro h
      exact hs hne (Option.some.inj h)
    · simp [hlt, zero_propstat]
  · have := hi i hne
    simp only [List.getD_eq_getElem?_getD] at this
    simpa [hii] using this

/-- An annotation write files under 200 at `PROPSTAT_OK` or under 500 at
`PROPSTAT_ERROR`. -/
theorem annotate_and_file_only_first_ok (E : proppatch_environment) (entry : String)
    (value : Option String) (prop : xml_name) (st : proppatch_state) (h : only_first_ok st) :
    only_first_ok (annotate_and_file E entry value prop st) := by
  unfold annotate_and_file
  simp only []
  split
  · exact xml_add_prop_only_first_ok _ _ _ _ _ (fun h => absurd rfl h) h
  · exact xml_add_prop_only_first_ok _ _ _ _ _ (fun _ => by decide) h

/-- A refusal files under 403 at `PROPSTAT_FORBID`. -/
theorem forbid_prop_only_first_ok (prop : xml_name) (precond : Option prop_precond)
    (st : proppatch_state) (h : only_first_ok st) : only_first_ok (forbid_prop prop precond st) :=
  xml_add_prop_only_first_ok HTTP_FORBIDDEN PROPSTAT_FORBID prop precond st (fun _ => by decide) h

/-- Every callback keeps the status 200 to the element `PROPSTAT_OK`. -/
theorem patch_property_only_first_ok (E : proppatch_environment) (ctx : proppatch_ctx)
    (set : Bool) (st : proppatch_state) (prop : prop_node) (h : only_first_ok st) :
    only_first_ok (patch_property E ctx set st prop) := by
  unfold patch_property
  split
  · exact h
  · split
    · split
      · exact forbid_prop_only_first_ok _ _ _ h
      · exact annotate_and_file_only_first_ok _ _ _ _ _ h
      · unfold proppatch_restype
        split
        · split
          · exact xml_add_prop_only_first_ok _ _ _ _ _ (fun h => absurd rfl h) h
          · exact forbid_prop_only_first_ok _ _ _ h
        · exact forbid_prop_only_first_ok _ _ _ h
      · unfold proppatch_calcompset
        split
        · split
          · exact annotate_and_file_only_first_ok _ _ _ _ _ h
          · exact forbid_prop_only_first_ok _ _ _ h
        · exact forbid_prop_only_first_ok _ _ _ h
      · unfold proppatch_caltransp
        split
        · split
          · exact xml_add_prop_only_first_ok HTTP_CONFLICT PROPSTAT_CONFLICT _ _ _
              (fun _ => by decide) h
          · exact annotate_and_file_only_first_ok _ _ _ _ _ h
        · exact forbid_prop_only_first_ok _ _ _ h
    · exact annotate_and_file_only_first_ok _ _ _ _ _ h

/-- The loop over the properties of one instruction keeps the status 200 to
the element `PROPSTAT_OK`. -/
theorem foldl_patch_property_only_first_ok (E : proppatch_environment) (ctx : proppatch_ctx)
    (set : Bool) : ∀ (props : List prop_node) (st : proppatch_state), only_first_ok st →
      only_first_ok (props.foldl (patch_property E ctx set) st) := by
  intro props
  induction props with
  | nil => intro st h; exact h
  | cons p ps ih =>
    intro st h
    exact ih _ (patch_property_only_first_ok E ctx set st p h)

/-- The loop over the instructions keeps the status 200 to the element
`PROPSTAT_OK`. -/
theorem patch_instructions_only_first_ok (E : proppatch_environment) (ctx : proppatch_ctx) :
    ∀ (instr : List instr_node) (st : proppatch_state), only_first_ok st →
      only_first_ok (patch_instructions E ctx instr st).2 := by
  intro instr
  induction instr with
  | nil => intro st h; exact h
  | cons i rest ih =>
    intro st h
    rw [patch_instructions]
    split
    · exact ih st h
    · split
      · exact h
      · split
        · exact h
        · split
          · exact h
          · exact ih _ (foldl_patch_property_only_first_ok E ctx _ _ st h)

/-- Once `*pctx->ret` is set, no propstat element that is left with
properties carries the status 200 after the step "200 status must become
424". -/
theorem fail_dependencies_no_ok (st : proppatch_state) (h : only_first_ok st)
    (hret : st.ret ≠ none) :
    ∀ stat ∈ (fail_dependencies st).propstat, stat.root.isSome = true →
      stat.status ≠ some HTTP_OK := by
  obtain ⟨hl, hi⟩ := h
  intro stat hmem hroot
  obtain ⟨j, hj, rfl⟩ := List.mem_iff_getElem.1 hmem
  unfold fail_dependencies at hj hroot ⊢
  by_cases h0 : (st.propstat.getD PROPSTAT_OK zero_propstat).root = none
  · have hc : ¬ (st.ret ≠ none ∧ (st.propstat.getD PROPSTAT_OK zero_propstat).root ≠ none) :=
      fun hh => hh.2 h0
    simp only [if_neg hc] at hj hroot ⊢
    by_cases hj0 : j = PROPSTAT_OK
    · subst hj0
      rw [List.getD_eq_getElem _ _ hj] at h0
      rw [h0] at hroot
      exact absurd hroot (by simp)
    · have := hi j hj0
      rwa [List.getD_eq_getElem _ _ hj] at this
  · have hc : st.ret ≠ none ∧ (st.propstat.getD PROPSTAT_OK zero_propstat).root ≠ none :=
      ⟨hret, h0⟩
    simp only [if_pos hc] at hj hroot ⊢
    simp only [List.length_set] at hj
    simp only [List.getElem_set] at hroot ⊢
    by_cases hj0 : PROPSTAT_OK = j
    · simp only [if_pos hj0] at hroot
      exact absurd hroot (by simp)
    · simp only [if_neg hj0] at hroot ⊢
      by_cases hj5 : PROPSTAT_FAILEDDEP = j
      · simp only [if_pos hj5]
        decide
      · simp only [if_neg hj5]
        have := hi j (fun h => hj0 h.symm)
        rwa [List.getD_eq_getElem _ _ hj] at this

/-- Whenever a property was refused, that is, `*pctx->ret` is set when
`do_proppatch` ends, no property is reported with status 200, and
`meth_proppatch` aborts the annotation transaction. -/
theorem refusal_is_all_or_nothing (E : proppatch_environment) (ctx : proppatch_ctx)
    (prefer_min : Bool) (instr : List instr_node)
    (hret : (do_proppatch E ctx none instr).ret ≠ none) :
    (∀ stat ∈ (do_proppatch E ctx none instr).response, stat.status ≠ some HTTP_OK) ∧
    (meth_proppatch E ctx prefer_min instr).transaction = .annotatemore_abort := by
  constructor
  · have hinv := patch_instructions_only_first_ok E ctx instr
      ⟨List.replicate NUM_PROPSTAT zero_propstat, none, []⟩
      ⟨by simp, fun i _ => by
        simp only [List.getD_eq_getElem?_getD, List.getElem?_replicate]
        split <;> simp [zero_propstat]⟩
    unfold do_proppatch at hret ⊢
    generalize patch_instructions E ctx instr
      ⟨List.replicate NUM_PROPSTAT zero_propstat, none, []⟩ = res at hinv hret ⊢
    obtain ⟨desc, st⟩ := res
    cases desc with
    | some d => intro stat hs; simp at hs
    | none =>
      simp only [] at hret ⊢
      have hr : st.ret ≠ none := by
        unfold fail_dependencies at hret
        split at hret <;> exact hret
      intro stat hs
      rw [List.mem_filter] at hs
      exact fail_dependencies_no_ok st hinv hr stat hs.1 hs.2
  · unfold meth_proppatch
    simp only []
    rw [if_pos (Or.inr hret)]
    split
    · rfl
    · split <;> rfl

/-- The transaction is committed exactly when `do_proppatch` returned 0 and
left `*pctx->ret` at 0. -/
theorem commit_iff_nothing_refused (E : proppatch_environment) (ctx : proppatch_ctx)
    (prefer_min : Bool) (instr : List instr_node) :
    (meth_proppatch E ctx prefer_min instr).transaction = .annotatemore_commit ↔
      ((do_proppatch E ctx none instr).result = none ∧
        (do_proppatch E ctx none instr).ret = none) := by
  unfold meth_proppatch
  simp only []
  by_cases h : (do_proppatch E ctx none instr).result ≠ none ∨
      (do_proppatch E ctx none instr).ret ≠ none
  · rw [if_pos h]
    constructor
    · intro hc
      split at hc
      · exact absurd hc (by simp)
      · split at hc <;> exact absurd hc (by simp)
    · rintro ⟨h1, h2⟩
      rcases h with h | h
      · exact absurd h1 h
      · exact absurd h2 h
  · rw [if_neg h]
    have h1 : (do_proppatch E ctx none instr).result = none := by
      by_contra hh; exact h (Or.inl hh)
    have h2 : (do_proppatch E ctx none instr).ret = none := by
      by_contra hh; exact h (Or.inr hh)
    constructor
    · intro _; exact ⟨h1, h2⟩
    · intro _
      split <;> rfl

/-- The general statement at the request with a protected property: the
code behind `pctx->ret` is 403, no property is reported with 200, and the
transaction is aborted. -/
theorem refusal_is_all_or_nothing_at_protected :
    (do_proppatch sample_proppatch_environment sample_proppatch_ctx none
      dead_and_protected_property).ret = some HTTP_FORBIDDEN ∧
    (∀ stat ∈ (do_proppatch sample_proppatch_environment sample_proppatch_ctx none
      dead_and_protected_property).response, stat.status ≠ some HTTP_OK) ∧
    (meth_proppatch sample_proppatch_environment sample_proppatch_ctx false
      dead_and_protected_property).transaction = .annotatemore_abort :=
  ⟨by decide,
    refusal_is_all_or_nothing sample_proppatch_environment sample_proppatch_ctx false
      dead_and_protected_property (by decide)⟩

end Cyrus
